import Mathlib

/-!
# LCD controller of the Game Boy emulator (`lcd.c`)

A shallow embedding of `lcd.c`: the register file, the scanline renderer
(background, window, sprites), the sprite selection and ordering, and the
per-tick driver `lcd_cycle`, followed by the properties proved about them.

Conventions of the embedding.
* A C `int` is an `Int`; a C `int` that only ever holds a value assigned from an
  `unsigned char` or a literal is a `Nat`.
* `unsigned int` arithmetic is carried out in `Int` and reduced with `toU32`.
* C `/` and `%` on `int` truncate towards zero: `Int.tdiv`, `Int.tmod`.
* The framebuffer and the memory are functions from an index to a value.
* The collaborators (`cpu_get_cycles`, `sdl_update`, `mem_get_raw`, `interrupt`,
  `sdl_frame`) are arguments of the functions that call them, or events in the
  trace the function returns.
-/

namespace Lcd

/-! ## Data model -/

/-- The framebuffer returned by `sdl_get_framebuffer`: `unsigned int` cells. Every
integer index is a cell of this model, also one outside the 640*480 buffer, so a
store never fails here; what a tick does to the buffer is stated for non-negative
counter values, where the rendered line is in 0..143 and its indices are shown to
lie in `line*640 .. line*640 + 639`. -/
abbrev FB := Int → Nat

/-- The memory behind `mem_get_raw`. -/
abbrev Mem := Int → Nat

/-- Modelled from the spec: `mem_get_raw` is declared in `mem.h`, which is not among
the sources; the memory collaborator is `read_byte(address) -> byte`, a
side-effect-free peek that always returns a byte. -/
def mem_get_raw (mem : Mem) (a : Int) : Nat := mem a % 256

/-- Conversion of an integer value to `unsigned int` (32 bits). -/
def toU32 (i : Int) : Int := i % 4294967296

/-- The C truth value of `!!v`. -/
def notnot (v : Nat) : Nat := if v ≠ 0 then 1 else 0

/-- Cell `i` of a C array given as a list (0 when absent). -/
def idx (l : List Nat) (i : Nat) : Nat := l.getD i 0

/-- The assignment `b[i] = v`. -/
def store (b : FB) (i : Int) (v : Nat) : FB := fun k => if k = i then v else b k

/-- The `struct sprite`. -/
structure Sprite where
  y : Int
  x : Int
  tile : Nat
  flags : Nat
deriving DecidableEq, Repr, Inhabited

def PRIO : Nat := 0x80
def VFLIP : Nat := 0x40
def HFLIP : Nat := 0x20
def PNUM : Nat := 0x10

/-- The file-scope variables of `lcd.c`, with the two `static` locals of
`lcd_cycle` (`prev_line`, `prev_mode`). -/
structure LCD where
  lcd_line : Int
  lcd_ly_compare : Nat
  ly_int : Nat
  oam_int : Nat
  vblank_int : Nat
  hblank_int : Nat
  lcd_mode : Nat
  lcd_enabled : Nat
  window_tilemap_select : Nat
  window_enabled : Nat
  tilemap_select : Nat
  bg_tiledata_select : Nat
  sprite_size : Nat
  sprites_enabled : Nat
  bg_enabled : Nat
  scroll_x : Nat
  scroll_y : Nat
  window_x : Nat
  window_y : Nat
  bgpalette : List Nat
  sprpalette1 : List Nat
  sprpalette2 : List Nat
  prev_line : Int
  prev_mode : Nat
deriving DecidableEq, Repr

/-- The state at program start: zero-initialised statics and the three palette
initialisers. -/
def LCD.init : LCD where
  lcd_line := 0
  lcd_ly_compare := 0
  ly_int := 0
  oam_int := 0
  vblank_int := 0
  hblank_int := 0
  lcd_mode := 0
  lcd_enabled := 0
  window_tilemap_select := 0
  window_enabled := 0
  tilemap_select := 0
  bg_tiledata_select := 0
  sprite_size := 0
  sprites_enabled := 0
  bg_enabled := 0
  scroll_x := 0
  scroll_y := 0
  window_x := 0
  window_y := 0
  bgpalette := [3, 2, 1, 0]
  sprpalette1 := [0, 1, 2, 3]
  sprpalette2 := [0, 1, 2, 3]
  prev_line := 0
  prev_mode := 0

/-- The shade table `colours`. -/
def colours : List Nat := [0xFFFFFF, 0xC0C0C0, 0x808080, 0x000000]

/-! ## Register file -/

def lcd_write_bg_palette (r : LCD) (n : Nat) : LCD :=
  { r with bgpalette := [(n >>> 0) &&& 3, (n >>> 2) &&& 3, (n >>> 4) &&& 3, (n >>> 6) &&& 3] }

def lcd_write_spr_palette1 (r : LCD) (n : Nat) : LCD :=
  { r with sprpalette1 := [0, (n >>> 2) &&& 3, (n >>> 4) &&& 3, (n >>> 6) &&& 3] }

def lcd_write_spr_palette2 (r : LCD) (n : Nat) : LCD :=
  { r with sprpalette2 := [0, (n >>> 2) &&& 3, (n >>> 4) &&& 3, (n >>> 6) &&& 3] }

def lcd_write_scroll_x (r : LCD) (n : Nat) : LCD := { r with scroll_x := n }

def lcd_write_scroll_y (r : LCD) (n : Nat) : LCD := { r with scroll_y := n }

def lcd_get_line (r : LCD) : Int := r.lcd_line

def lcd_get_stat (r : LCD) : Nat :=
  let coincidence : Nat := ((if r.lcd_line = (r.lcd_ly_compare : Int) then 1 else 0) <<< 2) % 256
  (0x80 ||| r.ly_int ||| r.oam_int ||| r.vblank_int ||| r.hblank_int ||| coincidence
    ||| r.lcd_mode) % 256

def lcd_write_stat (r : LCD) (c : Nat) : LCD :=
  { r with
    ly_int := c &&& 0x40
    oam_int := c &&& 0x20
    vblank_int := c &&& 0x10
    hblank_int := c &&& 0x08 }

def lcd_write_control (r : LCD) (c : Nat) : LCD :=
  { r with
    bg_enabled := notnot (c &&& 0x01)
    sprites_enabled := notnot (c &&& 0x02)
    sprite_size := notnot (c &&& 0x04)
    tilemap_select := notnot (c &&& 0x08)
    bg_tiledata_select := notnot (c &&& 0x10)
    window_enabled := notnot (c &&& 0x20)
    window_tilemap_select := notnot (c &&& 0x40)
    lcd_enabled := notnot (c &&& 0x80) }

def lcd_get_ly_compare (r : LCD) : Nat := r.lcd_ly_compare % 256

def lcd_set_ly_compare (r : LCD) (c : Nat) : LCD := { r with lcd_ly_compare := c }

def lcd_set_window_y (r : LCD) (n : Nat) : LCD := { r with window_y := n }

def lcd_set_window_x (r : LCD) (n : Nat) : LCD := { r with window_x := n }

/-! ## Sprite ordering -/

/-- The `swap` of the array cells `s[i]` and `s[j]`. -/
def swap (s : List Sprite) (i j : Nat) : List Sprite :=
  let c := s.getD i default
  let s1 := s.set i (s.getD j default)
  s1.set j c

/-- The `for` loop of `sort_sprites` from index `i` on; `fuel` bounds the
iterations left, the flag is `swapped`. -/
def sort_for (n : Nat) : Nat → Nat → List Sprite → Bool → List Sprite × Bool
  | 0, _, s, swapped => (s, swapped)
  | fuel + 1, i, s, swapped =>
    if (i : Int) < (n : Int) - 1 then
      if (s.getD i default).x < (s.getD (i + 1) default).x then
        sort_for n fuel (i + 1) (swap s i (i + 1)) true
      else
        sort_for n fuel (i + 1) s swapped
    else (s, swapped)

/-- The `do ... while(swapped)` loop of `sort_sprites`; `none` when the fuel runs
out before a pass without a swap. -/
def sort_loop (n : Nat) : Nat → List Sprite → Option (List Sprite)
  | 0, _ => none
  | fuel + 1, s =>
    let p := sort_for n n 0 s false
    if p.2 then sort_loop n fuel p.1 else some p.1

/-- The function `sort_sprites(s, n)`, run with fuel for `n*n + 1` passes. -/
def sort_sprites (s : List Sprite) (n : Nat) : Option (List Sprite) :=
  sort_loop n (n * n + 1) s

/-! ## Background and window -/

/-- The cast `(signed char)v`. -/
def signed_char (v : Nat) : Int := if v % 256 ≥ 128 then (v % 256 : Nat) - 256 else (v % 256 : Nat)

/-- The colour index `(!!(b2&mask)<<1) | !!(b1&mask)` as an `unsigned char`. -/
def colour_index (b1 b2 mask : Nat) : Nat :=
  ((notnot (b2 &&& mask) <<< 1) ||| notnot (b1 &&& mask)) % 256

/-- The value `colours[pal[colour]]` stored in an `unsigned int` cell. -/
def shade (pal : List Nat) (colour : Nat) : Nat := idx colours (idx pal colour) % 4294967296

/-- The part of the loop body of `draw_bg_and_window` after `xm`, `ym` and
`map_select` are set: the value written to `b[line*640 + x]`. -/
def bg_pixel (r : LCD) (mem : Mem) (xm ym map_select : Int) : Nat :=
  let map_offset := toU32 ((ym / 8) * 32 + xm / 8)
  let tile_num : Int := mem_get_raw mem (toU32 (0x9800 + map_select * 0x400 + map_offset))
  let tile_addr :=
    if r.bg_tiledata_select ≠ 0 then toU32 (0x8000 + tile_num * 16)
    else toU32 (0x9000 + signed_char tile_num.toNat * 16)
  let b1 := mem_get_raw mem (toU32 (tile_addr + (ym % 8) * 2))
  let b2 := mem_get_raw mem (toU32 (tile_addr + (ym % 8) * 2 + 1))
  let mask := (128 >>> (xm % 8).toNat) % 256
  let colour := colour_index b1 b2 mask
  shade r.bgpalette colour

/-- The `for(x = 0; x < 160; x++)` loop of `draw_bg_and_window` from column `x`
on; `fuel` bounds the iterations left. -/
def draw_bg_loop (r : LCD) (mem : Mem) (line : Int) : Nat → Int → FB → FB
  | 0, _, b => b
  | fuel + 1, x, b =>
    if x < 160 then
      if line ≥ r.window_y ∧ r.window_enabled ≠ 0 ∧ line - r.window_y < 144 then
        draw_bg_loop r mem line fuel (x + 1)
          (store b (line * 640 + x)
            (bg_pixel r mem (toU32 x) (toU32 (line - r.window_y)) (toU32 r.window_tilemap_select)))
      else if r.bg_enabled = 0 then
        store b (line * 640 + x) 0
      else
        draw_bg_loop r mem line fuel (x + 1)
          (store b (line * 640 + x)
            (bg_pixel r mem (toU32 (Int.tmod (x + r.scroll_x) 256))
              (toU32 (Int.tmod (line + r.scroll_y) 256)) (toU32 r.tilemap_select)))
    else b

def draw_bg_and_window (r : LCD) (mem : Mem) (b : FB) (line : Int) : FB :=
  draw_bg_loop r mem line 160 0 b

/-! ## Sprites -/

/-- The local `sprite_line` of `draw_sprites`. -/
def sprite_line (r : LCD) (line : Int) (s : Sprite) : Int :=
  toU32 (if s.flags &&& VFLIP ≠ 0 then (if r.sprite_size ≠ 0 then 15 else 7) - (line - s.y)
    else line - s.y)

/-- The local `tile_addr` of `draw_sprites`. -/
def sprite_tile_addr (r : LCD) (line : Int) (s : Sprite) : Int :=
  toU32 (0x8000 + (s.tile : Int) * 16 + sprite_line r line s * 2)

/-- The local `mask` of the pixel loop of `draw_sprites`. -/
def sprite_mask (s : Sprite) (x : Nat) : Nat :=
  (if s.flags &&& HFLIP ≠ 0 then 128 >>> (7 - x) else 128 >>> x) % 256

/-- The local `colour` of the pixel loop of `draw_sprites` at column `x`. -/
def sprite_colour (r : LCD) (mem : Mem) (line : Int) (s : Sprite) (x : Nat) : Nat :=
  let b1 := mem_get_raw mem (sprite_tile_addr r line s)
  let b2 := mem_get_raw mem (toU32 (sprite_tile_addr r line s + 1))
  colour_index b1 b2 (sprite_mask s x)

/-- The palette `pal` chosen for a sprite. -/
def sprite_pal (r : LCD) (s : Sprite) : List Nat :=
  if s.flags &&& PNUM ≠ 0 then r.sprpalette2 else r.sprpalette1

/-- The framebuffer index `line*640 + (x + s[i].x)`, in `unsigned int` arithmetic. -/
def sprite_cell (line : Int) (s : Sprite) (x : Nat) : Int :=
  toU32 (line * 640 + toU32 ((x : Int) + s.x))

/-- One iteration of the pixel loop `for(x = 0; x < 8; x++)` of `draw_sprites`. -/
def draw_sprite_pixel (r : LCD) (mem : Mem) (line : Int) (s : Sprite) (b : FB) (x : Nat) : FB :=
  if toU32 (s.x + (x : Int)) ≥ 160 then b
  else
    let colour := sprite_colour r mem line s x
    if colour = 0 then b
    else
      let pal := sprite_pal r s
      if s.flags &&& PRIO ≠ 0 ∧ b (sprite_cell line s x) ≠ idx colours (idx r.bgpalette 0) then b
      else store b (sprite_cell line s x) (shade pal colour)

/-- One iteration of the sprite loop of `draw_sprites`. -/
def draw_sprite (r : LCD) (mem : Mem) (line : Int) (b : FB) (s : Sprite) : FB :=
  if s.x < -7 then b
  else (List.range 8).foldl (draw_sprite_pixel r mem line s) b

def draw_sprites (r : LCD) (mem : Mem) (b : FB) (line : Int) (nsprites : Nat)
    (s : List Sprite) : FB :=
  (s.take nsprites).foldl (draw_sprite r mem line) b

/-! ## Scanline -/

/-- The sprite descriptor that `render_line` builds from attribute entry `i`. -/
def oam_sprite (mem : Mem) (i : Nat) : Sprite where
  y := (mem_get_raw mem (0xFE00 + (i : Int) * 4) : Int) - 16
  x := (mem_get_raw mem (0xFE00 + (i : Int) * 4 + 1) : Int) - 8
  tile := mem_get_raw mem (0xFE00 + (i : Int) * 4 + 2)
  flags := mem_get_raw mem (0xFE00 + (i : Int) * 4 + 3)

/-- The selection loop `for(i = 0; i<40; i++)` of `render_line` from entry `i` on,
with the array `s` (10 cells) and the count `c`; `fuel` bounds the iterations
left. The result is `none` when a store `s[c]` would fall outside the 10 cells. -/
def select_loop (r : LCD) (mem : Mem) (line : Int) :
    Nat → Nat → List Sprite → Nat → Option (List Sprite × Nat)
  | 0, _, s, c => some (s, c)
  | fuel + 1, i, s, c =>
    if i < 40 then
      let y : Int := (mem_get_raw mem (0xFE00 + (i : Int) * 4) : Int) - 16
      if line < y ∨ line ≥ y + 8 + (r.sprite_size : Int) * 8 then
        select_loop r mem line fuel (i + 1) s c
      else if c < 10 then
        let s1 := s.set c (oam_sprite mem i)
        if c + 1 = 10 then some (s1, c + 1)
        else select_loop r mem line fuel (i + 1) s1 (c + 1)
      else none
    else some (s, c)

/-- The selection part of `render_line`: the array `s[10]` and the count `c`. -/
def select_sprites (r : LCD) (mem : Mem) (line : Int) : Option (List Sprite × Nat) :=
  select_loop r mem line 40 0 (List.replicate 10 default) 0

/-- The four marker cells written at the end of `render_line`. -/
def draw_markers (r : LCD) (b : FB) (line : Int) : FB :=
  let v1 : Nat := if r.bg_tiledata_select ≠ 0 then 0x00ff00 else 0xff0000
  let v2 : Nat := if r.tilemap_select ≠ 0 then 0x00ff00 else 0xff0000
  store (store (store (store b (line * 640 + 169) v1) (line * 640 + 168) v1)
    (line * 640 + 173) v2) (line * 640 + 172) v2

def render_line (r : LCD) (mem : Mem) (b : FB) (line : Int) : Option FB :=
  match select_sprites r mem line with
  | none => none
  | some (s, c) =>
    match (if c ≠ 0 then sort_sprites s c else some s) with
    | none => none
    | some s1 =>
      let b1 := draw_bg_and_window r mem b line
      let b2 := draw_sprites r mem b1 line c s1
      some (draw_markers r b2 line)

/-! ## Debug view -/

/-- One of the eight assignments of a tile row in `draw_stuff`. -/
def stuff_px (b : FB) (base : Int) (k : Nat) (b1 b2 : Nat) : FB :=
  store b (base + k)
    (idx colours ((notnot (b1 &&& (0x80 >>> k)) <<< 1) ||| notnot (b2 &&& (0x80 >>> k)))
      % 4294967296)

/-- The eight assignments of a tile row in `draw_stuff`. -/
def stuff_row (b : FB) (base : Int) (b1 b2 : Nat) : FB :=
  (List.range 8).foldl (fun b k => stuff_px b base k b1 b2) b

/-- The first loop nest of `draw_stuff` (tile data). -/
def stuff_tiles (mem : Mem) (b : FB) : FB :=
  (List.range 24).foldl (fun b ty =>
    (List.range 16).foldl (fun b tx =>
      (List.range 8).foldl (fun b y =>
        let tileaddr : Int := 0x8000 + (ty : Int) * 0x100 + (tx : Int) * 16 + (y : Int) * 2
        stuff_row b ((ty : Int) * 640 * 8 + (tx : Int) * 8 + (y : Int) * 640 + 320 + 0 * 640)
          (mem_get_raw mem tileaddr) (mem_get_raw mem (tileaddr + 1))) b) b) b

/-- The second and third loop nests of `draw_stuff` (a tile map at `mapbase`,
shown at column `x1`, row `y1`). -/
def stuff_map (mem : Mem) (mapbase x1 y1 : Int) (b : FB) : FB :=
  (List.range 32).foldl (fun b my =>
    (List.range 32).foldl (fun b mx =>
      (List.range 8).foldl (fun b y =>
        let mapaddr : Int := mapbase + (my : Int) * 32 + (mx : Int)
        let t := mem_get_raw mem mapaddr
        let tileaddr : Int := 0x8000 + (t : Int) * 16
        stuff_row b ((my : Int) * 640 * 8 + (mx : Int) * 8 + (y : Int) * 640 + x1 + y1 * 640)
          (mem_get_raw mem (tileaddr + (y : Int) * 2))
          (mem_get_raw mem (tileaddr + (y : Int) * 2 + 1))) b) b) b

def draw_stuff (mem : Mem) (b : FB) : FB :=
  stuff_map mem 0x9c00 (256 + 16) 200 (stuff_map mem 0x9800 8 200 (stuff_tiles mem b))

/-! ## The per-tick driver -/

/-- The interrupt kinds passed to `interrupt`. -/
inductive Intr where
  | INTR_LCDSTAT
  | INTR_VBLANK
deriving DecidableEq, Repr

/-- The calls `lcd_cycle` makes to its collaborators and to the renderer, in
order. -/
inductive Event where
  | interrupt (k : Intr)
  | render_line (line : Int)
  | draw_stuff
  | sdl_frame
deriving DecidableEq, Repr

/-- The mode assignment of `lcd_cycle`: `old` is `lcd_mode` before the tick. -/
def next_mode (old : Nat) (lcd_line subframe_cycles : Int) : Nat :=
  let m1 :=
    if subframe_cycles < Int.tdiv 80 4 then 2
    else if subframe_cycles < Int.tdiv 252 4 then 3
    else if subframe_cycles < Int.tdiv 456 4 then 0
    else old
  if lcd_line ≥ 144 then 1 else m1

/-- The STAT interrupt check of `lcd_cycle`, on the registers after line and mode
are updated. -/
def stat_check (r : LCD) : List Event :=
  if r.ly_int ≠ 0 ∧ r.lcd_line = (r.lcd_ly_compare : Int) then [Event.interrupt Intr.INTR_LCDSTAT]
  else if r.hblank_int ≠ 0 ∧ r.lcd_mode = 0 ∧ r.prev_mode ≠ 0 then
    [Event.interrupt Intr.INTR_LCDSTAT]
  else if r.vblank_int ≠ 0 ∧ r.lcd_mode = 1 ∧ r.prev_mode ≠ 1 then
    [Event.interrupt Intr.INTR_LCDSTAT]
  else if r.oam_int ≠ 0 ∧ r.lcd_mode = 2 ∧ r.prev_mode ≠ 2 then
    [Event.interrupt Intr.INTR_LCDSTAT]
  else []

/-- What a call of `lcd_cycle` leaves behind: its return value, the registers,
the framebuffer and the calls made. -/
structure Tick where
  ret : Int
  regs : LCD
  fb : FB
  events : List Event

/-- The function `lcd_cycle`. `cycles` is the value of `cpu_get_cycles()`, `close`
says whether `sdl_update()` returned non-zero. The result is `none` when
`render_line` fails. -/
def lcd_cycle (r : LCD) (mem : Mem) (b : FB) (cycles : Int) (close : Bool) : Option Tick :=
  if close then some { ret := 0, regs := r, fb := b, events := [] }
  else
    let this_frame := Int.tmod cycles (Int.tdiv 70224 4)
    let lcd_line := Int.tdiv this_frame (Int.tdiv 456 4)
    let subframe_cycles := Int.tmod this_frame (Int.tdiv 456 4)
    let r1 : LCD :=
      { r with lcd_line := lcd_line, lcd_mode := next_mode r.lcd_mode lcd_line subframe_cycles }
    let e1 := stat_check r1
    let rendered : Option (FB × List Event) :=
      if r1.lcd_line ≠ r1.prev_line ∧ r1.lcd_line < 144 then
        (render_line r1 mem b r1.lcd_line).map (fun b1 => (b1, [Event.render_line r1.lcd_line]))
      else some (b, [])
    match rendered with
    | none => none
    | some (b1, e2) =>
      let framed : FB × List Event :=
        if r1.prev_line = 143 ∧ r1.lcd_line = 144 then
          (draw_stuff mem b1,
            [Event.draw_stuff, Event.sdl_frame, Event.interrupt Intr.INTR_VBLANK])
        else (b1, [])
      some
        { ret := 1
          regs := { r1 with prev_line := r1.lcd_line, prev_mode := r1.lcd_mode }
          fb := framed.1
          events := e1 ++ e2 ++ framed.2 }

/-! ## Definitions used to state the properties -/

/-- The height of a sprite: 8, or 16 when `sprite_size` is set. -/
def sprite_height (r : LCD) : Int := if r.sprite_size ≠ 0 then 16 else 8

/-- Attribute entry `i` covers `line`: `y <= line < y + height` with
`y = mem[0xFE00+4i] - 16`. -/
def on_line (r : LCD) (mem : Mem) (line : Int) (i : Nat) : Bool :=
  decide ((mem_get_raw mem (0xFE00 + 4 * (i : Int)) : Int) - 16 ≤ line ∧
    line < (mem_get_raw mem (0xFE00 + 4 * (i : Int)) : Int) - 16 + sprite_height r)

/-- The table indices, in ascending order, of the attribute entries that cover
`line`. -/
def matching (r : LCD) (mem : Mem) (line : Int) : List Nat :=
  (List.range 40).filter (on_line r mem line)

/-- One pass of the `for` loop of `sort_sprites` over the cells `a :: rest`, as a
function on lists: the cell carried along is compared with the next one. -/
def bubble (a : Sprite) : List Sprite → List Sprite
  | [] => [a]
  | b :: rest => if a.x < b.x then b :: bubble a rest else a :: bubble b rest

/-- Whether the pass over `a :: rest` swaps two cells. -/
def bubble_swapped (a : Sprite) : List Sprite → Bool
  | [] => false
  | b :: rest => if a.x < b.x then true else bubble_swapped b rest

/-- The number of pairs of cells that are out of order for a descending `x`. -/
def inversions : List Sprite → Nat
  | [] => 0
  | a :: l => (l.filter (fun b => decide (a.x < b.x))).length + inversions l

/-- One pass of the `for` loop of `sort_sprites` over a whole list. -/
def pass_list : List Sprite → List Sprite
  | [] => []
  | a :: rest => bubble a rest

/-- Whether the pass over a whole list swaps two cells. -/
def pass_swapped : List Sprite → Bool
  | [] => false
  | a :: rest => bubble_swapped a rest

/-- The line that `lcd_cycle` computes from the cycle counter. -/
def tick_line (cycles : Int) : Int :=
  Int.tdiv (Int.tmod cycles (Int.tdiv 70224 4)) (Int.tdiv 456 4)

/-- The position in the line (`subframe_cycles`) that `lcd_cycle` computes. -/
def tick_sub (cycles : Int) : Int :=
  Int.tmod (Int.tmod cycles (Int.tdiv 70224 4)) (Int.tdiv 456 4)

/-- The registers of `lcd_cycle` after the line and the mode are assigned, before
`prev_line` and `prev_mode` are. -/
def tick_regs (r : LCD) (cycles : Int) : LCD :=
  { r with
    lcd_line := tick_line cycles
    lcd_mode := next_mode r.lcd_mode (tick_line cycles) (tick_sub cycles) }

/-- A register operation other than `lcd_write_stat`, or a tick of `lcd_cycle`. -/
inductive OtherStep : LCD → LCD → Prop where
  | write_bg_palette (r : LCD) (n : Nat) : n < 256 → OtherStep r (lcd_write_bg_palette r n)
  | write_spr_palette1 (r : LCD) (n : Nat) : n < 256 → OtherStep r (lcd_write_spr_palette1 r n)
  | write_spr_palette2 (r : LCD) (n : Nat) : n < 256 → OtherStep r (lcd_write_spr_palette2 r n)
  | write_scroll_x (r : LCD) (n : Nat) : n < 256 → OtherStep r (lcd_write_scroll_x r n)
  | write_scroll_y (r : LCD) (n : Nat) : n < 256 → OtherStep r (lcd_write_scroll_y r n)
  | write_control (r : LCD) (n : Nat) : n < 256 → OtherStep r (lcd_write_control r n)
  | set_ly_compare (r : LCD) (n : Nat) : n < 256 → OtherStep r (lcd_set_ly_compare r n)
  | set_window_y (r : LCD) (n : Nat) : n < 256 → OtherStep r (lcd_set_window_y r n)
  | set_window_x (r : LCD) (n : Nat) : n < 256 → OtherStep r (lcd_set_window_x r n)
  | cycle (r : LCD) (mem : Mem) (b : FB) (cycles : Int) (close : Bool) (t : Tick) :
      lcd_cycle r mem b cycles close = some t → OtherStep r t.regs

/-- The register states the program can be in: the initial one, and those reached
from it through the register operations and `lcd_cycle`. -/
inductive Reachable : LCD → Prop where
  | init : Reachable LCD.init
  | other (r r1 : LCD) : Reachable r → OtherStep r r1 → Reachable r1
  | write_stat (r : LCD) (c : Nat) : Reachable r → c < 256 → Reachable (lcd_write_stat r c)

/-- The empty memory and the empty framebuffer, used in concrete runs. -/
def mem0 : Mem := fun _ => 0

def fb0 : FB := fun _ => 0

/-- A memory in which every byte is 16: all 40 attribute entries are at `y = 0`,
`x = 8`. -/
def mem16 : Mem := fun _ => 16

/-- What one iteration of the pixel loop of `draw_sprites` (column `x` of sprite
`s`) makes of the content `old` of the cell it addresses. -/
def pixel_over (r : LCD) (mem : Mem) (line : Int) (s : Sprite) (x : Nat) (old : Nat) : Nat :=
  if sprite_colour r mem line s x = 0 then old
  else if s.flags &&& PRIO ≠ 0 ∧ old ≠ idx colours (idx r.bgpalette 0) then old
  else shade (sprite_pal r s) (sprite_colour r mem line s x)

/-- What drawing sprite `s` makes of the content `old` of screen column `p` of
the line. -/
def sprite_over (r : LCD) (mem : Mem) (line : Int) (s : Sprite) (p : Int) (old : Nat) : Nat :=
  if s.x ≤ p ∧ p < s.x + 8 then pixel_over r mem line s (p - s.x).toNat old else old

/-- Sprite `s` covers screen column `p` with a non-zero colour index. -/
def opaque_at (r : LCD) (mem : Mem) (line : Int) (s : Sprite) (p : Int) : Prop :=
  s.x ≤ p ∧ p < s.x + 8 ∧ sprite_colour r mem line s (p - s.x).toNat ≠ 0

instance (r : LCD) (mem : Mem) (line : Int) (s : Sprite) (p : Int) :
    Decidable (opaque_at r mem line s p) := by
  unfold opaque_at; infer_instance

/-- The colour `colours[pal[idx]]` of sprite `s` at screen column `p`. -/
def sprite_shade (r : LCD) (mem : Mem) (line : Int) (s : Sprite) (p : Int) : Nat :=
  idx colours (idx (sprite_pal r s) (sprite_colour r mem line s (p - s.x).toNat))

/-- The sprites `render_line` selects for `line`: the descriptors of the first 10
matching attribute entries, in table order. -/
def selected (r : LCD) (mem : Mem) (line : Int) : List Sprite :=
  ((matching r mem line).take 10).map (oam_sprite mem)

/-- A memory with two sprites on line 0: entry 0 at `x = 0` with tile 0 and the
background-priority flag, entry 1 at `x = 1` with tile 1; row 0 of tile 0 has
colour index 1 in every column, row 0 of tile 1 has colour index 2. -/
def memP : Mem := fun a =>
  if a = 0xFE00 then 16 else if a = 0xFE01 then 8 else if a = 0xFE02 then 0
  else if a = 0xFE03 then 0x80
  else if a = 0xFE04 then 16 else if a = 0xFE05 then 9 else if a = 0xFE06 then 1
  else if a = 0xFE07 then 0
  else if a = 0x8000 then 0xFF else if a = 0x8011 then 0xFF else 0

/-- A memory with two sprites on line 0 at the same `x = 0`: entry 0 with tile 0,
entry 1 with tile 1; row 0 of tile 0 has colour index 1 in every column, row 0 of
tile 1 has colour index 2. -/
def memE : Mem := fun a =>
  if a = 0xFE00 then 16 else if a = 0xFE01 then 8 else if a = 0xFE02 then 0
  else if a = 0xFE03 then 0
  else if a = 0xFE04 then 16 else if a = 0xFE05 then 8 else if a = 0xFE06 then 1
  else if a = 0xFE07 then 0
  else if a = 0x8000 then 0xFF else if a = 0x8011 then 0xFF else 0

/-- A memory with two sprites on line 0: entry 0 at `x = 1` with tile 1, entry 1
at `x = 0` with tile 0, no flags; row 0 of tile 0 has colour index 1 in every
column, row 0 of tile 1 has colour index 2. -/
def memL : Mem := fun a =>
  if a = 0xFE00 then 16 else if a = 0xFE01 then 9 else if a = 0xFE02 then 1
  else if a = 0xFE03 then 0
  else if a = 0xFE04 then 16 else if a = 0xFE05 then 8 else if a = 0xFE06 then 0
  else if a = 0xFE07 then 0
  else if a = 0x8000 then 0xFF else if a = 0x8011 then 0xFF else 0

/-- A memory with three sprites on line 0, no flags: entry 0 at `x = 0` with tile
0, entries 1 and 2 at `x = 1` and `x = 2` with tile 1; row 0 of tile 0 has colour
index 1 in every column, row 0 of tile 1 has colour index 2. -/
def mem3 : Mem := fun a =>
  if a = 0xFE00 then 16 else if a = 0xFE01 then 8 else if a = 0xFE02 then 0
  else if a = 0xFE03 then 0
  else if a = 0xFE04 then 16 else if a = 0xFE05 then 9 else if a = 0xFE06 then 1
  else if a = 0xFE07 then 0
  else if a = 0xFE08 then 16 else if a = 0xFE09 then 10 else if a = 0xFE0A then 1
  else if a = 0xFE0B then 0
  else if a = 0x8000 then 0xFF else if a = 0x8011 then 0xFF else 0

/-- A framebuffer that is white everywhere. -/
def fbW : FB := fun _ => 0xFFFFFF

/-- The facts about the registers that hold in every reachable state: the mode is
in 0..3, the decoded control flags are 0 or 1, the byte registers are bytes, and
the three palettes have four entries in 0..3, entry 0 of the sprite palettes
being 0. -/
structure Inv (r : LCD) : Prop where
  mode : r.lcd_mode ≤ 3
  flags : r.lcd_enabled ≤ 1 ∧ r.window_tilemap_select ≤ 1 ∧ r.window_enabled ≤ 1
    ∧ r.tilemap_select ≤ 1 ∧ r.bg_tiledata_select ≤ 1 ∧ r.sprite_size ≤ 1
    ∧ r.sprites_enabled ≤ 1 ∧ r.bg_enabled ≤ 1
  bytes : r.scroll_x < 256 ∧ r.scroll_y < 256 ∧ r.window_x < 256 ∧ r.window_y < 256
    ∧ r.lcd_ly_compare < 256
  bgpal : r.bgpalette.length = 4 ∧ ∀ v ∈ r.bgpalette, v ≤ 3
  pal1 : r.sprpalette1.length = 4 ∧ (∀ v ∈ r.sprpalette1, v ≤ 3) ∧ idx r.sprpalette1 0 = 0
  pal2 : r.sprpalette2.length = 4 ∧ (∀ v ∈ r.sprpalette2, v ≤ 3) ∧ idx r.sprpalette2 0 = 0

/-- The window test of `draw_bg_and_window`:
`line >= window_y && window_enabled && line - window_y < 144`. -/
def window_active (r : LCD) (line : Int) : Prop :=
  line ≥ r.window_y ∧ r.window_enabled ≠ 0 ∧ line - r.window_y < 144

instance (r : LCD) (line : Int) : Decidable (window_active r line) := by
  unfold window_active; infer_instance

/-- The value that an iteration of the loop of `draw_bg_and_window` which does
not return stores at column `x`. -/
def bg_value (r : LCD) (mem : Mem) (line : Int) (x : Int) : Nat :=
  if window_active r line then
    bg_pixel r mem (toU32 x) (toU32 (line - r.window_y)) (toU32 r.window_tilemap_select)
  else
    bg_pixel r mem (toU32 (Int.tmod (x + r.scroll_x) 256))
      (toU32 (Int.tmod (line + r.scroll_y) 256)) (toU32 r.tilemap_select)

/-- A memory whose first tilemap cell names tile 1; row 0 of tile 1 has colour
index 1 in its leftmost pixel. -/
def memBG : Mem := fun a => if a = 0x9800 then 1 else if a = 0x8010 then 0x80 else 0

/-- The address of the tilemap read in the loop body of `draw_bg_and_window`. -/
def bg_map_addr (xm ym map_select : Int) : Int :=
  toU32 (0x9800 + map_select * 0x400 + toU32 ((ym / 8) * 32 + xm / 8))

/-- The local `tile_addr` in the loop body of `draw_bg_and_window`. -/
def bg_tile_addr (r : LCD) (mem : Mem) (xm ym map_select : Int) : Int :=
  if r.bg_tiledata_select ≠ 0 then
    toU32 (0x8000 + (mem_get_raw mem (bg_map_addr xm ym map_select) : Int) * 16)
  else
    toU32 (0x9000
      + signed_char ((mem_get_raw mem (bg_map_addr xm ym map_select) : Int)).toNat * 16)

/-- The local `colour` in the loop body of `draw_bg_and_window`. -/
def bg_colour (r : LCD) (mem : Mem) (xm ym map_select : Int) : Nat :=
  colour_index
    (mem_get_raw mem (toU32 (bg_tile_addr r mem xm ym map_select + (ym % 8) * 2)))
    (mem_get_raw mem (toU32 (bg_tile_addr r mem xm ym map_select + (ym % 8) * 2 + 1)))
    ((128 >>> (xm % 8).toNat) % 256)

/-- The registers `r` with the three stored-but-unread ones replaced:
`lcd_enabled`, `sprites_enabled` and `window_x`. -/
def with_unread (r : LCD) (e s w : Nat) : LCD :=
  { r with lcd_enabled := e, sprites_enabled := s, window_x := w }

/-- What two consecutive ticks of `lcd_cycle` (neither stopped) compute: line and
mode of the first, line, mode and calls of the second. -/
def two_ticks (r : LCD) (mem : Mem) (b : FB) (c1 c2 : Int) :
    Option (Int × Nat × Int × Nat × List Event) :=
  (lcd_cycle r mem b c1 false).bind (fun t1 =>
    (lcd_cycle t1.regs mem t1.fb c2 false).map (fun t2 =>
      (t1.regs.lcd_line, t1.regs.lcd_mode, t2.regs.lcd_line, t2.regs.lcd_mode, t2.events)))

/-- An array access made while a scanline is rendered: a `mem_get_raw` read of
the sprite attribute table, of a tilemap or of tile data, an index into a palette
table or into `colours`, or a framebuffer index that is read or written. -/
inductive Access where
  | oam (a : Int)
  | tilemap (a : Int)
  | tiledata (a : Int)
  | palette (i : Nat)
  | shade (i : Nat)
  | fb (k : Int)
deriving DecidableEq, Repr

/-- The access stays within its table: the attribute table `0xFE00..0xFE9F`, the
tilemaps `0x9800..0x9FFF`, the tile data `0x8000..0x97FF`, the four entries of a
palette or of `colours`, row `line` of the framebuffer. -/
def Access.ok (line : Int) : Access → Prop
  | Access.oam a => 0xFE00 ≤ a ∧ a ≤ 0xFE9F
  | Access.tilemap a => 0x9800 ≤ a ∧ a ≤ 0x9FFF
  | Access.tiledata a => 0x8000 ≤ a ∧ a ≤ 0x97FF
  | Access.palette i => i ≤ 3
  | Access.shade i => i ≤ 3
  | Access.fb k => line * 640 ≤ k ∧ k ≤ line * 640 + 639

/-- The accesses of the selection loop of `render_line`, with the recursion of
`select_loop`. -/
def select_trace (r : LCD) (mem : Mem) (line : Int) : Nat → Nat → Nat → List Access
  | 0, _, _ => []
  | fuel + 1, i, c =>
    if i < 40 then
      let y : Int := (mem_get_raw mem (0xFE00 + (i : Int) * 4) : Int) - 16
      Access.oam (0xFE00 + (i : Int) * 4) ::
        (if line < y ∨ line ≥ y + 8 + (r.sprite_size : Int) * 8 then
          select_trace r mem line fuel (i + 1) c
        else if c < 10 then
          [Access.oam (0xFE00 + (i : Int) * 4 + 1), Access.oam (0xFE00 + (i : Int) * 4 + 2),
            Access.oam (0xFE00 + (i : Int) * 4 + 3)]
            ++ (if c + 1 = 10 then [] else select_trace r mem line fuel (i + 1) (c + 1))
        else [])
    else []

/-- The accesses of one iteration of the loop of `draw_bg_and_window` that does
not return, after `xm`, `ym` and `map_select` are set, the store to column `x`
included. -/
def bg_pixel_trace (r : LCD) (mem : Mem) (line x xm ym map_select : Int) : List Access :=
  [Access.tilemap (bg_map_addr xm ym map_select),
    Access.tiledata (toU32 (bg_tile_addr r mem xm ym map_select + (ym % 8) * 2)),
    Access.tiledata (toU32 (bg_tile_addr r mem xm ym map_select + (ym % 8) * 2 + 1)),
    Access.palette (bg_colour r mem xm ym map_select),
    Access.shade (idx r.bgpalette (bg_colour r mem xm ym map_select)),
    Access.fb (line * 640 + x)]

/-- The accesses of `draw_bg_and_window`, with the recursion of `draw_bg_loop`. -/
def bg_trace (r : LCD) (mem : Mem) (line : Int) : Nat → Int → List Access
  | 0, _ => []
  | fuel + 1, x =>
    if x < 160 then
      if line ≥ r.window_y ∧ r.window_enabled ≠ 0 ∧ line - r.window_y < 144 then
        bg_pixel_trace r mem line x (toU32 x) (toU32 (line - r.window_y))
            (toU32 r.window_tilemap_select)
          ++ bg_trace r mem line fuel (x + 1)
      else if r.bg_enabled = 0 then
        [Access.fb (line * 640 + x)]
      else
        bg_pixel_trace r mem line x (toU32 (Int.tmod (x + r.scroll_x) 256))
            (toU32 (Int.tmod (line + r.scroll_y) 256)) (toU32 r.tilemap_select)
          ++ bg_trace r mem line fuel (x + 1)
    else []

/-- The accesses of one iteration of the pixel loop of `draw_sprites`: those made
when the priority test lets the pixel through, which include those made when it
does not. -/
def sprite_pixel_trace (r : LCD) (mem : Mem) (line : Int) (s : Sprite) (x : Nat) :
    List Access :=
  if toU32 (s.x + (x : Int)) ≥ 160 then []
  else if sprite_colour r mem line s x = 0 then []
  else
    (if s.flags &&& PRIO ≠ 0 then
        [Access.fb (sprite_cell line s x), Access.palette 0, Access.shade (idx r.bgpalette 0)]
      else [])
      ++ [Access.palette (sprite_colour r mem line s x),
        Access.shade (idx (sprite_pal r s) (sprite_colour r mem line s x)),
        Access.fb (sprite_cell line s x)]

/-- The accesses of the pixel loop of `draw_sprites` over the columns `xs`. -/
def sprite_pixels_trace (r : LCD) (mem : Mem) (line : Int) (s : Sprite) :
    List Nat → List Access
  | [] => []
  | x :: xs => sprite_pixel_trace r mem line s x ++ sprite_pixels_trace r mem line s xs

/-- The accesses of one iteration of the sprite loop of `draw_sprites`. -/
def sprite_trace (r : LCD) (mem : Mem) (line : Int) (s : Sprite) : List Access :=
  if s.x < -7 then []
  else
    [Access.tiledata (sprite_tile_addr r line s),
      Access.tiledata (toU32 (sprite_tile_addr r line s + 1))]
      ++ sprite_pixels_trace r mem line s (List.range 8)

/-- The accesses of `draw_sprites` over the sprites `l`. -/
def sprites_trace (r : LCD) (mem : Mem) (line : Int) : List Sprite → List Access
  | [] => []
  | s :: l => sprite_trace r mem line s ++ sprites_trace r mem line l

/-- The accesses of `render_line`: selection, background and window, sprites in
drawing order, and the four marker cells. -/
def render_line_trace (r : LCD) (mem : Mem) (line : Int) : Option (List Access) :=
  match select_sprites r mem line with
  | none => none
  | some (s, c) =>
    match (if c ≠ 0 then sort_sprites s c else some s) with
    | none => none
    | some s1 =>
      some (select_trace r mem line 40 0 0 ++ bg_trace r mem line 160 0
        ++ sprites_trace r mem line (s1.take c)
        ++ [Access.fb (line * 640 + 169), Access.fb (line * 640 + 168),
          Access.fb (line * 640 + 173), Access.fb (line * 640 + 172)])

end Lcd

/-! # Properties -/

namespace Lcd

/-! ## Sprite selection -/

theorem take_set_succ (s : List Sprite) (c : Nat) (v : Sprite) (h : c < s.length) :
    (s.set c v).take (c + 1) = s.take c ++ [v] := by
  induction s generalizing c with
  | nil => simp at h
  | cons a t ih =>
    cases c with
    | zero => simp
    | succ c =>
      simp only [List.length_cons, Nat.add_lt_add_iff_right] at h
      simp [ih c h]

theorem on_line_iff (r : LCD) (mem : Mem) (line : Int) (i : Nat) (hs : r.sprite_size ≤ 1) :
    on_line r mem line i = true ↔
      ¬ (line < (mem_get_raw mem (0xFE00 + (i : Int) * 4) : Int) - 16 ∨
        line ≥ (mem_get_raw mem (0xFE00 + (i : Int) * 4) : Int) - 16 + 8
          + (r.sprite_size : Int) * 8) := by
  have h4 : (4 : Int) * (i : Int) = (i : Int) * 4 := by ring
  unfold on_line sprite_height
  rw [h4]
  have hc : r.sprite_size = 0 ∨ r.sprite_size = 1 := by omega
  rcases hc with h | h <;> (simp [h]; try omega)

theorem select_loop_spec (r : LCD) (mem : Mem) (line : Int) (hs : r.sprite_size ≤ 1) :
    ∀ (fuel i : Nat) (s : List Sprite) (c : Nat), s.length = 10 → c < 10 →
      ∃ s1, select_loop r mem line fuel i s c
          = some (s1, min 10 (c + ((List.range' i (min fuel (40 - i))).filter
              (on_line r mem line)).length))
        ∧ s1.length = 10
        ∧ s1.take (min 10 (c + ((List.range' i (min fuel (40 - i))).filter
              (on_line r mem line)).length))
          = s.take c ++ (((List.range' i (min fuel (40 - i))).filter
              (on_line r mem line)).take (10 - c)).map (oam_sprite mem) := by
  intro fuel
  induction fuel with
  | zero =>
    intro i s c hl hc
    refine ⟨s, ?_, hl, ?_⟩
    · simp [select_loop]; omega
    · simp
      omega
  | succ fuel ih =>
    intro i s c hl hc
    by_cases hi : i < 40
    · have hmin : min (fuel + 1) (40 - i) = min fuel (40 - (i + 1)) + 1 := by omega
      rw [hmin, List.range'_succ]
      by_cases hon : on_line r mem line i = true
      · have hcond := (on_line_iff r mem line i hs).1 hon
        simp only [List.filter_cons, hon, if_true, List.length_cons]
        by_cases hc1 : c + 1 = 10
        · refine ⟨s.set c (oam_sprite mem i), ?_, by simp [hl], ?_⟩
          · simp only [select_loop, hi, if_true, hcond, if_false, hc, hc1]
            congr 2; omega
          · have h1 : 10 - c = 1 := by omega
            have h2 : ∀ k, min 10 (c + (k + 1)) = c + 1 := by intro k; omega
            rw [h2, h1, take_set_succ s c _ (by omega)]
            simp
        · obtain ⟨s1, e1, l1, t1⟩ := ih (i + 1) (s.set c (oam_sprite mem i)) (c + 1)
            (by simp [hl]) (by omega)
          refine ⟨s1, ?_, l1, ?_⟩
          · simp only [select_loop, hi, if_true, hcond, if_false, hc, hc1]
            rw [e1]; congr 3; omega
          · have h2 : ∀ k, c + (k + 1) = c + 1 + k := by intro k; omega
            have h3 : 10 - c = (10 - (c + 1)) + 1 := by omega
            rw [h2, t1, take_set_succ s c _ (by omega), h3]
            simp
      · have hcond : (line < (mem_get_raw mem (0xFE00 + (i : Int) * 4) : Int) - 16 ∨
            line ≥ (mem_get_raw mem (0xFE00 + (i : Int) * 4) : Int) - 16 + 8
              + (r.sprite_size : Int) * 8) := by
          by_contra hn
          exact hon ((on_line_iff r mem line i hs).2 hn)
        obtain ⟨s1, e1, l1, t1⟩ := ih (i + 1) s c hl hc
        refine ⟨s1, ?_, l1, ?_⟩
        · simp only [select_loop, hi, if_true, hcond]
          rw [e1]
          simp [List.filter_cons, hon]
        · simp only [List.filter_cons, hon]
          exact t1
    · have hmin : min (fuel + 1) (40 - i) = 0 := by omega
      rw [hmin]
      refine ⟨s, ?_, hl, ?_⟩
      · simp [select_loop, hi]; omega
      · simp
        omega

/-! ## Sprite ordering -/

theorem getD_append_here (pre : List Sprite) (a : Sprite) (t : List Sprite) (d : Sprite) :
    (pre ++ a :: t).getD pre.length d = a := by
  induction pre with
  | nil => simp
  | cons p pre ih => simpa using ih

theorem getD_append_next (pre : List Sprite) (a b : Sprite) (t : List Sprite) (d : Sprite) :
    (pre ++ a :: b :: t).getD (pre.length + 1) d = b := by
  induction pre with
  | nil => simp
  | cons p pre ih => simpa using ih

theorem swap_append (pre : List Sprite) (a b : Sprite) (t : List Sprite) :
    swap (pre ++ a :: b :: t) pre.length (pre.length + 1) = pre ++ b :: a :: t := by
  unfold swap
  rw [getD_append_here, getD_append_next]
  induction pre with
  | nil => simp
  | cons p pre ih => simp

theorem sort_for_eq (n : Nat) :
    ∀ (rest pre : List Sprite) (a : Sprite) (tail : List Sprite) (fuel i : Nat) (sw : Bool),
      pre.length = i → n = i + 1 + rest.length → rest.length ≤ fuel →
      sort_for n fuel i (pre ++ a :: (rest ++ tail)) sw
        = (pre ++ (bubble a rest ++ tail), sw || bubble_swapped a rest) := by
  intro rest
  induction rest with
  | nil =>
    intro pre a tail fuel i sw hp hn hf
    have hlt : ¬ ((i : Int) < (n : Int) - 1) := by simp at hn; omega
    cases fuel with
    | zero => simp [sort_for, bubble, bubble_swapped]
    | succ fuel => simp [sort_for, hlt, bubble, bubble_swapped]
  | cons b rest ih =>
    intro pre a tail fuel i sw hp hn hf
    have hlt : (i : Int) < (n : Int) - 1 := by simp at hn; omega
    cases fuel with
    | zero => simp at hf
    | succ fuel =>
      simp only [List.length_cons, Nat.add_le_add_iff_right] at hf
      subst hp
      by_cases hx : a.x < b.x
      · have e := ih (pre ++ [b]) a tail fuel (pre.length + 1) true (by simp)
          (by simp at hn ⊢; omega) hf
        simp only [List.append_assoc, List.singleton_append] at e
        simp only [sort_for, hlt, if_true, List.cons_append, getD_append_here,
          getD_append_next, hx, swap_append, e, bubble, bubble_swapped]
        simp
      · have e := ih (pre ++ [a]) b tail fuel (pre.length + 1) sw (by simp)
          (by simp at hn ⊢; omega) hf
        simp only [List.append_assoc, List.singleton_append] at e
        simp only [sort_for, hlt, if_true, List.cons_append, getD_append_here,
          getD_append_next, hx, if_false, e, bubble, bubble_swapped]

theorem bubble_perm (a : Sprite) (rest : List Sprite) : (bubble a rest).Perm (a :: rest) := by
  induction rest generalizing a with
  | nil => simp [bubble]
  | cons b rest ih =>
    unfold bubble
    split
    · exact ((ih a).cons b).trans (List.Perm.swap a b rest)
    · exact (ih b).cons a

theorem bubble_length (a : Sprite) (rest : List Sprite) :
    (bubble a rest).length = rest.length + 1 := by
  have h := (bubble_perm a rest).length_eq
  rw [h, List.length_cons]

theorem bubble_filter (v : Int) (a : Sprite) (rest : List Sprite) :
    (bubble a rest).filter (fun p => decide (p.x = v))
      = (a :: rest).filter (fun p => decide (p.x = v)) := by
  induction rest generalizing a with
  | nil => simp [bubble]
  | cons b rest ih =>
    unfold bubble
    split
    · rename_i hx
      rw [List.filter_cons, ih a]
      by_cases ha : a.x = v
      · have hb : ¬ b.x = v := by omega
        simp [List.filter_cons, ha, hb]
      · simp [List.filter_cons, ha]
    · rw [List.filter_cons, ih b, List.filter_cons (x := a)]

theorem bubble_unswapped (a : Sprite) (rest : List Sprite)
    (h : bubble_swapped a rest = false) :
    bubble a rest = a :: rest ∧ (a :: rest).Pairwise (fun p q => q.x ≤ p.x) := by
  induction rest generalizing a with
  | nil => simp [bubble]
  | cons b rest ih =>
    unfold bubble_swapped at h
    split at h
    · simp at h
    · rename_i hx
      obtain ⟨e, pw⟩ := ih b h
      refine ⟨by simp [bubble, hx, e], ?_⟩
      have pw1 := List.pairwise_cons.1 pw
      rw [List.pairwise_cons]
      refine ⟨?_, pw⟩
      intro c hc
      rcases List.mem_cons.1 hc with rfl | hc
      · omega
      · have := pw1.1 c hc
        omega

theorem inversions_bubble (a : Sprite) (rest : List Sprite) :
    inversions (bubble a rest) + (if bubble_swapped a rest then 1 else 0)
      ≤ inversions (a :: rest) := by
  induction rest generalizing a with
  | nil => simp [bubble, bubble_swapped]
  | cons b rest ih =>
    unfold bubble bubble_swapped
    by_cases hx : a.x < b.x
    · have hnb : ¬ b.x < a.x := by omega
      have hp := ((bubble_perm a rest).filter (fun c => decide (b.x < c.x))).length_eq
      have := ih a
      simp only [hx, if_true, inversions, List.filter_cons, decide_True, List.length_cons] at *
      simp only [hnb, decide_False] at hp
      split at this <;> simp at hp <;> omega
    · have hp := ((bubble_perm b rest).filter (fun c => decide (a.x < c.x))).length_eq
      have := ih b
      simp only [hx, if_false, inversions, List.filter_cons, decide_False,
        Bool.false_eq_true, List.length_cons] at *
      omega

theorem inversions_le (l : List Sprite) : inversions l ≤ l.length * l.length := by
  induction l with
  | nil => simp [inversions]
  | cons a l ih =>
    have h := List.length_filter_le (fun b => decide (a.x < b.x)) l
    simp only [inversions, List.length_cons]
    nlinarith

theorem pass_list_perm (l : List Sprite) : (pass_list l).Perm l := by
  cases l with
  | nil => simp [pass_list]
  | cons a rest => exact bubble_perm a rest

theorem pass_list_filter (v : Int) (l : List Sprite) :
    (pass_list l).filter (fun p => decide (p.x = v)) = l.filter (fun p => decide (p.x = v)) := by
  cases l with
  | nil => simp [pass_list]
  | cons a rest => exact bubble_filter v a rest

theorem pass_list_unswapped (l : List Sprite) (h : pass_swapped l = false) :
    pass_list l = l ∧ l.Pairwise (fun p q => q.x ≤ p.x) := by
  cases l with
  | nil => simp [pass_list]
  | cons a rest => exact bubble_unswapped a rest h

theorem pass_list_inversions (l : List Sprite) (h : pass_swapped l = true) :
    inversions (pass_list l) < inversions l := by
  cases l with
  | nil => simp [pass_swapped] at h
  | cons a rest =>
    have := inversions_bubble a rest
    simp only [pass_swapped] at h
    simp only [h, if_true] at this
    simp only [pass_list]
    omega

theorem sort_pass_eq (n : Nat) (s : List Sprite) (hn : n ≤ s.length) :
    sort_for n n 0 s false = (pass_list (s.take n) ++ s.drop n, pass_swapped (s.take n)) := by
  cases n with
  | zero => simp [sort_for, pass_list, pass_swapped]
  | succ n =>
    cases s with
    | nil => simp at hn
    | cons a t =>
      simp only [List.length_cons, Nat.add_le_add_iff_right] at hn
      have e := sort_for_eq (n + 1) (t.take n) [] a (t.drop n) (n + 1) 0 false rfl
        (by simp [hn]; omega) (by simp)
      simp only [List.nil_append, List.take_append_drop, Bool.false_or] at e
      simp only [List.take_succ_cons, List.drop_succ_cons, pass_list, pass_swapped, e]

theorem sort_loop_spec (n : Nat) :
    ∀ (fuel : Nat) (s : List Sprite), n ≤ s.length → inversions (s.take n) < fuel →
      ∃ out, sort_loop n fuel s = some out ∧ out.drop n = s.drop n
        ∧ (out.take n).Perm (s.take n)
        ∧ (out.take n).Pairwise (fun p q => q.x ≤ p.x)
        ∧ ∀ v : Int, (out.take n).filter (fun p => decide (p.x = v))
            = (s.take n).filter (fun p => decide (p.x = v)) := by
  intro fuel
  induction fuel with
  | zero => intro s _ h; omega
  | succ fuel ih =>
    intro s hn hf
    have hlen : (pass_list (s.take n)).length = n := by
      rw [(pass_list_perm (s.take n)).length_eq, List.length_take]; omega
    have htake : (pass_list (s.take n) ++ s.drop n).take n = pass_list (s.take n) :=
      List.take_left' hlen
    have hdrop : (pass_list (s.take n) ++ s.drop n).drop n = s.drop n :=
      List.drop_left' hlen
    simp only [sort_loop, sort_pass_eq n s hn]
    by_cases hsw : pass_swapped (s.take n) = true
    · have hinv := pass_list_inversions (s.take n) hsw
      obtain ⟨out, e, hd, hp, hs, hst⟩ := ih (pass_list (s.take n) ++ s.drop n)
        (by simp [hlen]) (by rw [htake]; omega)
      refine ⟨out, by simp [hsw, e], hd.trans hdrop, ?_, hs, ?_⟩
      · rw [htake] at hp
        exact hp.trans (pass_list_perm _)
      · intro v
        rw [hst v, htake, pass_list_filter]
    · have hsw1 : pass_swapped (s.take n) = false := by simpa using hsw
      obtain ⟨e, pw⟩ := pass_list_unswapped (s.take n) hsw1
      refine ⟨pass_list (s.take n) ++ s.drop n, by simp [hsw1], hdrop, ?_, ?_, ?_⟩
      · rw [htake, e]
      · rw [htake, e]; exact pw
      · intro v; rw [htake, e]

theorem sort_sprites_spec (s : List Sprite) (n : Nat) (hn : n ≤ s.length) :
    ∃ out, sort_sprites s n = some out ∧ out.drop n = s.drop n
      ∧ (out.take n).Perm (s.take n)
      ∧ (out.take n).Pairwise (fun p q => q.x ≤ p.x)
      ∧ ∀ v : Int, (out.take n).filter (fun p => decide (p.x = v))
          = (s.take n).filter (fun p => decide (p.x = v)) := by
  apply sort_loop_spec n (n * n + 1) s hn
  have h := inversions_le (s.take n)
  rw [List.length_take, Nat.min_eq_left hn] at h
  omega

/-! ## The driver always returns -/

theorem select_loop_total (r : LCD) (mem : Mem) (line : Int) :
    ∀ (fuel i : Nat) (s : List Sprite) (c : Nat), c < 10 →
      ∃ s1 c1, select_loop r mem line fuel i s c = some (s1, c1) ∧ c1 ≤ 10
        ∧ s1.length = s.length := by
  intro fuel
  induction fuel with
  | zero => intro i s c hc; exact ⟨s, c, rfl, by omega, rfl⟩
  | succ fuel ih =>
    intro i s c hc
    by_cases hi : i < 40
    · by_cases hy : (line < (mem_get_raw mem (0xFE00 + (i : Int) * 4) : Int) - 16 ∨
          line ≥ (mem_get_raw mem (0xFE00 + (i : Int) * 4) : Int) - 16 + 8
            + (r.sprite_size : Int) * 8)
      · obtain ⟨s1, c1, e, h1, h2⟩ := ih (i + 1) s c hc
        exact ⟨s1, c1, by simp only [select_loop, hi, if_true, hy, e], h1, h2⟩
      · by_cases hc1 : c + 1 = 10
        · exact ⟨s.set c (oam_sprite mem i), c + 1,
            by simp only [select_loop, hi, if_true, hy, if_false, hc, hc1],
            by omega, by simp⟩
        · obtain ⟨s1, c1, e, h1, h2⟩ := ih (i + 1) (s.set c (oam_sprite mem i)) (c + 1)
            (by omega)
          exact ⟨s1, c1, by simp only [select_loop, hi, if_true, hy, if_false, hc, hc1, e],
            h1, by simpa using h2⟩
    · exact ⟨s, c, by simp only [select_loop, hi, if_false], by omega, rfl⟩

theorem render_line_total (r : LCD) (mem : Mem) (b : FB) (line : Int) :
    ∃ b1, render_line r mem b line = some b1 := by
  obtain ⟨s1, c1, e, h1, h2⟩ :=
    select_loop_total r mem line 40 0 (List.replicate 10 default) 0 (by omega)
  have hlen : c1 ≤ s1.length := by simpa [h2] using h1
  unfold render_line select_sprites
  rw [e]
  by_cases hc : c1 = 0
  · simp [hc]
  · obtain ⟨out, eo, _⟩ := sort_sprites_spec s1 c1 hlen
    simp [hc, eo]

theorem lcd_cycle_run (r : LCD) (mem : Mem) (b : FB) (cycles : Int) :
    ∃ fb rest, lcd_cycle r mem b cycles false
        = some
          { ret := 1
            regs :=
              { tick_regs r cycles with
                prev_line := (tick_regs r cycles).lcd_line
                prev_mode := (tick_regs r cycles).lcd_mode }
            fb := fb
            events := stat_check (tick_regs r cycles) ++ rest }
      ∧ Event.interrupt Intr.INTR_LCDSTAT ∉ rest := by
  obtain ⟨b1, hb1⟩ := render_line_total (tick_regs r cycles) mem b (tick_regs r cycles).lcd_line
  simp only [tick_regs, tick_line, tick_sub] at hb1 ⊢
  simp only [lcd_cycle, Bool.false_eq_true, if_false, hb1, Option.map_some']
  by_cases h1 : Int.tdiv (Int.tmod cycles (Int.tdiv 70224 4)) (Int.tdiv 456 4) ≠ r.prev_line
      ∧ Int.tdiv (Int.tmod cycles (Int.tdiv 70224 4)) (Int.tdiv 456 4) < 144
  · have h2 : ¬ (r.prev_line = 143
        ∧ Int.tdiv (Int.tmod cycles (Int.tdiv 70224 4)) (Int.tdiv 456 4) = 144) := by omega
    rw [if_pos h1]; dsimp only; rw [if_neg h2]
    exact ⟨b1, [Event.render_line
      (Int.tdiv (Int.tmod cycles (Int.tdiv 70224 4)) (Int.tdiv 456 4))], by simp, by simp⟩
  · by_cases h2 : r.prev_line = 143
        ∧ Int.tdiv (Int.tmod cycles (Int.tdiv 70224 4)) (Int.tdiv 456 4) = 144
    · rw [if_neg h1]; dsimp only; rw [if_pos h2]
      exact ⟨draw_stuff mem b,
        [Event.draw_stuff, Event.sdl_frame, Event.interrupt Intr.INTR_VBLANK], by simp, by simp⟩
    · rw [if_neg h1]; dsimp only; rw [if_neg h2]
      exact ⟨b, [], by simp, by simp⟩

/-! ## Timing -/

theorem tdiv_tmod_cases (a b : Int) (hb : 0 < b) :
    (0 ≤ a ∧ Int.tdiv a b = a / b ∧ Int.tmod a b = a % b) ∨
      (a < 0 ∧ Int.tdiv a b = -((-a) / b) ∧ Int.tmod a b = -((-a) % b)) := by
  by_cases ha : 0 ≤ a
  · exact Or.inl ⟨ha, Int.tdiv_eq_ediv ha (le_of_lt hb), Int.tmod_eq_emod ha (le_of_lt hb)⟩
  · right
    have hn : 0 ≤ -a := by omega
    have h1 : Int.tdiv a b = -((-a) / b) := by
      rw [← Int.tdiv_eq_ediv hn (le_of_lt hb), Int.neg_tdiv, neg_neg]
    refine ⟨by omega, h1, ?_⟩
    have h2 := Int.tmod_def a b
    have h3 := Int.emod_def (-a) b
    rw [h2, h1, h3]
    ring

theorem frame_constants :
    Int.tdiv 70224 4 = 17556 ∧ Int.tdiv 456 4 = 114 ∧ Int.tdiv 80 4 = 20
      ∧ Int.tdiv 252 4 = 63 := by decide

theorem tick_line_sub_nonneg (c : Int) (hc : 0 ≤ c) :
    tick_line c = (c % 17556) / 114 ∧ tick_sub c = (c % 17556) % 114 := by
  obtain ⟨f1, f2, _, _⟩ := frame_constants
  unfold tick_line tick_sub
  rw [f1, f2]
  rcases tdiv_tmod_cases c 17556 (by norm_num) with ⟨_, _, h2⟩ | ⟨h, _, _⟩
  · rw [h2]
    have hp : 0 ≤ c % 17556 := by omega
    rcases tdiv_tmod_cases (c % 17556) 114 (by norm_num) with ⟨_, h3, h4⟩ | ⟨h, _, _⟩
    · exact ⟨h3, h4⟩
    · omega
  · omega

theorem tick_line_sub_bounds (c : Int) :
    -153 ≤ tick_line c ∧ tick_line c ≤ 153 ∧ -114 < tick_sub c ∧ tick_sub c < 114
      ∧ (0 ≤ tick_line c ∨ c < 0) ∧ (c < 0 → tick_line c ≤ 0 ∧ tick_sub c ≤ 0) := by
  obtain ⟨f1, f2, _, _⟩ := frame_constants
  unfold tick_line tick_sub
  rw [f1, f2]
  rcases tdiv_tmod_cases c 17556 (by norm_num) with ⟨h0, _, h2⟩ | ⟨h0, _, h2⟩ <;>
    rcases tdiv_tmod_cases (Int.tmod c 17556) 114 (by norm_num) with ⟨h3, h4, h5⟩ | ⟨h3, h4, h5⟩ <;>
    (rw [h4, h5]; omega)

theorem next_mode_eq (old : Nat) (line sub : Int) (h : sub < 114) :
    next_mode old line sub
      = if line ≥ 144 then 1 else if sub < 20 then 2 else if sub < 63 then 3 else 0 := by
  obtain ⟨_, f2, f3, f4⟩ := frame_constants
  unfold next_mode
  rw [f2, f3, f4]
  simp only [h, if_true]

theorem tick_mode_le (r : LCD) (c : Int) : (tick_regs r c).lcd_mode ≤ 3 := by
  have hb := tick_line_sub_bounds c
  simp only [tick_regs, next_mode_eq r.lcd_mode _ _ hb.2.2.2.1]
  split_ifs <;> omega

/-- C1: for a non-negative cycle counter value `c`, a tick of `lcd_cycle` that is
not stopped by the close signal returns, and sets `line = (c mod 17556) / 114` and,
with `p = (c mod 17556) mod 114`, `mode = 1` if `line >= 144`, otherwise 2 when
`p < 20`, 3 when `20 <= p < 63` and 0 when `63 <= p`; the right-hand sides do not
mention the registers before the tick. -/
theorem lcd_cycle_line_mode (r : LCD) (mem : Mem) (b : FB) (c : Int) (hc : 0 ≤ c) :
    ∃ t, lcd_cycle r mem b c false = some t
      ∧ t.regs.lcd_line = (c % 17556) / 114
      ∧ t.regs.lcd_mode
          = (if (c % 17556) / 114 ≥ 144 then 1
            else if (c % 17556) % 114 < 20 then 2
            else if (c % 17556) % 114 < 63 then 3 else 0)
      ∧ 0 ≤ (c % 17556) % 114 ∧ (c % 17556) % 114 < 114 := by
  obtain ⟨fb, rest, h, _⟩ := lcd_cycle_run r mem b c
  obtain ⟨hl, hs⟩ := tick_line_sub_nonneg c hc
  have hb := tick_line_sub_bounds c
  refine ⟨_, h, ?_, ?_, by omega, by omega⟩
  · simp only [tick_regs, hl]
  · simp only [tick_regs]
    rw [next_mode_eq r.lcd_mode _ _ hb.2.2.2.1, hl, hs]

/-- Witness of C1: the cycle value `17556*3 + 114*150 + 5` gives line 150 and
mode 1. -/
theorem lcd_cycle_line_mode_witness :
    (0 : Int) ≤ 17556 * 3 + 114 * 150 + 5 ∧
      ∃ t, lcd_cycle LCD.init mem0 fb0 (17556 * 3 + 114 * 150 + 5) false = some t
        ∧ t.regs.lcd_line = 150 ∧ t.regs.lcd_mode = 1 := by
  refine ⟨by decide, ?_⟩
  obtain ⟨t, h, hl, hm, _⟩ :=
    lcd_cycle_line_mode LCD.init mem0 fb0 (17556 * 3 + 114 * 150 + 5) (by decide)
  exact ⟨t, h, by rw [hl]; decide, by rw [hm]; decide⟩

/-- C2 (amended): for every non-negative cycle counter value, a tick that is not
stopped by the close signal returns with the mode in 0..3, the line in 0..153, and
`mode == 1` exactly when `line >= 144`. -/
theorem lcd_cycle_range (r : LCD) (mem : Mem) (b : FB) (c : Int) (hc : 0 ≤ c) :
    ∃ t, lcd_cycle r mem b c false = some t
      ∧ t.regs.lcd_mode ≤ 3
      ∧ 0 ≤ t.regs.lcd_line ∧ t.regs.lcd_line ≤ 153
      ∧ (t.regs.lcd_mode = 1 ↔ 144 ≤ t.regs.lcd_line) := by
  obtain ⟨fb, rest, h, _⟩ := lcd_cycle_run r mem b c
  have hb := tick_line_sub_bounds c
  have h0 : 0 ≤ tick_line c := by
    rcases hb.2.2.2.2.1 with h0 | h0
    · exact h0
    · omega
  refine ⟨_, h, tick_mode_le r c, h0, hb.2.1, ?_⟩
  simp only [tick_regs, next_mode_eq r.lcd_mode _ _ hb.2.2.2.1]
  split_ifs <;> constructor <;> intro h1 <;> first | omega | simp at h1

/-- Witness of C2 (amended): the last counter value of the second frame, from the
initial state. -/
theorem lcd_cycle_range_witness :
    (0 : Int) ≤ 35111
      ∧ ∃ t, lcd_cycle LCD.init mem0 fb0 35111 false = some t
        ∧ t.regs.lcd_mode ≤ 3
        ∧ 0 ≤ t.regs.lcd_line ∧ t.regs.lcd_line ≤ 153
        ∧ (t.regs.lcd_mode = 1 ↔ 144 ≤ t.regs.lcd_line) :=
  ⟨by decide, lcd_cycle_range LCD.init mem0 fb0 35111 (by decide)⟩

/-! ## Status register -/

theorem lcd_cycle_regs (r : LCD) (mem : Mem) (b : FB) (c : Int) (close : Bool) (t : Tick)
    (h : lcd_cycle r mem b c close = some t) :
    t.regs = r ∨
      t.regs = { tick_regs r c with
        prev_line := (tick_regs r c).lcd_line
        prev_mode := (tick_regs r c).lcd_mode } := by
  cases close with
  | true =>
    left
    simp only [lcd_cycle, if_true, Option.some.injEq] at h
    rw [← h]
  | false =>
    right
    obtain ⟨fb, rest, e, _⟩ := lcd_cycle_run r mem b c
    rw [e, Option.some.injEq] at h
    rw [← h]

theorem other_step_enables (r r1 : LCD) (h : OtherStep r r1) :
    r1.ly_int = r.ly_int ∧ r1.oam_int = r.oam_int ∧ r1.vblank_int = r.vblank_int
      ∧ r1.hblank_int = r.hblank_int := by
  cases h with
  | cycle mem b c close t ht =>
    rcases lcd_cycle_regs r mem b c close t ht with e | e <;> rw [e] <;> simp [tick_regs]
  | _ => simp [lcd_write_bg_palette, lcd_write_spr_palette1, lcd_write_spr_palette2,
      lcd_write_scroll_x, lcd_write_scroll_y, lcd_write_control, lcd_set_ly_compare,
      lcd_set_window_y, lcd_set_window_x]

theorem other_step_mode (r r1 : LCD) (h : OtherStep r r1) (hm : r.lcd_mode ≤ 3) :
    r1.lcd_mode ≤ 3 := by
  cases h with
  | cycle mem b c close t ht =>
    rcases lcd_cycle_regs r mem b c close t ht with e | e
    · rw [e]; exact hm
    · rw [e]; exact tick_mode_le r c
  | _ => simpa [lcd_write_bg_palette, lcd_write_spr_palette1, lcd_write_spr_palette2,
      lcd_write_scroll_x, lcd_write_scroll_y, lcd_write_control, lcd_set_ly_compare,
      lcd_set_window_y, lcd_set_window_x] using hm

theorem reachable_mode (r : LCD) (h : Reachable r) : r.lcd_mode ≤ 3 := by
  induction h with
  | init => decide
  | other r r1 _ hs ih => exact other_step_mode r r1 hs ih
  | write_stat r c _ _ ih => exact ih

set_option maxRecDepth 100000 in
theorem stat_pack : ∀ c : Fin 256, ∀ m : Fin 4, ∀ k : Fin 2,
    (0x80 ||| (c.val &&& 0x40) ||| (c.val &&& 0x20) ||| (c.val &&& 0x10) ||| (c.val &&& 0x08)
        ||| ((k.val <<< 2) % 256) ||| m.val) % 256
      = 0x80 ||| (c.val &&& 0x78) ||| (k.val * 4) ||| m.val := by decide

set_option maxRecDepth 100000 in
theorem stat_bits : ∀ c : Fin 256, ∀ m : Fin 4, ∀ k : Fin 2,
    (0x80 ||| (c.val &&& 0x78) ||| (k.val * 4) ||| m.val).testBit 7 = true
      ∧ (∀ i : Fin 7, 3 ≤ i.val →
          (0x80 ||| (c.val &&& 0x78) ||| (k.val * 4) ||| m.val).testBit i.val
            = c.val.testBit i.val)
      ∧ ((0x80 ||| (c.val &&& 0x78) ||| (k.val * 4) ||| m.val).testBit 2 = true ↔ k.val = 1)
      ∧ (0x80 ||| (c.val &&& 0x78) ||| (k.val * 4) ||| m.val) &&& 3 = m.val := by decide

theorem stat_enables_kept (r0 r2 : LCD) (h : Relation.ReflTransGen OtherStep r0 r2)
    (hm : r0.lcd_mode ≤ 3) :
    r2.ly_int = r0.ly_int ∧ r2.oam_int = r0.oam_int ∧ r2.vblank_int = r0.vblank_int
      ∧ r2.hblank_int = r0.hblank_int ∧ r2.lcd_mode ≤ 3 := by
  induction h with
  | refl => exact ⟨rfl, rfl, rfl, rfl, hm⟩
  | tail _ hs ih =>
    obtain ⟨h1, h2, h3, h4, h5⟩ := ih
    obtain ⟨e1, e2, e3, e4⟩ := other_step_enables _ _ hs
    exact ⟨e1.trans h1, e2.trans h2, e3.trans h3, e4.trans h4, other_step_mode _ _ hs h5⟩

/-- C3: in a reachable register state `r`, after `lcd_write_stat(c)` and any later
operations other than `lcd_write_stat`, `lcd_get_stat` returns
`0x80 | (c & 0x78) | (4 if line == line_compare else 0) | mode`: bit 7 is 1, bits
6..3 are those of `c`, bit 2 says whether `line == line_compare`, bits 1..0 are the
mode; and `lcd_write_stat` itself leaves the mode, the line and the compare value
as they were. -/
theorem lcd_get_stat_spec (r r2 : LCD) (c : Nat) (hr : Reachable r) (hc : c < 256)
    (h : Relation.ReflTransGen OtherStep (lcd_write_stat r c) r2) :
    lcd_get_stat r2
        = 0x80 ||| (c &&& 0x78) ||| (if r2.lcd_line = (r2.lcd_ly_compare : Int) then 4 else 0)
          ||| r2.lcd_mode
      ∧ (lcd_get_stat r2).testBit 7 = true
      ∧ (∀ i, 3 ≤ i → i ≤ 6 → (lcd_get_stat r2).testBit i = c.testBit i)
      ∧ ((lcd_get_stat r2).testBit 2 = true ↔ r2.lcd_line = (r2.lcd_ly_compare : Int))
      ∧ lcd_get_stat r2 &&& 3 = r2.lcd_mode
      ∧ (lcd_write_stat r c).lcd_mode = r.lcd_mode
      ∧ (lcd_write_stat r c).lcd_line = r.lcd_line
      ∧ (lcd_write_stat r c).lcd_ly_compare = r.lcd_ly_compare := by
  obtain ⟨h1, h2, h3, h4, h5⟩ := stat_enables_kept _ _ h (reachable_mode r hr)
  have hp := fun k => stat_pack ⟨c, hc⟩ ⟨r2.lcd_mode, by omega⟩ k
  have hb := fun k => stat_bits ⟨c, hc⟩ ⟨r2.lcd_mode, by omega⟩ k
  simp only [lcd_write_stat] at h1 h2 h3 h4
  have hstat : lcd_get_stat r2
      = 0x80 ||| (c &&& 0x78) ||| (if r2.lcd_line = (r2.lcd_ly_compare : Int) then 4 else 0)
        ||| r2.lcd_mode := by
    unfold lcd_get_stat
    rw [h1, h2, h3, h4]
    by_cases hl : r2.lcd_line = (r2.lcd_ly_compare : Int)
    · simpa [hl] using hp 1
    · simpa [hl] using hp 0
  refine ⟨hstat, ?_, ?_, ?_, ?_, rfl, rfl, rfl⟩
  · rw [hstat]
    by_cases hl : r2.lcd_line = (r2.lcd_ly_compare : Int)
    · simpa [hl] using (hb 1).1
    · simpa [hl] using (hb 0).1
  · intro i hi3 hi6
    rw [hstat]
    by_cases hl : r2.lcd_line = (r2.lcd_ly_compare : Int)
    · simpa [hl] using (hb 1).2.1 ⟨i, by omega⟩ hi3
    · simpa [hl] using (hb 0).2.1 ⟨i, by omega⟩ hi3
  · rw [hstat]
    by_cases hl : r2.lcd_line = (r2.lcd_ly_compare : Int)
    · simpa [hl] using (hb 1).2.2.1
    · simpa [hl] using (hb 0).2.2.1
  · rw [hstat]
    by_cases hl : r2.lcd_line = (r2.lcd_ly_compare : Int)
    · simpa [hl] using (hb 1).2.2.2
    · simpa [hl] using (hb 0).2.2.2

/-- Witness of C3: from the initial state, writing `0x48` to the status register
and then setting the compare value to 5 gives the status byte `0xC8`; without the
second write it is `0xCC`. -/
theorem lcd_get_stat_spec_witness :
    Reachable LCD.init ∧ 0x48 < 256
      ∧ Relation.ReflTransGen OtherStep (lcd_write_stat LCD.init 0x48)
          (lcd_set_ly_compare (lcd_write_stat LCD.init 0x48) 5)
      ∧ lcd_get_stat (lcd_set_ly_compare (lcd_write_stat LCD.init 0x48) 5) = 0xC8
      ∧ lcd_get_stat (lcd_write_stat LCD.init 0x48) = 0xCC :=
  ⟨Reachable.init, by decide,
    Relation.ReflTransGen.single (OtherStep.set_ly_compare _ 5 (by decide)),
    (lcd_get_stat_spec LCD.init _ 0x48 Reachable.init (by decide)
      (Relation.ReflTransGen.single (OtherStep.set_ly_compare _ 5 (by decide)))).1.trans
      (by decide),
    (lcd_get_stat_spec LCD.init _ 0x48 Reachable.init (by decide)
      Relation.ReflTransGen.refl).1.trans (by decide)⟩

/-! ## STAT interrupt -/

theorem stat_check_cases (r : LCD) :
    (stat_check r = [Event.interrupt Intr.INTR_LCDSTAT] ∧
        ((r.ly_int ≠ 0 ∧ r.lcd_line = (r.lcd_ly_compare : Int))
          ∨ (r.hblank_int ≠ 0 ∧ r.lcd_mode = 0 ∧ r.prev_mode ≠ 0)
          ∨ (r.vblank_int ≠ 0 ∧ r.lcd_mode = 1 ∧ r.prev_mode ≠ 1)
          ∨ (r.oam_int ≠ 0 ∧ r.lcd_mode = 2 ∧ r.prev_mode ≠ 2)))
      ∨ (stat_check r = [] ∧
        ¬ ((r.ly_int ≠ 0 ∧ r.lcd_line = (r.lcd_ly_compare : Int))
          ∨ (r.hblank_int ≠ 0 ∧ r.lcd_mode = 0 ∧ r.prev_mode ≠ 0)
          ∨ (r.vblank_int ≠ 0 ∧ r.lcd_mode = 1 ∧ r.prev_mode ≠ 1)
          ∨ (r.oam_int ≠ 0 ∧ r.lcd_mode = 2 ∧ r.prev_mode ≠ 2))) := by
  unfold stat_check
  by_cases h1 : r.ly_int ≠ 0 ∧ r.lcd_line = (r.lcd_ly_compare : Int)
  · exact Or.inl ⟨by rw [if_pos h1], Or.inl h1⟩
  · rw [if_neg h1]
    by_cases h2 : r.hblank_int ≠ 0 ∧ r.lcd_mode = 0 ∧ r.prev_mode ≠ 0
    · exact Or.inl ⟨by rw [if_pos h2], Or.inr (Or.inl h2)⟩
    · rw [if_neg h2]
      by_cases h3 : r.vblank_int ≠ 0 ∧ r.lcd_mode = 1 ∧ r.prev_mode ≠ 1
      · exact Or.inl ⟨by rw [if_pos h3], Or.inr (Or.inr (Or.inl h3))⟩
      · rw [if_neg h3]
        by_cases h4 : r.oam_int ≠ 0 ∧ r.lcd_mode = 2 ∧ r.prev_mode ≠ 2
        · exact Or.inl ⟨by rw [if_pos h4], Or.inr (Or.inr (Or.inr h4))⟩
        · rw [if_neg h4]
          exact Or.inr ⟨rfl, by tauto⟩

/-- C4: on a tick of `lcd_cycle` that is not stopped by the close signal, the
LCD-STAT interrupt is requested at most once, and it is requested exactly when
(a) `ly_int` is enabled and `line == line_compare`, or (b) `hblank_int` is enabled
and the mode is 0 and `prev_mode` is not, or (c) `vblank_int` is enabled and the
mode is 1 and `prev_mode` is not, or (d) `oam_int` is enabled and the mode is 2
and `prev_mode` is not; line and mode being those the tick computes. -/
theorem stat_interrupt_once (r : LCD) (mem : Mem) (b : FB) (c : Int) :
    ∃ t, lcd_cycle r mem b c false = some t
      ∧ t.events.count (Event.interrupt Intr.INTR_LCDSTAT) ≤ 1
      ∧ (t.events.count (Event.interrupt Intr.INTR_LCDSTAT) = 1 ↔
          ((r.ly_int ≠ 0 ∧ t.regs.lcd_line = (r.lcd_ly_compare : Int))
            ∨ (r.hblank_int ≠ 0 ∧ t.regs.lcd_mode = 0 ∧ r.prev_mode ≠ 0)
            ∨ (r.vblank_int ≠ 0 ∧ t.regs.lcd_mode = 1 ∧ r.prev_mode ≠ 1)
            ∨ (r.oam_int ≠ 0 ∧ t.regs.lcd_mode = 2 ∧ r.prev_mode ≠ 2))) := by
  obtain ⟨fb, rest, h, hrest⟩ := lcd_cycle_run r mem b c
  refine ⟨_, h, ?_⟩
  have h0 : rest.count (Event.interrupt Intr.INTR_LCDSTAT) = 0 :=
    List.count_eq_zero_of_not_mem hrest
  simp only [List.count_append, h0, Nat.add_zero]
  rcases stat_check_cases (tick_regs r c) with ⟨e, hc⟩ | ⟨e, hc⟩
  · rw [e]
    exact ⟨by simp, fun _ => hc, fun _ => by simp⟩
  · rw [e]
    exact ⟨by simp, fun h1 => by simp at h1, fun h1 => absurd h1 hc⟩

/-! ## Sprite selection and ordering: the claims -/

/-- C5: for every line, every sprite-size flag (0 or 1) and every memory, the
selection loop of `render_line` returns without storing outside the 10 cells of
`s`; the count is `min(10, k)`, at most 10, where `k` is the number of attribute
entries `i` with `y <= line < y + height`, `y = mem[0xFE00+4i] - 16`; and the
first `count` cells of `s` are the descriptors of the first `min(10, k)` such
entries in ascending table order, with `x = mem[0xFE00+4i+1] - 8`,
`tile = mem[0xFE00+4i+2]`, `flags = mem[0xFE00+4i+3]`. -/
theorem select_sprites_spec (r : LCD) (mem : Mem) (line : Int) (hs : r.sprite_size ≤ 1) :
    ∃ s, select_sprites r mem line = some (s, min 10 (matching r mem line).length)
      ∧ s.length = 10
      ∧ min 10 (matching r mem line).length ≤ 10
      ∧ s.take (min 10 (matching r mem line).length)
          = ((matching r mem line).take 10).map (fun (i : Nat) =>
              ({ y := (mem_get_raw mem (0xFE00 + 4 * (i : Int)) : Int) - 16
                 x := (mem_get_raw mem (0xFE00 + 4 * (i : Int) + 1) : Int) - 8
                 tile := mem_get_raw mem (0xFE00 + 4 * (i : Int) + 2)
                 flags := mem_get_raw mem (0xFE00 + 4 * (i : Int) + 3) } : Sprite)) := by
  obtain ⟨s1, e, hl, ht⟩ :=
    select_loop_spec r mem line hs 40 0 (List.replicate 10 default) 0 (by simp) (by omega)
  have hr : List.range' 0 (min 40 (40 - 0)) = List.range 40 := by
    rw [List.range_eq_range']; rfl
  rw [hr] at e ht
  simp only [Nat.zero_add, List.take_zero, List.nil_append, Nat.sub_zero] at e ht
  have hf : (fun i : Nat =>
      ({ y := (mem_get_raw mem (0xFE00 + 4 * (i : Int)) : Int) - 16
         x := (mem_get_raw mem (0xFE00 + 4 * (i : Int) + 1) : Int) - 8
         tile := mem_get_raw mem (0xFE00 + 4 * (i : Int) + 2)
         flags := mem_get_raw mem (0xFE00 + 4 * (i : Int) + 3) } : Sprite))
      = oam_sprite mem := by
    funext i
    have h4 : (4 : Int) * (i : Int) = (i : Int) * 4 := by ring
    simp only [oam_sprite, h4]
  rw [hf]
  exact ⟨s1, e, hl, by omega, ht⟩

/-- Witness of C5: with every attribute entry at `y = 0`, line 0 in 8-row mode
selects 10 of the 40 matching entries. -/
theorem select_sprites_spec_witness :
    LCD.init.sprite_size ≤ 1 ∧ ∃ s, select_sprites LCD.init mem16 0 = some (s, 10) := by
  refine ⟨by decide, ?_⟩
  obtain ⟨s, e, _⟩ := select_sprites_spec LCD.init mem16 0 (by decide)
  have hk : min 10 (matching LCD.init mem16 0).length = 10 := by decide
  rw [hk] at e
  exact ⟨s, e⟩

/-- C6: for every array holding at least `n` sprite descriptors, `sort_sprites(s, n)`
terminates; the first `n` cells of the result are a permutation of the first `n`
cells of the input, their `x` is non-increasing along the array, for every value
`v` the cells with `x = v` appear in the same order as in the input (stability),
and the cells from index `n` on are untouched. -/
theorem sort_sprites_stable (s : List Sprite) (n : Nat) (hn : n ≤ s.length) :
    ∃ out, sort_sprites s n = some out
      ∧ out.length = s.length
      ∧ out.drop n = s.drop n
      ∧ (out.take n).Perm (s.take n)
      ∧ (out.take n).Pairwise (fun p q => q.x ≤ p.x)
      ∧ ∀ v : Int, (out.take n).filter (fun p => decide (p.x = v))
          = (s.take n).filter (fun p => decide (p.x = v)) := by
  obtain ⟨out, e, hd, hp, hs, hst⟩ := sort_sprites_spec s n hn
  refine ⟨out, e, ?_, hd, hp, hs, hst⟩
  have h1 := congrArg List.length (List.take_append_drop n out)
  have h2 := congrArg List.length (List.take_append_drop n s)
  rw [List.length_append] at h1 h2
  rw [← h1, ← h2, hp.length_eq, hd]

/-- Witness of C6: four descriptors with `x` = 1, 3, 1, 3 (tiles 0, 1, 2, 3) are
sorted to `x` = 3, 3, 1, 1 with tiles 1, 3, 0, 2. -/
theorem sort_sprites_stable_witness :
    4 ≤ [(⟨0, 1, 0, 0⟩ : Sprite), ⟨0, 3, 1, 0⟩, ⟨0, 1, 2, 0⟩, ⟨0, 3, 3, 0⟩].length
      ∧ ∃ out, sort_sprites [⟨0, 1, 0, 0⟩, ⟨0, 3, 1, 0⟩, ⟨0, 1, 2, 0⟩, ⟨0, 3, 3, 0⟩] 4 = some out
        ∧ out = [⟨0, 3, 1, 0⟩, ⟨0, 3, 3, 0⟩, ⟨0, 1, 0, 0⟩, ⟨0, 1, 2, 0⟩] := by
  refine ⟨by decide, ?_⟩
  obtain ⟨out, e, _⟩ :=
    sort_sprites_stable [⟨0, 1, 0, 0⟩, ⟨0, 3, 1, 0⟩, ⟨0, 1, 2, 0⟩, ⟨0, 3, 3, 0⟩] 4 (by decide)
  have h : sort_sprites [⟨0, 1, 0, 0⟩, ⟨0, 3, 1, 0⟩, ⟨0, 1, 2, 0⟩, ⟨0, 3, 3, 0⟩] 4
      = some [⟨0, 3, 1, 0⟩, ⟨0, 3, 3, 0⟩, ⟨0, 1, 0, 0⟩, ⟨0, 1, 2, 0⟩] := by decide
  rw [h, Option.some.injEq] at e
  exact ⟨out, by rw [h, e], e.symm⟩

/-! ## Drawing sprites, seen from one framebuffer cell -/

theorem idx_colours_lt (i : Nat) : idx colours i < 4294967296 := by
  unfold idx colours
  match i with
  | 0 => decide
  | 1 => decide
  | 2 => decide
  | 3 => decide
  | n + 4 => simp

theorem shade_eq (pal : List Nat) (c : Nat) : shade pal c = idx colours (idx pal c) := by
  unfold shade
  exact Nat.mod_eq_of_lt (idx_colours_lt _)

theorem draw_sprite_pixel_at (r : LCD) (mem : Mem) (line : Int) (s : Sprite) (b : FB)
    (x : Nat) (k : Int) :
    draw_sprite_pixel r mem line s b x k
      = if toU32 (s.x + (x : Int)) < 160 ∧ k = sprite_cell line s x
        then pixel_over r mem line s x (b k) else b k := by
  unfold draw_sprite_pixel pixel_over
  by_cases h1 : toU32 (s.x + (x : Int)) ≥ 160
  · have h1n : ¬ toU32 (s.x + (x : Int)) < 160 := by omega
    simp only [h1, if_true, h1n, false_and, if_false]
  · have h1p : toU32 (s.x + (x : Int)) < 160 := by omega
    simp only [h1, if_false, h1p, true_and]
    by_cases hk : k = sprite_cell line s x
    · subst hk
      simp only [if_true]
      split_ifs <;> simp [store]
    · simp only [hk, if_false]
      split_ifs <;> simp [store, hk]

theorem foldl_cell {α : Type} (step : FB → α → FB) (f : α → Nat → Nat) (k : Int)
    (h : ∀ b a, step b a k = f a (b k)) :
    ∀ (l : List α) (b : FB), l.foldl step b k = l.foldl (fun v a => f a v) (b k) := by
  intro l
  induction l with
  | nil => intro b; rfl
  | cons a l ih => intro b; simp only [List.foldl_cons, ih, h]

theorem foldl_skip {α : Type} (f : α → Nat → Nat) :
    ∀ (l : List α) (v : Nat), (∀ a ∈ l, ∀ w, f a w = w) → l.foldl (fun v a => f a v) v = v := by
  intro l
  induction l with
  | nil => intro v _; rfl
  | cons a l ih =>
    intro v h
    simp only [List.foldl_cons]
    rw [h a (List.mem_cons_self a l) v]
    exact ih v (fun a1 ha => h a1 (List.mem_cons_of_mem a ha))

theorem foldl_last {α : Type} (f : α → Nat → Nat) (l1 l2 : List α) (a : α) (v : Nat)
    (h : ∀ a1 ∈ l2, ∀ w, f a1 w = w) :
    (l1 ++ a :: l2).foldl (fun v a => f a v) v = f a (l1.foldl (fun v a => f a v) v) := by
  rw [List.foldl_append, List.foldl_cons]
  exact foldl_skip f l2 _ h

theorem foldl_unique (c : Nat → Prop) [DecidablePred c] (g : Nat → Nat → Nat) (x0 : Nat)
    (l : List Nat) (v : Nat) (hn : l.Nodup) (hm : x0 ∈ l) (hc : ∀ x ∈ l, c x ↔ x = x0) :
    l.foldl (fun v x => if c x then g x v else v) v = g x0 v := by
  obtain ⟨l1, l2, rfl⟩ := List.append_of_mem hm
  have hn1 := List.nodup_append.1 hn
  have hn2 := List.nodup_cons.1 hn1.2.1
  have h0 : c x0 := (hc x0 hm).2 rfl
  have hl2 : ∀ a1 ∈ l2, ∀ w, (fun x w => if c x then g x w else w) a1 w = w := by
    intro a1 ha w
    have hne : ¬ c a1 := by
      intro hca
      have := (hc a1 (by simp [ha])).1 hca
      subst this
      exact hn2.1 ha
    simp only [hne, if_false]
  have hl1 : ∀ a1 ∈ l1, ∀ w, (fun x w => if c x then g x w else w) a1 w = w := by
    intro a1 ha w
    have hne : ¬ c a1 := by
      intro hca
      have := (hc a1 (by simp [ha])).1 hca
      subst this
      exact hn1.2.2 ha (List.mem_cons_self _ _)
    simp only [hne, if_false]
  rw [foldl_last (fun x w => if c x then g x w else w) l1 l2 x0 v hl2,
    foldl_skip (fun x w => if c x then g x w else w) l1 v hl1]
  simp only [h0, if_true]

theorem foldl_none (c : Nat → Prop) [DecidablePred c] (g : Nat → Nat → Nat)
    (l : List Nat) (v : Nat) (hc : ∀ x ∈ l, ¬ c x) :
    l.foldl (fun v x => if c x then g x v else v) v = v := by
  apply foldl_skip (fun x w => if c x then g x w else w)
  intro a ha w
  simp only [hc a ha, if_false]

theorem cell_cond (line p : Int) (s : Sprite) (x : Nat) (hx : x < 8)
    (hline : 0 ≤ line ∧ line < 144) (hp : 0 ≤ p ∧ p < 160)
    (hs : -2147483648 ≤ s.x ∧ s.x < 2147483648) :
    (toU32 (s.x + (x : Int)) < 160 ∧ line * 640 + p = sprite_cell line s x)
      ↔ s.x + (x : Int) = p := by
  unfold sprite_cell toU32
  constructor
  · rintro ⟨h1, h2⟩
    omega
  · intro h
    omega

theorem draw_sprite_at (r : LCD) (mem : Mem) (line : Int) (b : FB) (s : Sprite) (p : Int)
    (hline : 0 ≤ line ∧ line < 144) (hp : 0 ≤ p ∧ p < 160)
    (hs : -2147483648 ≤ s.x ∧ s.x < 2147483648) :
    draw_sprite r mem line b s (line * 640 + p)
      = sprite_over r mem line s p (b (line * 640 + p)) := by
  unfold draw_sprite sprite_over
  by_cases h7 : s.x < -7
  · have hn : ¬ (s.x ≤ p ∧ p < s.x + 8) := by omega
    simp only [h7, if_true, hn, if_false]
  · simp only [h7, if_false]
    rw [foldl_cell (draw_sprite_pixel r mem line s)
      (fun x v => if toU32 (s.x + (x : Int)) < 160 ∧ line * 640 + p = sprite_cell line s x
        then pixel_over r mem line s x v else v) (line * 640 + p)
      (fun b a => draw_sprite_pixel_at r mem line s b a (line * 640 + p))]
    by_cases hin : s.x ≤ p ∧ p < s.x + 8
    · simp only [hin, and_self, if_true]
      have hx0 : (p - s.x).toNat < 8 := by omega
      exact foldl_unique
        (fun x => toU32 (s.x + (x : Int)) < 160 ∧ line * 640 + p = sprite_cell line s x)
        (fun x v => pixel_over r mem line s x v) (p - s.x).toNat (List.range 8) _
        (List.nodup_range 8) (List.mem_range.2 hx0)
        (fun x hx => by
          show (toU32 (s.x + (x : Int)) < 160 ∧ line * 640 + p = sprite_cell line s x) ↔ _
          rw [cell_cond line p s x (List.mem_range.1 hx) hline hp hs]
          omega)
    · simp only [hin, if_false]
      exact foldl_none
        (fun x => toU32 (s.x + (x : Int)) < 160 ∧ line * 640 + p = sprite_cell line s x)
        (fun x v => pixel_over r mem line s x v) (List.range 8) _
        (fun x hx => by
          show ¬ (toU32 (s.x + (x : Int)) < 160 ∧ line * 640 + p = sprite_cell line s x)
          rw [cell_cond line p s x (List.mem_range.1 hx) hline hp hs]
          have := List.mem_range.1 hx
          omega)

theorem draw_sprites_at (r : LCD) (mem : Mem) (line : Int) (p : Int)
    (hline : 0 ≤ line ∧ line < 144) (hp : 0 ≤ p ∧ p < 160) :
    ∀ (l : List Sprite) (b : FB), (∀ s ∈ l, -2147483648 ≤ s.x ∧ s.x < 2147483648) →
      l.foldl (draw_sprite r mem line) b (line * 640 + p)
        = l.foldl (fun v s => sprite_over r mem line s p v) (b (line * 640 + p)) := by
  intro l
  induction l with
  | nil => intro b _; rfl
  | cons a l ih =>
    intro b h
    simp only [List.foldl_cons]
    rw [ih _ (fun s hs => h s (List.mem_cons_of_mem a hs)),
      draw_sprite_at r mem line b a p hline hp (h a (List.mem_cons_self a l))]

theorem sprite_over_transparent (r : LCD) (mem : Mem) (line : Int) (s : Sprite) (p : Int)
    (h : ¬ opaque_at r mem line s p) (v : Nat) : sprite_over r mem line s p v = v := by
  unfold sprite_over pixel_over
  unfold opaque_at at h
  by_cases hin : s.x ≤ p ∧ p < s.x + 8
  · have h0 : sprite_colour r mem line s (p - s.x).toNat = 0 := by
      by_contra hne
      exact h ⟨hin.1, hin.2, hne⟩
    simp only [hin, and_self, if_true, h0]
  · simp only [hin, if_false]

theorem sprite_over_opaque (r : LCD) (mem : Mem) (line : Int) (s : Sprite) (p : Int)
    (h : opaque_at r mem line s p) (hprio : s.flags &&& 0x80 = 0) (v : Nat) :
    sprite_over r mem line s p v = sprite_shade r mem line s p := by
  unfold sprite_over pixel_over sprite_shade
  obtain ⟨h1, h2, h3⟩ := h
  have hpr : ¬ (s.flags &&& PRIO ≠ 0 ∧ v ≠ idx colours (idx r.bgpalette 0)) := by
    intro hh
    exact hh.1 hprio
  simp only [h1, h2, and_self, if_true, h3, if_false, hpr, shade_eq]

/-! ## The scanline, seen from one framebuffer cell -/

theorem select_sprites_selected (r : LCD) (mem : Mem) (line : Int) (hs : r.sprite_size ≤ 1) :
    ∃ s, select_sprites r mem line = some (s, (selected r mem line).length)
      ∧ (selected r mem line).length ≤ s.length
      ∧ s.take (selected r mem line).length = selected r mem line := by
  obtain ⟨s1, e, hl, ht⟩ :=
    select_loop_spec r mem line hs 40 0 (List.replicate 10 default) 0 (by simp) (by omega)
  have hr : List.range' 0 (min 40 (40 - 0)) = List.range 40 := by
    rw [List.range_eq_range']; rfl
  rw [hr] at e ht
  simp only [Nat.zero_add, List.take_zero, List.nil_append, Nat.sub_zero] at e ht
  have hlen : (selected r mem line).length
      = min 10 ((List.range 40).filter (on_line r mem line)).length := by
    simp [selected, matching]
  refine ⟨s1, ?_, ?_, ?_⟩
  · rw [hlen]; exact e
  · rw [hlen, hl]; omega
  · rw [hlen, ht]; rfl

theorem selected_x_range (r : LCD) (mem : Mem) (line : Int) (s : Sprite)
    (h : s ∈ selected r mem line) : -2147483648 ≤ s.x ∧ s.x < 2147483648 := by
  unfold selected at h
  obtain ⟨i, _, rfl⟩ := List.mem_map.1 h
  have : mem_get_raw mem (0xFE00 + (i : Int) * 4 + 1) < 256 := Nat.mod_lt _ (by norm_num)
  simp only [oam_sprite]
  omega

theorem draw_markers_at (r : LCD) (b : FB) (line p : Int) (hp : p < 160) :
    draw_markers r b line (line * 640 + p) = b (line * 640 + p) := by
  unfold draw_markers store
  have h1 : ¬ (line * 640 + p = line * 640 + 172) := by omega
  have h2 : ¬ (line * 640 + p = line * 640 + 173) := by omega
  have h3 : ¬ (line * 640 + p = line * 640 + 168) := by omega
  have h4 : ¬ (line * 640 + p = line * 640 + 169) := by omega
  simp only [h1, h2, h3, h4, if_false]

theorem render_line_at (r : LCD) (mem : Mem) (b : FB) (line p : Int) (hs : r.sprite_size ≤ 1)
    (hline : 0 ≤ line ∧ line < 144) (hp : 0 ≤ p ∧ p < 160) :
    ∃ (out : FB) (l : List Sprite), render_line r mem b line = some out
      ∧ l.Perm (selected r mem line)
      ∧ l.Pairwise (fun p q => q.x ≤ p.x)
      ∧ (∀ v : Int, l.filter (fun p => decide (p.x = v))
          = (selected r mem line).filter (fun p => decide (p.x = v)))
      ∧ out (line * 640 + p)
          = l.foldl (fun v s => sprite_over r mem line s p v)
              (draw_bg_and_window r mem b line (line * 640 + p)) := by
  obtain ⟨s1, e, hlen, ht⟩ := select_sprites_selected r mem line hs
  unfold render_line
  rw [e]
  by_cases hc : (selected r mem line).length = 0
  · have hnil : selected r mem line = [] := List.length_eq_zero.1 hc
    refine ⟨draw_markers r (draw_sprites r mem (draw_bg_and_window r mem b line) line
        (selected r mem line).length s1) line, [],
      by simp only [hc, ne_eq, not_true_eq_false, if_false], ?_, ?_, ?_, ?_⟩
    · rw [hnil]
    · exact List.Pairwise.nil
    · intro v; rw [hnil]
    · rw [draw_markers_at r _ line p hp.2]
      simp [draw_sprites, hc]
  · obtain ⟨out, eo, _, hperm, hsort, hstab⟩ :=
      sort_sprites_spec s1 (selected r mem line).length hlen
    rw [ht] at hperm hstab
    refine ⟨draw_markers r (draw_sprites r mem (draw_bg_and_window r mem b line) line
        (selected r mem line).length out) line, out.take (selected r mem line).length,
      by simp only [ne_eq, hc, not_false_eq_true, if_true, eo], hperm, hsort, hstab, ?_⟩
    rw [draw_markers_at r _ line p hp.2]
    unfold draw_sprites
    exact draw_sprites_at r mem line p hline hp _ _
      (fun s hs1 => selected_x_range r mem line s (hperm.subset hs1))

theorem sorted_split (v : Int) :
    ∀ l : List Sprite, l.Pairwise (fun p q => q.x ≤ p.x) →
      l = l.filter (fun s => decide (v < s.x))
        ++ (l.filter (fun s => decide (s.x = v)) ++ l.filter (fun s => decide (s.x < v))) := by
  intro l
  induction l with
  | nil => intro _; rfl
  | cons a l ih =>
    intro h
    obtain ⟨ha, hl⟩ := List.pairwise_cons.1 h
    have e := ih hl
    rcases lt_trichotomy a.x v with hlt | heq | hgt
    · have h1 : l.filter (fun s => decide (v < s.x)) = [] := by
        rw [List.filter_eq_nil_iff]
        intro b hb
        have := ha b hb
        simp only [decide_eq_true_eq]; omega
      have h2 : l.filter (fun s => decide (s.x = v)) = [] := by
        rw [List.filter_eq_nil_iff]
        intro b hb
        have := ha b hb
        simp only [decide_eq_true_eq]; omega
      have n1 : ¬ v < a.x := by omega
      have n2 : ¬ a.x = v := by omega
      rw [h1, h2] at e
      simp only [List.nil_append] at e
      simp only [List.filter_cons, n1, n2, hlt, decide_True, decide_False, if_true,
        Bool.false_eq_true, if_false, h1, h2, List.nil_append]
      rw [← e]
    · have h1 : l.filter (fun s => decide (v < s.x)) = [] := by
        rw [List.filter_eq_nil_iff]
        intro b hb
        have := ha b hb
        simp only [decide_eq_true_eq]; omega
      have n1 : ¬ v < a.x := by omega
      have n3 : ¬ a.x < v := by omega
      rw [h1] at e
      simp only [List.nil_append] at e
      simp only [List.filter_cons, n1, n3, heq, decide_True, decide_False, if_true,
        Bool.false_eq_true, if_false, h1, List.nil_append, List.cons_append,
        lt_self_iff_false]
      rw [← e]
    · have n2 : ¬ a.x = v := by omega
      have n3 : ¬ a.x < v := by omega
      simp only [List.filter_cons, n2, n3, hgt, decide_True, decide_False, if_true,
        Bool.false_eq_true, if_false, List.cons_append]
      rw [← e]

theorem render_line_top (r : LCD) (mem : Mem) (b : FB) (line p : Int) (hs : r.sprite_size ≤ 1)
    (hline : 0 ≤ line ∧ line < 144) (hp : 0 ≤ p ∧ p < 160)
    (pre post : List Sprite) (A : Sprite)
    (hsel : selected r mem line = pre ++ A :: post)
    (hA : opaque_at r mem line A p) (hprio : A.flags &&& 0x80 = 0)
    (hpre : ∀ s ∈ pre, opaque_at r mem line s p → A.x ≤ s.x)
    (hpost : ∀ s ∈ post, opaque_at r mem line s p → A.x < s.x) :
    ∃ out, render_line r mem b line = some out
      ∧ out (line * 640 + p) = sprite_shade r mem line A p := by
  obtain ⟨out, l, e, hperm, hsort, hstab, hval⟩ := render_line_at r mem b line p hs hline hp
  refine ⟨out, e, ?_⟩
  have hsplit := sorted_split A.x l hsort
  have hst := hstab A.x
  rw [hsel] at hst
  simp only [List.filter_append, List.filter_cons, decide_True, if_true] at hst
  rw [hst] at hsplit
  have hdec : l = (l.filter (fun s => decide (A.x < s.x))
        ++ pre.filter (fun s => decide (s.x = A.x)))
      ++ A :: (post.filter (fun s => decide (s.x = A.x))
        ++ l.filter (fun s => decide (s.x < A.x))) := by
    refine hsplit.trans ?_
    simp only [List.append_assoc, List.cons_append]
  have hl2 : ∀ s ∈ post.filter (fun s => decide (s.x = A.x))
      ++ l.filter (fun s => decide (s.x < A.x)),
      ∀ w, sprite_over r mem line s p w = w := by
    intro s hmem w
    apply sprite_over_transparent
    intro hop
    rcases List.mem_append.1 hmem with h1 | h1
    · obtain ⟨hin, hx⟩ := List.mem_filter.1 h1
      have := hpost s hin hop
      simp only [decide_eq_true_eq] at hx
      omega
    · obtain ⟨hin, hx⟩ := List.mem_filter.1 h1
      simp only [decide_eq_true_eq] at hx
      have hsel1 : s ∈ pre ++ A :: post := by
        rw [← hsel]; exact hperm.subset hin
      rcases List.mem_append.1 hsel1 with h2 | h2
      · have := hpre s h2 hop
        omega
      · rcases List.mem_cons.1 h2 with h3 | h3
        · rw [h3] at hx; omega
        · have := hpost s h3 hop
          omega
  rw [hval, hdec, foldl_last (fun s v => sprite_over r mem line s p v) _ _ A _ hl2]
  exact sprite_over_opaque r mem line A p hA hprio _

/-! ## Sprite priority: the claims -/

set_option maxRecDepth 100000 in
/-- Counterexample to C7 as stated. First, with two selected sprites at `x = 0`
(background-priority flag set, colour `0xC0C0C0`) and `x = 1` (colour `0x808080`),
both with a non-zero colour index at column 1, the pixel after `render_line` is
the colour of the sprite with the larger `x`. Second, with three selected sprites
at `x = 0, 1, 2` and no flags, all with a non-zero colour index at column 2, the
pixel is the colour of the sprite at `x = 0`, not that of the smaller-`x` sprite
of the pair at `x = 1, 2`. -/
theorem render_line_smaller_x_not_on_top :
    (selected LCD.init memP 0 = [⟨0, 0, 0, 0x80⟩, ⟨0, 1, 1, 0⟩]
      ∧ opaque_at LCD.init memP 0 ⟨0, 0, 0, 0x80⟩ 1
      ∧ opaque_at LCD.init memP 0 ⟨0, 1, 1, 0⟩ 1
      ∧ sprite_shade LCD.init memP 0 ⟨0, 0, 0, 0x80⟩ 1 = 0xC0C0C0
      ∧ sprite_shade LCD.init memP 0 ⟨0, 1, 1, 0⟩ 1 = 0x808080
      ∧ (render_line LCD.init memP fb0 0).map (fun f => f (0 * 640 + 1)) = some 0x808080)
    ∧ (selected LCD.init mem3 0 = [⟨0, 0, 0, 0⟩, ⟨0, 1, 1, 0⟩, ⟨0, 2, 1, 0⟩]
      ∧ opaque_at LCD.init mem3 0 ⟨0, 1, 1, 0⟩ 2
      ∧ opaque_at LCD.init mem3 0 ⟨0, 2, 1, 0⟩ 2
      ∧ sprite_shade LCD.init mem3 0 ⟨0, 1, 1, 0⟩ 2 = 0x808080
      ∧ (render_line LCD.init mem3 fb0 0).map (fun f => f (0 * 640 + 2)) = some 0xC0C0C0) := by
  decide

/-- C7 (amended): for every scanline `line` in 0..143 rendered by `render_line`,
every screen column `p` in 0..159 and every selected sprite `A` that has a
non-zero colour index at `p`, whose background-priority flag is clear, and whose
`x` is smaller than the `x` of every other selected sprite with a non-zero colour
index at `p` (in particular of a second sprite overlapping there), the framebuffer
pixel at `(line, p)` after `render_line` is the colour `colours[pal[idx]]` of `A`. -/
theorem render_line_leftmost_on_top (r : LCD) (mem : Mem) (b : FB) (line p : Int)
    (hs : r.sprite_size ≤ 1) (hline : 0 ≤ line ∧ line < 144) (hp : 0 ≤ p ∧ p < 160)
    (pre post : List Sprite) (A : Sprite)
    (hsel : selected r mem line = pre ++ A :: post)
    (hA : opaque_at r mem line A p) (hprio : A.flags &&& 0x80 = 0)
    (hothers : ∀ s ∈ pre ++ post, opaque_at r mem line s p → A.x < s.x) :
    ∃ out, render_line r mem b line = some out
      ∧ out (line * 640 + p) = sprite_shade r mem line A p :=
  render_line_top r mem b line p hs hline hp pre post A hsel hA hprio
    (fun s h1 h2 => le_of_lt (hothers s (List.mem_append_left post h1) h2))
    (fun s h1 h2 => hothers s (List.mem_append_right pre h1) h2)

set_option maxRecDepth 100000 in
/-- Witness of C7 (amended): entry 0 at `x = 1`, entry 1 at `x = 0`, both opaque at
column 1; the pixel is `0xC0C0C0`, the colour of the sprite at `x = 0`. -/
theorem render_line_leftmost_on_top_witness :
    LCD.init.sprite_size ≤ 1
      ∧ selected LCD.init memL 0 = [⟨0, 1, 1, 0⟩] ++ ⟨0, 0, 0, 0⟩ :: []
      ∧ opaque_at LCD.init memL 0 ⟨0, 0, 0, 0⟩ 1
      ∧ ∃ out, render_line LCD.init memL fb0 0 = some out ∧ out (0 * 640 + 1) = 0xC0C0C0 := by
  refine ⟨by decide, by decide, by decide, ?_⟩
  obtain ⟨out, e, h⟩ := render_line_leftmost_on_top LCD.init memL fb0 0 1 (by decide)
    (by decide) (by decide) [⟨0, 1, 1, 0⟩] [] ⟨0, 0, 0, 0⟩ (by decide) (by decide) (by decide)
    (by decide)
  exact ⟨out, e, h.trans (by decide)⟩

set_option maxRecDepth 100000 in
/-- Counterexample to C8 as stated: two selected sprites at the same `x = 0`, table
entry 0 with colour `0xC0C0C0` and table entry 1 with colour `0x808080`, both with
a non-zero colour index at column 1; the pixel after `render_line` is `0x808080`,
the colour of the sprite with the higher table index. -/
theorem render_line_equal_x_higher_index :
    selected LCD.init memE 0 = [⟨0, 0, 0, 0⟩, ⟨0, 0, 1, 0⟩]
      ∧ opaque_at LCD.init memE 0 ⟨0, 0, 0, 0⟩ 1
      ∧ opaque_at LCD.init memE 0 ⟨0, 0, 1, 0⟩ 1
      ∧ sprite_shade LCD.init memE 0 ⟨0, 0, 0, 0⟩ 1 = 0xC0C0C0
      ∧ sprite_shade LCD.init memE 0 ⟨0, 0, 1, 0⟩ 1 = 0x808080
      ∧ (render_line LCD.init memE fb0 0).map (fun f => f (0 * 640 + 1)) = some 0x808080 := by
  decide

/-- C8 (amended): for every scanline `line` in 0..143 rendered by `render_line`
and every two selected sprites `L`, `H` with equal `x`, `L` before `H` in the
attribute table, both with a non-zero colour index at screen column `p` in
0..159: when the background-priority flag of `H` is clear and every other selected
sprite with a non-zero colour index at `p` has a larger `x`, or the same `x` and
a table index below that of `H`, the framebuffer pixel at `(line, p)` after
`render_line` is the colour of `H`, the sprite with the higher table index. -/
theorem render_line_equal_x_on_top (r : LCD) (mem : Mem) (b : FB) (line p : Int)
    (hs : r.sprite_size ≤ 1) (hline : 0 ≤ line ∧ line < 144) (hp : 0 ≤ p ∧ p < 160)
    (pre mid post : List Sprite) (L H : Sprite)
    (hsel : selected r mem line = pre ++ L :: (mid ++ H :: post))
    (hx : L.x = H.x)
    (hL : opaque_at r mem line L p) (hH : opaque_at r mem line H p)
    (hprio : H.flags &&& 0x80 = 0)
    (hbefore : ∀ s ∈ pre ++ mid, opaque_at r mem line s p → H.x ≤ s.x)
    (hafter : ∀ s ∈ post, opaque_at r mem line s p → H.x < s.x) :
    ∃ out, render_line r mem b line = some out
      ∧ out (line * 640 + p) = sprite_shade r mem line H p ∧ opaque_at r mem line L p := by
  obtain ⟨out, e, h⟩ := render_line_top r mem b line p hs hline hp (pre ++ L :: mid) post H
    (by rw [hsel]; simp) hH hprio
    (fun s h1 h2 => by
      rcases List.mem_append.1 h1 with h3 | h3
      · exact hbefore s (List.mem_append_left mid h3) h2
      · rcases List.mem_cons.1 h3 with h4 | h4
        · rw [h4, hx]
        · exact hbefore s (List.mem_append_right pre h4) h2)
    hafter
  exact ⟨out, e, h, hL⟩

set_option maxRecDepth 100000 in
/-- Witness of C8 (amended): the two sprites of `memE` at `x = 0`; the pixel at
column 1 is `0x808080`, the colour of table entry 1. -/
theorem render_line_equal_x_on_top_witness :
    LCD.init.sprite_size ≤ 1
      ∧ selected LCD.init memE 0 = [] ++ ⟨0, 0, 0, 0⟩ :: ([] ++ ⟨0, 0, 1, 0⟩ :: [])
      ∧ ∃ out, render_line LCD.init memE fb0 0 = some out ∧ out (0 * 640 + 1) = 0x808080 := by
  refine ⟨by decide, by decide, ?_⟩
  obtain ⟨out, e, h, _⟩ := render_line_equal_x_on_top LCD.init memE fb0 0 1 (by decide)
    (by decide) (by decide) [] [] [] ⟨0, 0, 0, 0⟩ ⟨0, 0, 1, 0⟩ (by decide) (by decide)
    (by decide) (by decide) (by decide) (by decide) (by decide)
  exact ⟨out, e, h.trans (by decide)⟩

/-! ## Drawing one sprite: the claims -/

theorem draw_sprites_single (r : LCD) (mem : Mem) (b : FB) (line : Int) (s : Sprite)
    (col : Nat) (hline : 0 ≤ line ∧ line < 144) (hcol : col < 8)
    (hp : 0 ≤ s.x + (col : Int) ∧ s.x + (col : Int) < 160) :
    draw_sprites r mem b line 1 [s] (line * 640 + (s.x + (col : Int)))
      = pixel_over r mem line s col (b (line * 640 + (s.x + (col : Int)))) := by
  have h1 : draw_sprites r mem b line 1 [s] = draw_sprite r mem line b s := rfl
  rw [h1, draw_sprite_at r mem line b s (s.x + (col : Int)) hline hp (by omega)]
  unfold sprite_over
  have hin : s.x ≤ s.x + (col : Int) ∧ s.x + (col : Int) < s.x + 8 := by omega
  have hc : (s.x + (col : Int) - s.x).toNat = col := by omega
  simp only [hin, and_self, if_true, hc]

set_option maxRecDepth 100000 in
/-- Counterexample to C9 as stated: a background-priority sprite with a non-zero
colour index at column 1. Where the existing pixel equals `colours[bgpalette[0]]`
the sprite colour `0xC0C0C0` is drawn, and where the existing pixel (`0xFFFFFF`)
differs from it the pixel is left unchanged. -/
theorem draw_sprites_priority_inverted :
    (⟨0, 0, 0, 0x80⟩ : Sprite).flags &&& 0x80 ≠ 0
      ∧ sprite_colour LCD.init memP 0 ⟨0, 0, 0, 0x80⟩ 1 ≠ 0
      ∧ fb0 (0 * 640 + 1) = idx colours (idx LCD.init.bgpalette 0)
      ∧ draw_sprites LCD.init memP fb0 0 1 [⟨0, 0, 0, 0x80⟩] (0 * 640 + 1) = 0xC0C0C0
      ∧ draw_sprites LCD.init memP fb0 0 1 [⟨0, 0, 0, 0x80⟩] (0 * 640 + 1) ≠ fb0 (0 * 640 + 1)
      ∧ fbW (0 * 640 + 1) ≠ idx colours (idx LCD.init.bgpalette 0)
      ∧ draw_sprites LCD.init memP fbW 0 1 [⟨0, 0, 0, 0x80⟩] (0 * 640 + 1)
          = fbW (0 * 640 + 1) := by
  decide

/-- C9 (amended): for a sprite whose background-priority flag (0x80) is set and
a column of it that is on screen with a non-zero colour index, `draw_sprites`
leaves the framebuffer pixel unchanged when the existing pixel differs from
`colours[bgpalette[0]]`, and writes the sprite colour `colours[pal[idx]]` when the
existing pixel equals `colours[bgpalette[0]]`. -/
theorem draw_sprites_priority (r : LCD) (mem : Mem) (b : FB) (line : Int) (s : Sprite)
    (col : Nat) (hline : 0 ≤ line ∧ line < 144) (hcol : col < 8)
    (hp : 0 ≤ s.x + (col : Int) ∧ s.x + (col : Int) < 160)
    (hprio : s.flags &&& 0x80 ≠ 0) (hidx : sprite_colour r mem line s col ≠ 0) :
    (b (line * 640 + (s.x + (col : Int))) ≠ idx colours (idx r.bgpalette 0) →
        draw_sprites r mem b line 1 [s] (line * 640 + (s.x + (col : Int)))
          = b (line * 640 + (s.x + (col : Int))))
      ∧ (b (line * 640 + (s.x + (col : Int))) = idx colours (idx r.bgpalette 0) →
        draw_sprites r mem b line 1 [s] (line * 640 + (s.x + (col : Int)))
          = idx colours (idx (sprite_pal r s) (sprite_colour r mem line s col))) := by
  rw [draw_sprites_single r mem b line s col hline hcol hp]
  unfold pixel_over
  have hpr : s.flags &&& PRIO ≠ 0 := hprio
  constructor
  · intro hne
    simp only [hidx, if_false, hpr, hne, ne_eq, not_false_eq_true, and_self, if_true]
  · intro heq
    simp only [hidx, if_false, heq, ne_eq, not_true_eq_false, and_false, shade_eq]

set_option maxRecDepth 100000 in
/-- Witness of C9 (amended): the background-priority sprite of `memP` is drawn
over the empty framebuffer, whose pixels equal `colours[bgpalette[0]]`. -/
theorem draw_sprites_priority_witness :
    (⟨0, 0, 0, 0x80⟩ : Sprite).flags &&& 0x80 ≠ 0
      ∧ sprite_colour LCD.init memP 0 ⟨0, 0, 0, 0x80⟩ 1 ≠ 0
      ∧ fb0 (0 * 640 + (0 + ((1 : Nat) : Int))) = idx colours (idx LCD.init.bgpalette 0)
      ∧ draw_sprites LCD.init memP fb0 0 1 [⟨0, 0, 0, 0x80⟩] (0 * 640 + (0 + ((1 : Nat) : Int)))
          = 0xC0C0C0 :=
  ⟨by decide, by decide, by decide,
    ((draw_sprites_priority LCD.init memP fb0 0 ⟨0, 0, 0, 0x80⟩ 1 (by decide) (by decide)
      (by decide) (by decide) (by decide)).2 (by decide)).trans (by decide)⟩

theorem mem_get_raw_lt (mem : Mem) (a : Int) : mem_get_raw mem a < 256 :=
  Nat.mod_lt _ (by norm_num)

set_option maxRecDepth 100000 in
theorem mask_bit : ∀ b : Fin 256, ∀ x : Fin 8,
    notnot (b.val &&& ((128 >>> x.val) % 256)) = (b.val.testBit (7 - x.val)).toNat
      ∧ notnot (b.val &&& ((128 >>> (7 - x.val)) % 256)) = (b.val.testBit x.val).toNat := by
  decide

theorem colour_index_bits (b1 b2 : Nat) (h1 : b1 < 256) (h2 : b2 < 256) (s : Sprite)
    (x : Nat) (hx : x < 8) :
    colour_index b1 b2 (sprite_mask s x)
      = 2 * (b2.testBit (if s.flags &&& 0x20 ≠ 0 then x else 7 - x)).toNat
        + (b1.testBit (if s.flags &&& 0x20 ≠ 0 then x else 7 - x)).toNat := by
  have m1 := mask_bit ⟨b1, h1⟩ ⟨x, hx⟩
  have m2 := mask_bit ⟨b2, h2⟩ ⟨x, hx⟩
  unfold colour_index sprite_mask
  by_cases hf : s.flags &&& 0x20 ≠ 0
  · have hf1 : s.flags &&& HFLIP ≠ 0 := hf
    simp only [if_pos hf, if_pos hf1, m1.2, m2.2]
    cases b2.testBit x <;> cases b1.testBit x <;> rfl
  · have hf1 : ¬ s.flags &&& HFLIP ≠ 0 := hf
    simp only [if_neg hf, if_neg hf1, m1.1, m2.1]
    cases b2.testBit (7 - x) <;> cases b1.testBit (7 - x) <;> rfl

theorem sprite_tile_addr_eq (r : LCD) (line : Int) (s : Sprite)
    (hsel : s.y ≤ line ∧ line < s.y + sprite_height r) (htile : s.tile < 256) :
    sprite_tile_addr r line s
        = 0x8000 + (s.tile : Int) * 16
          + 2 * (if s.flags &&& 0x40 ≠ 0 then (sprite_height r - 1) - (line - s.y)
              else line - s.y)
      ∧ toU32 (sprite_tile_addr r line s + 1)
        = 0x8000 + (s.tile : Int) * 16
          + 2 * (if s.flags &&& 0x40 ≠ 0 then (sprite_height r - 1) - (line - s.y)
              else line - s.y) + 1 := by
  unfold sprite_tile_addr sprite_line toU32
  unfold sprite_height at hsel ⊢
  unfold VFLIP
  split_ifs at hsel ⊢ <;> omega

/-- C10: for a sprite `s` that covers `line` (`s.y <= line < s.y + height`, its
tile a byte) and a column `col` in 0..7 with `0 <= s.x + col < 160` (so that
`s.x >= -7`), drawing the sprite on framebuffer `b` gives at
`(line, s.x + col)`: with `row = (height-1) - (line - s.y)` if flag 0x40 is set,
else `line - s.y`, `b1 = mem[0x8000 + s.tile*16 + 2*row]`,
`b2 = mem[0x8000 + s.tile*16 + 2*row + 1]`, bit position `k = col` if flag 0x20
is set, else `7 - col`, and `i = 2*bit_k(b2) + bit_k(b1)`: the pixel is unchanged
if `i = 0`; unchanged if flag 0x80 is set and the pixel differs from
`colours[bgpalette[0]]`; otherwise `colours[pal[i]]`, `pal` being sprite palette
2 if flag 0x10 is set and sprite palette 1 otherwise. -/
theorem draw_sprite_column (r : LCD) (mem : Mem) (b : FB) (line : Int) (s : Sprite)
    (col : Nat) (hline : 0 ≤ line ∧ line < 144)
    (hsel : s.y ≤ line ∧ line < s.y + sprite_height r) (hcol : col < 8)
    (hp : 0 ≤ s.x + (col : Int) ∧ s.x + (col : Int) < 160) (htile : s.tile < 256) :
    draw_sprites r mem b line 1 [s] (line * 640 + (s.x + (col : Int)))
      = (let row : Int :=
            if s.flags &&& 0x40 ≠ 0 then (sprite_height r - 1) - (line - s.y) else line - s.y
         let b1 := mem_get_raw mem (0x8000 + (s.tile : Int) * 16 + 2 * row)
         let b2 := mem_get_raw mem (0x8000 + (s.tile : Int) * 16 + 2 * row + 1)
         let k := if s.flags &&& 0x20 ≠ 0 then col else 7 - col
         let i := 2 * (b2.testBit k).toNat + (b1.testBit k).toNat
         let pal := if s.flags &&& 0x10 ≠ 0 then r.sprpalette2 else r.sprpalette1
         if i = 0 then b (line * 640 + (s.x + (col : Int)))
         else if s.flags &&& 0x80 ≠ 0
             ∧ b (line * 640 + (s.x + (col : Int))) ≠ idx colours (idx r.bgpalette 0) then
           b (line * 640 + (s.x + (col : Int)))
         else idx colours (idx pal i)) := by
  rw [draw_sprites_single r mem b line s col hline hcol hp]
  obtain ⟨a1, a2⟩ := sprite_tile_addr_eq r line s hsel htile
  have hc : sprite_colour r mem line s col
      = 2 * ((mem_get_raw mem (0x8000 + (s.tile : Int) * 16
              + 2 * (if s.flags &&& 0x40 ≠ 0 then (sprite_height r - 1) - (line - s.y)
                  else line - s.y) + 1)).testBit
            (if s.flags &&& 0x20 ≠ 0 then col else 7 - col)).toNat
        + ((mem_get_raw mem (0x8000 + (s.tile : Int) * 16
              + 2 * (if s.flags &&& 0x40 ≠ 0 then (sprite_height r - 1) - (line - s.y)
                  else line - s.y))).testBit
            (if s.flags &&& 0x20 ≠ 0 then col else 7 - col)).toNat := by
    unfold sprite_colour
    simp only [a2]
    simp only [a1]
    exact colour_index_bits _ _ (mem_get_raw_lt mem _) (mem_get_raw_lt mem _) s col hcol
  unfold pixel_over
  rw [hc, shade_eq]
  rfl

set_option maxRecDepth 100000 in
/-- Witness of C10: sprite 0 of `memL` (at `x = 1`, tile 1, colour index 2) drawn
on the empty framebuffer gives `0x808080` at screen column 2. -/
theorem draw_sprite_column_witness :
    (-7 : Int) ≤ (⟨0, 1, 1, 0⟩ : Sprite).x ∧ (⟨0, 1, 1, 0⟩ : Sprite).tile < 256
      ∧ draw_sprites LCD.init memL fb0 0 1 [⟨0, 1, 1, 0⟩] (0 * 640 + (1 + ((1 : Nat) : Int)))
          = 0x808080 :=
  ⟨by decide, by decide,
    (draw_sprite_column LCD.init memL fb0 0 ⟨0, 1, 1, 0⟩ 1 (by decide) (by decide) (by decide)
      (by decide) (by decide)).trans (by decide)⟩

/-! ## Facts that hold in every reachable state -/

theorem notnot_le (v : Nat) : notnot v ≤ 1 := by
  unfold notnot
  split <;> omega

theorem other_step_inv (r r1 : LCD) (hs : OtherStep r r1) (h : Inv r) : Inv r1 := by
  cases hs with
  | write_bg_palette n hn =>
    refine ⟨h.mode, h.flags, h.bytes, ⟨rfl, ?_⟩, h.pal1, h.pal2⟩
    intro v hv
    simp only [lcd_write_bg_palette, List.mem_cons, List.mem_singleton, List.not_mem_nil,
      or_false] at hv
    rcases hv with rfl | rfl | rfl | rfl <;> exact Nat.and_le_right
  | write_spr_palette1 n hn =>
    refine ⟨h.mode, h.flags, h.bytes, h.bgpal, ⟨rfl, ?_, rfl⟩, h.pal2⟩
    intro v hv
    simp only [lcd_write_spr_palette1, List.mem_cons, List.mem_singleton, List.not_mem_nil,
      or_false] at hv
    rcases hv with rfl | rfl | rfl | rfl
    · omega
    all_goals exact Nat.and_le_right
  | write_spr_palette2 n hn =>
    refine ⟨h.mode, h.flags, h.bytes, h.bgpal, h.pal1, ⟨rfl, ?_, rfl⟩⟩
    intro v hv
    simp only [lcd_write_spr_palette2, List.mem_cons, List.mem_singleton, List.not_mem_nil,
      or_false] at hv
    rcases hv with rfl | rfl | rfl | rfl
    · omega
    all_goals exact Nat.and_le_right
  | write_scroll_x n hn =>
    exact ⟨h.mode, h.flags, ⟨hn, h.bytes.2⟩, h.bgpal, h.pal1, h.pal2⟩
  | write_scroll_y n hn =>
    exact ⟨h.mode, h.flags, ⟨h.bytes.1, hn, h.bytes.2.2⟩, h.bgpal, h.pal1, h.pal2⟩
  | write_control n hn =>
    exact ⟨h.mode, ⟨notnot_le _, notnot_le _, notnot_le _, notnot_le _, notnot_le _,
      notnot_le _, notnot_le _, notnot_le _⟩, h.bytes, h.bgpal, h.pal1, h.pal2⟩
  | set_ly_compare n hn =>
    exact ⟨h.mode, h.flags, ⟨h.bytes.1, h.bytes.2.1, h.bytes.2.2.1, h.bytes.2.2.2.1, hn⟩,
      h.bgpal, h.pal1, h.pal2⟩
  | set_window_y n hn =>
    exact ⟨h.mode, h.flags, ⟨h.bytes.1, h.bytes.2.1, h.bytes.2.2.1, hn, h.bytes.2.2.2.2⟩,
      h.bgpal, h.pal1, h.pal2⟩
  | set_window_x n hn =>
    exact ⟨h.mode, h.flags, ⟨h.bytes.1, h.bytes.2.1, hn, h.bytes.2.2.2⟩,
      h.bgpal, h.pal1, h.pal2⟩
  | cycle mem b c close t ht =>
    rcases lcd_cycle_regs r mem b c close t ht with e | e
    · rw [e]; exact h
    · rw [e]
      exact ⟨tick_mode_le r c, h.flags, h.bytes, h.bgpal, h.pal1, h.pal2⟩

theorem reachable_inv (r : LCD) (h : Reachable r) : Inv r := by
  induction h with
  | init =>
    exact ⟨by decide, by decide, by decide, by decide, by decide, by decide⟩
  | other r r1 _ hs ih => exact other_step_inv r r1 hs ih
  | write_stat r c _ _ ih =>
    exact ⟨ih.mode, ih.flags, ih.bytes, ih.bgpal, ih.pal1, ih.pal2⟩

theorem idx_le_of_mem (l : List Nat) (h : ∀ v ∈ l, v ≤ 3) (i : Nat) : idx l i ≤ 3 := by
  unfold idx
  by_cases hi : i < l.length
  · rw [List.getD_eq_getElem l 0 hi]
    exact h _ (List.getElem_mem _)
  · rw [List.getD_eq_default l 0 (by omega)]
    omega

/-! ## Control and palette registers: the claims -/

set_option maxRecDepth 100000 in
theorem control_bits : ∀ c : Fin 256,
    notnot (c.val &&& 0x01) = c.val / 1 % 2 ∧ notnot (c.val &&& 0x02) = c.val / 2 % 2
      ∧ notnot (c.val &&& 0x04) = c.val / 4 % 2 ∧ notnot (c.val &&& 0x08) = c.val / 8 % 2
      ∧ notnot (c.val &&& 0x10) = c.val / 16 % 2 ∧ notnot (c.val &&& 0x20) = c.val / 32 % 2
      ∧ notnot (c.val &&& 0x40) = c.val / 64 % 2 ∧ notnot (c.val &&& 0x80) = c.val / 128 % 2 := by
  decide

/-- C11: for every byte `c`, after `lcd_write_control(c)` each of the eight
decoded flags is the corresponding bit of `c` (`bg_enabled` bit 0,
`sprites_enabled` bit 1, `sprite_size` bit 2, `tilemap_select` bit 3,
`bg_tiledata_select` bit 4, `window_enabled` bit 5, `window_tilemap_select` bit 6,
`lcd_enabled` bit 7), stored as 0 or 1, and packing the flags again gives `c`. -/
theorem lcd_write_control_bits (r : LCD) (c : Nat) (hc : c < 256) :
    (lcd_write_control r c).bg_enabled = c / 1 % 2
      ∧ (lcd_write_control r c).sprites_enabled = c / 2 % 2
      ∧ (lcd_write_control r c).sprite_size = c / 4 % 2
      ∧ (lcd_write_control r c).tilemap_select = c / 8 % 2
      ∧ (lcd_write_control r c).bg_tiledata_select = c / 16 % 2
      ∧ (lcd_write_control r c).window_enabled = c / 32 % 2
      ∧ (lcd_write_control r c).window_tilemap_select = c / 64 % 2
      ∧ (lcd_write_control r c).lcd_enabled = c / 128 % 2
      ∧ (lcd_write_control r c).bg_enabled + 2 * (lcd_write_control r c).sprites_enabled
          + 4 * (lcd_write_control r c).sprite_size + 8 * (lcd_write_control r c).tilemap_select
          + 16 * (lcd_write_control r c).bg_tiledata_select
          + 32 * (lcd_write_control r c).window_enabled
          + 64 * (lcd_write_control r c).window_tilemap_select
          + 128 * (lcd_write_control r c).lcd_enabled = c := by
  obtain ⟨h0, h1, h2, h3, h4, h5, h6, h7⟩ := control_bits ⟨c, hc⟩
  simp only [lcd_write_control]
  simp only at h0 h1 h2 h3 h4 h5 h6 h7
  refine ⟨h0, h1, h2, h3, h4, h5, h6, h7, ?_⟩
  rw [h0, h1, h2, h3, h4, h5, h6, h7]
  omega

/-- Witness of C11: the control byte `0x91` sets `bg_enabled`,
`bg_tiledata_select` and `lcd_enabled` and clears the other five flags. -/
theorem lcd_write_control_bits_witness :
    0x91 < 256
      ∧ (lcd_write_control LCD.init 0x91).bg_enabled = 1
      ∧ (lcd_write_control LCD.init 0x91).sprites_enabled = 0
      ∧ (lcd_write_control LCD.init 0x91).sprite_size = 0
      ∧ (lcd_write_control LCD.init 0x91).tilemap_select = 0
      ∧ (lcd_write_control LCD.init 0x91).bg_tiledata_select = 1
      ∧ (lcd_write_control LCD.init 0x91).window_enabled = 0
      ∧ (lcd_write_control LCD.init 0x91).window_tilemap_select = 0
      ∧ (lcd_write_control LCD.init 0x91).lcd_enabled = 1 := by
  obtain ⟨h0, h1, h2, h3, h4, h5, h6, h7, _⟩ :=
    lcd_write_control_bits LCD.init 0x91 (by decide)
  exact ⟨by decide, h0, h1, h2, h3, h4, h5, h6, h7⟩

/-- C12: for every byte `n`, `lcd_write_bg_palette(n)` sets
`bgpalette[i] = (n >> 2i) & 3` for `i` in 0..3, and `lcd_write_spr_palette1(n)`,
`lcd_write_spr_palette2(n)` set entry 0 of their palette to 0 and entry `i` to
`(n >> 2i) & 3` for `i` in 1..3; and in every reachable state `r` every entry of
the three palettes is in 0..3 and entry 0 of both sprite palettes is 0. -/
theorem palette_writes (r : LCD) (n : Nat) (hr : Reachable r) (hn : n < 256) :
    (∀ i, i < 4 → idx (lcd_write_bg_palette r n).bgpalette i = (n >>> (2 * i)) &&& 3)
      ∧ idx (lcd_write_spr_palette1 r n).sprpalette1 0 = 0
      ∧ (∀ i, 1 ≤ i → i < 4 →
          idx (lcd_write_spr_palette1 r n).sprpalette1 i = (n >>> (2 * i)) &&& 3)
      ∧ idx (lcd_write_spr_palette2 r n).sprpalette2 0 = 0
      ∧ (∀ i, 1 ≤ i → i < 4 →
          idx (lcd_write_spr_palette2 r n).sprpalette2 i = (n >>> (2 * i)) &&& 3)
      ∧ (∀ i, i < 4 → idx r.bgpalette i ≤ 3 ∧ idx r.sprpalette1 i ≤ 3
          ∧ idx r.sprpalette2 i ≤ 3)
      ∧ idx r.sprpalette1 0 = 0 ∧ idx r.sprpalette2 0 = 0
      ∧ Reachable (lcd_write_bg_palette r n) ∧ Reachable (lcd_write_spr_palette1 r n)
      ∧ Reachable (lcd_write_spr_palette2 r n) := by
  have hi := reachable_inv r hr
  refine ⟨?_, rfl, ?_, rfl, ?_, ?_, hi.pal1.2.2, hi.pal2.2.2,
    Reachable.other _ _ hr (OtherStep.write_bg_palette r n hn),
    Reachable.other _ _ hr (OtherStep.write_spr_palette1 r n hn),
    Reachable.other _ _ hr (OtherStep.write_spr_palette2 r n hn)⟩
  · intro i h4
    interval_cases i <;> rfl
  · intro i h1 h4
    interval_cases i <;> rfl
  · intro i h1 h4
    interval_cases i <;> rfl
  · intro i _
    exact ⟨idx_le_of_mem _ hi.bgpal.2 i, idx_le_of_mem _ hi.pal1.2.1 i,
      idx_le_of_mem _ hi.pal2.2.1 i⟩

/-- Witness of C12: the background palette byte `0xE4` gives the identity
mapping 0, 1, 2, 3. -/
theorem palette_writes_witness :
    Reachable LCD.init ∧ 0xE4 < 256
      ∧ idx (lcd_write_bg_palette LCD.init 0xE4).bgpalette 0 = 0
      ∧ idx (lcd_write_bg_palette LCD.init 0xE4).bgpalette 1 = 1
      ∧ idx (lcd_write_bg_palette LCD.init 0xE4).bgpalette 2 = 2
      ∧ idx (lcd_write_bg_palette LCD.init 0xE4).bgpalette 3 = 3 := by
  have h := (palette_writes LCD.init 0xE4 Reachable.init (by decide)).1
  exact ⟨Reachable.init, by decide, (h 0 (by decide)).trans (by decide),
    (h 1 (by decide)).trans (by decide), (h 2 (by decide)).trans (by decide),
    (h 3 (by decide)).trans (by decide)⟩

/-! ## What a tick does besides the STAT check -/

theorem lcd_cycle_exact (r : LCD) (mem : Mem) (b : FB) (cycles : Int) :
    (tick_line cycles ≠ r.prev_line ∧ tick_line cycles < 144
        ∧ ∃ b1, render_line (tick_regs r cycles) mem b (tick_line cycles) = some b1
          ∧ lcd_cycle r mem b cycles false
            = some
              { ret := 1
                regs :=
                  { tick_regs r cycles with
                    prev_line := (tick_regs r cycles).lcd_line
                    prev_mode := (tick_regs r cycles).lcd_mode }
                fb := b1
                events := stat_check (tick_regs r cycles)
                  ++ [Event.render_line (tick_line cycles)] })
      ∨ (r.prev_line = 143 ∧ tick_line cycles = 144
        ∧ lcd_cycle r mem b cycles false
          = some
            { ret := 1
              regs :=
                { tick_regs r cycles with
                  prev_line := (tick_regs r cycles).lcd_line
                  prev_mode := (tick_regs r cycles).lcd_mode }
              fb := draw_stuff mem b
              events := stat_check (tick_regs r cycles)
                ++ [Event.draw_stuff, Event.sdl_frame, Event.interrupt Intr.INTR_VBLANK] })
      ∨ (¬ (tick_line cycles ≠ r.prev_line ∧ tick_line cycles < 144)
        ∧ ¬ (r.prev_line = 143 ∧ tick_line cycles = 144)
        ∧ lcd_cycle r mem b cycles false
          = some
            { ret := 1
              regs :=
                { tick_regs r cycles with
                  prev_line := (tick_regs r cycles).lcd_line
                  prev_mode := (tick_regs r cycles).lcd_mode }
              fb := b
              events := stat_check (tick_regs r cycles) }) := by
  obtain ⟨b1, hb1⟩ := render_line_total (tick_regs r cycles) mem b (tick_regs r cycles).lcd_line
  simp only [tick_regs, tick_line, tick_sub] at hb1 ⊢
  simp only [lcd_cycle, Bool.false_eq_true, if_false, hb1, Option.map_some']
  by_cases h1 : Int.tdiv (Int.tmod cycles (Int.tdiv 70224 4)) (Int.tdiv 456 4) ≠ r.prev_line
      ∧ Int.tdiv (Int.tmod cycles (Int.tdiv 70224 4)) (Int.tdiv 456 4) < 144
  · have h2 : ¬ (r.prev_line = 143
        ∧ Int.tdiv (Int.tmod cycles (Int.tdiv 70224 4)) (Int.tdiv 456 4) = 144) := by omega
    left
    refine ⟨h1.1, h1.2, b1, rfl, ?_⟩
    rw [if_pos h1]; dsimp only; rw [if_neg h2]
    simp
  · by_cases h2 : r.prev_line = 143
        ∧ Int.tdiv (Int.tmod cycles (Int.tdiv 70224 4)) (Int.tdiv 456 4) = 144
    · right; left
      refine ⟨h2.1, h2.2, ?_⟩
      rw [if_neg h1]; dsimp only; rw [if_pos h2]
      simp
    · right; right
      refine ⟨h1, h2, ?_⟩
      rw [if_neg h1]; dsimp only; rw [if_neg h2]
      simp

/-! ## A tick at a negative counter value -/

/-- Counterexample to C2 as stated: at the cycle counter value `-114` the tick
leaves `line = -1`, which is below 0, and calls `render_line(-1)`. -/
theorem lcd_cycle_negative_line :
    ∃ t, lcd_cycle LCD.init mem0 fb0 (-114) false = some t
      ∧ t.regs.lcd_line = -1 ∧ ¬ (0 ≤ t.regs.lcd_line)
      ∧ Event.render_line (-1) ∈ t.events := by
  have hl : tick_line (-114) = -1 := by decide
  rcases lcd_cycle_exact LCD.init mem0 fb0 (-114) with ⟨_, _, b1, _, h⟩ | ⟨_, h2, _⟩ | ⟨h1, _, _⟩
  · refine ⟨_, h, ?_, ?_, ?_⟩
    · simp only [tick_regs, hl]
    · simp only [tick_regs, hl]
      decide
    · simp only [hl, List.mem_append, List.mem_singleton, or_true]
  · rw [hl] at h2
    exact absurd h2 (by decide)
  · exact absurd (by decide) h1

/-! ## Stop signal and per-tick events: the claims -/

/-- C14: `lcd_cycle` returns 0 exactly when the close poll `sdl_update` reports a
close request, and then the registers (line, mode, `prev_line`, `prev_mode`
included) and the framebuffer are unchanged and no interrupt, scanline or frame call
is made, whatever the cycle counter value; in every other case, for a non-negative
cycle counter value, it returns 1, with the line in 0..153 and a scanline call, if
any, for a line in 0..143. -/
theorem lcd_cycle_close (r : LCD) (mem : Mem) (b : FB) (cycles : Int) (close : Bool)
    (hc : close = true ∨ 0 ≤ cycles) :
    ∃ t, lcd_cycle r mem b cycles close = some t
      ∧ (t.ret = 0 ↔ close = true)
      ∧ (close = true → t.regs = r ∧ t.fb = b ∧ t.events = [])
      ∧ (close = false → t.ret = 1 ∧ 0 ≤ t.regs.lcd_line ∧ t.regs.lcd_line ≤ 153
          ∧ ∀ l, Event.render_line l ∈ t.events → 0 ≤ l ∧ l < 144) := by
  cases close with
  | true =>
    exact ⟨{ ret := 0, regs := r, fb := b, events := [] }, by simp [lcd_cycle], by simp,
      fun _ => ⟨rfl, rfl, rfl⟩, by simp⟩
  | false =>
    have hc0 : 0 ≤ cycles := by
      rcases hc with hc | hc
      · exact absurd hc (by decide)
      · exact hc
    have hb := tick_line_sub_bounds cycles
    have h0 : 0 ≤ tick_line cycles := by
      rcases hb.2.2.2.2.1 with h0 | h0
      · exact h0
      · omega
    have hs : ∀ l, Event.render_line l ∉ stat_check (tick_regs r cycles) := by
      intro l
      rcases stat_check_cases (tick_regs r cycles) with ⟨e, _⟩ | ⟨e, _⟩ <;> rw [e] <;> simp
    rcases lcd_cycle_exact r mem b cycles with ⟨_, hlt, b1, _, h⟩ | ⟨_, _, h⟩ | ⟨_, _, h⟩
    · refine ⟨_, h, by simp, by simp, fun _ => ⟨rfl, h0, hb.2.1, ?_⟩⟩
      intro l hl
      simp only [List.mem_append, List.mem_singleton, Event.render_line.injEq] at hl
      rcases hl with hl | hl
      · exact absurd hl (hs l)
      · rw [hl]
        exact ⟨h0, hlt⟩
    · refine ⟨_, h, by simp, by simp, fun _ => ⟨rfl, h0, hb.2.1, ?_⟩⟩
      intro l hl
      simp only [List.mem_append, List.mem_cons, List.mem_singleton, List.not_mem_nil,
        reduceCtorEq, or_false] at hl
      exact absurd hl (hs l)
    · refine ⟨_, h, by simp, by simp, fun _ => ⟨rfl, h0, hb.2.1, ?_⟩⟩
      intro l hl
      exact absurd hl (hs l)

/-- Witness of C14: a close request at the counter value `-114`, and a tick that is
not stopped at the counter value 5, both from the initial state. -/
theorem lcd_cycle_close_witness :
    ((true = true ∨ (0 : Int) ≤ -114)
      ∧ ∃ t, lcd_cycle LCD.init mem0 fb0 (-114) true = some t
        ∧ (t.ret = 0 ↔ true = true)
        ∧ (true = true → t.regs = LCD.init ∧ t.fb = fb0 ∧ t.events = [])
        ∧ (true = false → t.ret = 1 ∧ 0 ≤ t.regs.lcd_line ∧ t.regs.lcd_line ≤ 153
            ∧ ∀ l, Event.render_line l ∈ t.events → 0 ≤ l ∧ l < 144))
    ∧ ((false = true ∨ (0 : Int) ≤ 5)
      ∧ ∃ t, lcd_cycle LCD.init mem0 fb0 5 false = some t
        ∧ (t.ret = 0 ↔ false = true)
        ∧ (false = true → t.regs = LCD.init ∧ t.fb = fb0 ∧ t.events = [])
        ∧ (false = false → t.ret = 1 ∧ 0 ≤ t.regs.lcd_line ∧ t.regs.lcd_line ≤ 153
            ∧ ∀ l, Event.render_line l ∈ t.events → 0 ≤ l ∧ l < 144)) :=
  ⟨⟨Or.inl rfl, lcd_cycle_close LCD.init mem0 fb0 (-114) true (Or.inl rfl)⟩,
    ⟨Or.inr (by decide), lcd_cycle_close LCD.init mem0 fb0 5 false (Or.inr (by decide))⟩⟩

/-- C15: on a tick of `lcd_cycle` that is not stopped by the close signal, with
`prev_line` the line stored by the previous tick: `render_line` is called, once
and for the new line, exactly when `line != prev_line` and `line < 144`, and the
framebuffer is then its result; `sdl_frame` and the V-blank interrupt request
happen, once each, exactly when `prev_line == 143` and `line == 144`; the two
never happen on the same tick; afterwards `prev_line = line` and
`prev_mode = mode`. -/
theorem lcd_cycle_events (r : LCD) (mem : Mem) (b : FB) (cycles : Int) :
    ∃ t, lcd_cycle r mem b cycles false = some t
      ∧ (∀ l, Event.render_line l ∈ t.events ↔
          (l = t.regs.lcd_line ∧ t.regs.lcd_line ≠ r.prev_line ∧ t.regs.lcd_line < 144))
      ∧ (∀ l, t.events.count (Event.render_line l) ≤ 1)
      ∧ ((t.regs.lcd_line ≠ r.prev_line ∧ t.regs.lcd_line < 144) →
          render_line (tick_regs r cycles) mem b t.regs.lcd_line = some t.fb)
      ∧ (Event.sdl_frame ∈ t.events ↔ (r.prev_line = 143 ∧ t.regs.lcd_line = 144))
      ∧ (Event.interrupt Intr.INTR_VBLANK ∈ t.events ↔
          (r.prev_line = 143 ∧ t.regs.lcd_line = 144))
      ∧ t.events.count Event.sdl_frame ≤ 1
      ∧ t.events.count (Event.interrupt Intr.INTR_VBLANK) ≤ 1
      ∧ ¬ ((∃ l, Event.render_line l ∈ t.events) ∧ Event.sdl_frame ∈ t.events)
      ∧ t.regs.prev_line = t.regs.lcd_line ∧ t.regs.prev_mode = t.regs.lcd_mode := by
  have hstat : ∀ e ∈ stat_check (tick_regs r cycles), e = Event.interrupt Intr.INTR_LCDSTAT := by
    intro e he
    rcases stat_check_cases (tick_regs r cycles) with ⟨h, _⟩ | ⟨h, _⟩ <;> rw [h] at he <;>
      simp at he
    exact he
  have hc : ∀ e, e ≠ Event.interrupt Intr.INTR_LCDSTAT →
      (stat_check (tick_regs r cycles)).count e = 0 := by
    intro e hne
    apply List.count_eq_zero_of_not_mem
    intro he
    exact hne (hstat e he)
  have hm : ∀ e, e ≠ Event.interrupt Intr.INTR_LCDSTAT →
      e ∉ stat_check (tick_regs r cycles) := fun e hne he => hne (hstat e he)
  rcases lcd_cycle_exact r mem b cycles with ⟨h1, h2, b1, hb, h⟩ | ⟨h1, h2, h⟩ | ⟨h1, h2, h⟩
  · refine ⟨_, h, ?_, ?_, ?_, ?_, ?_, ?_, ?_, ?_, rfl, rfl⟩
    · intro l
      simp only [List.mem_append, List.mem_singleton, Event.render_line.injEq]
      constructor
      · rintro (hl | hl)
        · exact absurd hl (hm _ (by simp))
        · exact ⟨hl, h1, h2⟩
      · rintro ⟨hl, _, _⟩
        exact Or.inr hl
    · intro l
      rw [List.count_append, hc _ (by simp)]
      simp only [List.count_cons, List.count_nil]
      split <;> omega
    · intro _
      exact hb
    · simp only [List.mem_append, List.mem_singleton]
      constructor
      · rintro (hl | hl)
        · exact absurd hl (hm _ (by simp))
        · simp at hl
      · rintro ⟨_, h144⟩
        have : tick_line cycles = 144 := h144
        omega
    · simp only [List.mem_append, List.mem_singleton]
      constructor
      · rintro (hl | hl)
        · exact absurd hl (hm _ (by simp))
        · simp at hl
      · rintro ⟨_, h144⟩
        have : tick_line cycles = 144 := h144
        omega
    · rw [List.count_append, hc _ (by simp)]; simp
    · rw [List.count_append, hc _ (by simp)]; simp
    · rintro ⟨_, hf⟩
      simp only [List.mem_append, List.mem_singleton] at hf
      rcases hf with hl | hl
      · exact absurd hl (hm _ (by simp))
      · simp at hl
  · have h144 : (tick_regs r cycles).lcd_line = 144 := h2
    refine ⟨_, h, ?_, ?_, ?_, ?_, ?_, ?_, ?_, ?_, rfl, rfl⟩
    · intro l
      simp only [List.mem_append, List.mem_cons, List.not_mem_nil, or_false]
      constructor
      · rintro (hl | hl | hl | hl)
        · exact absurd hl (hm _ (by simp))
        all_goals simp at hl
      · rintro ⟨_, _, hlt⟩
        have : tick_line cycles < 144 := hlt
        omega
    · intro l
      rw [List.count_append, hc _ (by simp)]
      simp [List.count_cons]
    · rintro ⟨_, hlt⟩
      have : tick_line cycles < 144 := hlt
      omega
    · simp only [List.mem_append, List.mem_cons, List.not_mem_nil, or_false]
      exact ⟨fun _ => ⟨h1, h2⟩, fun _ => Or.inr (Or.inr (Or.inl trivial))⟩
    · simp only [List.mem_append, List.mem_cons, List.not_mem_nil, or_false]
      exact ⟨fun _ => ⟨h1, h2⟩, fun _ => Or.inr (Or.inr (Or.inr trivial))⟩
    · rw [List.count_append, hc _ (by simp)]; simp [List.count_cons]
    · rw [List.count_append, hc _ (by simp)]; simp [List.count_cons]
    · rintro ⟨⟨l, hl⟩, _⟩
      simp only [List.mem_append, List.mem_cons, List.not_mem_nil, or_false] at hl
      rcases hl with hl | hl | hl | hl
      · exact absurd hl (hm _ (by simp))
      all_goals simp at hl
  · refine ⟨_, h, ?_, ?_, ?_, ?_, ?_, ?_, ?_, ?_, rfl, rfl⟩
    · intro l
      constructor
      · intro hl
        exact absurd hl (hm _ (by simp))
      · rintro ⟨_, ha, hb⟩
        exact absurd ⟨ha, hb⟩ h1
    · intro l
      rw [hc _ (by simp)]; omega
    · intro hh
      exact absurd hh h1
    · constructor
      · intro hl
        exact absurd hl (hm _ (by simp))
      · intro hh
        exact absurd hh h2
    · constructor
      · intro hl
        exact absurd hl (hm _ (by simp))
      · intro hh
        exact absurd hh h2
    · rw [hc _ (by simp)]; omega
    · rw [hc _ (by simp)]; omega
    · rintro ⟨_, hf⟩
      exact absurd hf (hm _ (by simp))

/-! ## The cells that drawing sprites can change -/

theorem cell_guard (line : Int) (s : Sprite) (x : Nat) (hx : x < 8)
    (hline : 0 ≤ line ∧ line < 144) (hs : -8 ≤ s.x ∧ s.x ≤ 247) :
    (toU32 (s.x + (x : Int)) < 160 ↔ (0 ≤ s.x + (x : Int) ∧ s.x + (x : Int) < 160))
      ∧ (toU32 (s.x + (x : Int)) < 160 →
          sprite_cell line s x = line * 640 + (s.x + (x : Int))) := by
  unfold sprite_cell toU32
  constructor
  · constructor
    · intro h; omega
    · intro h; omega
  · intro h; omega

theorem draw_sprite_frame (r : LCD) (mem : Mem) (line : Int) (b : FB) (s : Sprite) (k : Int)
    (hline : 0 ≤ line ∧ line < 144) (hs : -8 ≤ s.x ∧ s.x ≤ 247)
    (hk : draw_sprite r mem line b s k ≠ b k) :
    ∃ col : Nat, col < 8 ∧ 0 ≤ s.x + (col : Int) ∧ s.x + (col : Int) < 160
      ∧ k = line * 640 + (s.x + (col : Int)) := by
  by_contra hno
  apply hk
  unfold draw_sprite
  by_cases h7 : s.x < -7
  · simp only [h7, if_true]
  · simp only [h7, if_false]
    rw [foldl_cell (draw_sprite_pixel r mem line s)
      (fun x v => if toU32 (s.x + (x : Int)) < 160 ∧ k = sprite_cell line s x
        then pixel_over r mem line s x v else v) k
      (fun b a => draw_sprite_pixel_at r mem line s b a k)]
    exact foldl_none
      (fun x => toU32 (s.x + (x : Int)) < 160 ∧ k = sprite_cell line s x)
      (fun x v => pixel_over r mem line s x v) (List.range 8) _
      (fun x hx => by
        show ¬ (toU32 (s.x + (x : Int)) < 160 ∧ k = sprite_cell line s x)
        rintro ⟨h1, h2⟩
        have hx8 := List.mem_range.1 hx
        obtain ⟨g1, g2⟩ := cell_guard line s x hx8 hline hs
        exact hno ⟨x, hx8, (g1.1 h1).1, (g1.1 h1).2, by rw [h2, g2 h1]⟩)

theorem foldl_draw_sprite_frame (r : LCD) (mem : Mem) (line : Int) (k : Int)
    (hline : 0 ≤ line ∧ line < 144) :
    ∀ (l : List Sprite) (b : FB), (∀ s ∈ l, -8 ≤ s.x ∧ s.x ≤ 247) →
      l.foldl (draw_sprite r mem line) b k ≠ b k →
      ∃ s ∈ l, ∃ col : Nat, col < 8 ∧ 0 ≤ s.x + (col : Int) ∧ s.x + (col : Int) < 160
        ∧ k = line * 640 + (s.x + (col : Int)) := by
  intro l
  induction l with
  | nil => intro b _ h; exact absurd rfl h
  | cons a l ih =>
    intro b hl h
    simp only [List.foldl_cons] at h
    by_cases ha : draw_sprite r mem line b a k = b k
    · rw [← ha] at h
      obtain ⟨s, hs, hc⟩ := ih _ (fun s hs => hl s (List.mem_cons_of_mem a hs)) h
      exact ⟨s, List.mem_cons_of_mem a hs, hc⟩
    · exact ⟨a, List.mem_cons_self a l,
        draw_sprite_frame r mem line b a k hline (hl a (List.mem_cons_self a l)) ha⟩

/-- C13: for every line in 0..143 and every list of sprites with `x` in -8..247,
`draw_sprites` changes only framebuffer cells `line*640 + p` with `0 <= p < 160`:
a changed cell is `line*640 + (x + col)` for a drawn sprite and a column `col` in
0..7 with `0 <= x + col < 160`; and the code's unsigned 32-bit test
`(x + col) >= 160` skips exactly the columns that are not in that range. -/
theorem draw_sprites_frame (r : LCD) (mem : Mem) (b : FB) (line : Int) (n : Nat)
    (l : List Sprite) (k : Int) (hline : 0 ≤ line ∧ line < 144)
    (hl : ∀ s ∈ l, -8 ≤ s.x ∧ s.x ≤ 247) :
    (draw_sprites r mem b line n l k ≠ b k →
        ∃ s ∈ l.take n, ∃ col : Nat, col < 8 ∧ 0 ≤ s.x + (col : Int)
          ∧ s.x + (col : Int) < 160 ∧ k = line * 640 + (s.x + (col : Int)))
      ∧ (draw_sprites r mem b line n l k ≠ b k →
        ∃ p : Int, 0 ≤ p ∧ p < 160 ∧ k = line * 640 + p)
      ∧ (∀ s ∈ l, ∀ col : Nat, col < 8 →
        (toU32 (s.x + (col : Int)) ≥ 160 ↔ ¬ (0 ≤ s.x + (col : Int) ∧ s.x + (col : Int) < 160)))
      := by
  have h1 : draw_sprites r mem b line n l k ≠ b k →
      ∃ s ∈ l.take n, ∃ col : Nat, col < 8 ∧ 0 ≤ s.x + (col : Int)
        ∧ s.x + (col : Int) < 160 ∧ k = line * 640 + (s.x + (col : Int)) := by
    intro h
    exact foldl_draw_sprite_frame r mem line k hline (l.take n) b
      (fun s hs => hl s (List.mem_of_mem_take hs)) h
  refine ⟨h1, ?_, ?_⟩
  · intro h
    obtain ⟨s, _, col, _, h2, h3, h4⟩ := h1 h
    exact ⟨s.x + (col : Int), h2, h3, h4⟩
  · intro s hs col hcol
    have g := (cell_guard line s col hcol hline (hl s hs)).1
    constructor
    · intro h hh
      have := g.2 hh
      omega
    · intro h
      by_contra hlt
      exact h (g.1 (by omega))

set_option maxRecDepth 100000 in
/-- Witness of C13: a sprite at `x = -3` changes screen column 0 of line 0 through
its column 3, its columns 0..2 are skipped by the unsigned test, and a sprite at
`x = -8` changes no cell. -/
theorem draw_sprites_frame_witness :
    (∀ s ∈ [(⟨0, -3, 0, 0⟩ : Sprite)], -8 ≤ s.x ∧ s.x ≤ 247)
      ∧ draw_sprites LCD.init memP fb0 0 1 [⟨0, -3, 0, 0⟩] 0 ≠ fb0 0
      ∧ (∃ s ∈ [(⟨0, -3, 0, 0⟩ : Sprite)].take 1, ∃ col : Nat, col < 8 ∧ 0 ≤ s.x + (col : Int)
          ∧ s.x + (col : Int) < 160 ∧ (0 : Int) = 0 * 640 + (s.x + (col : Int)))
      ∧ (∀ col : Nat, col < 8 → (toU32 (-3 + (col : Int)) ≥ 160 ↔ col < 3))
      ∧ (∀ k : Int, draw_sprites LCD.init memP fb0 0 1 [⟨0, -8, 0, 0⟩] k = fb0 k) := by
  refine ⟨by decide, by decide, ?_, by decide, ?_⟩
  · exact (draw_sprites_frame LCD.init memP fb0 0 1 [⟨0, -3, 0, 0⟩] 0 (by decide)
      (by decide)).1 (by decide)
  · intro k
    by_contra h
    obtain ⟨s, hs, col, hc, h0, _⟩ :=
      (draw_sprites_frame LCD.init memP fb0 0 1 [⟨0, -8, 0, 0⟩] k (by decide) (by decide)).1 h
    simp only [List.take_succ_cons, List.take_zero, List.mem_singleton] at hs
    subst hs
    simp only at h0
    omega

/-! ## Background and window, seen from one framebuffer cell -/

theorem draw_bg_loop_at (r : LCD) (mem : Mem) (line : Int)
    (hgo : window_active r line ∨ r.bg_enabled ≠ 0) :
    ∀ (fuel : Nat) (x0 : Int) (b : FB) (p : Int),
      draw_bg_loop r mem line fuel x0 b (line * 640 + p)
        = if x0 ≤ p ∧ p < x0 + fuel ∧ p < 160 then bg_value r mem line p
          else b (line * 640 + p) := by
  intro fuel
  induction fuel with
  | zero =>
    intro x0 b p
    have hn : ¬ (x0 ≤ p ∧ p < x0 + ((0 : Nat) : Int) ∧ p < 160) := by omega
    simp only [draw_bg_loop, hn, if_false]
  | succ fuel ih =>
    intro x0 b p
    unfold draw_bg_loop
    by_cases hx : x0 < 160
    · simp only [hx, if_true]
      by_cases hw : window_active r line
      · have hw1 : line ≥ r.window_y ∧ r.window_enabled ≠ 0 ∧ line - r.window_y < 144 := hw
        rw [if_pos hw1, ih]
        by_cases hp : p = x0
        · subst hp
          have h1 : ¬ (p + 1 ≤ p ∧ p < p + 1 + (fuel : Int) ∧ p < 160) := by omega
          have h2 : p ≤ p ∧ p < p + ((fuel + 1 : Nat) : Int) ∧ p < 160 := by
            push_cast; omega
          simp only [h1, if_false, h2, and_self, if_true, store, bg_value, hw, ite_self]
        · have hne : ¬ (line * 640 + p = line * 640 + x0) := by omega
          have hiff : (x0 + 1 ≤ p ∧ p < x0 + 1 + (fuel : Int) ∧ p < 160)
              ↔ (x0 ≤ p ∧ p < x0 + ((fuel + 1 : Nat) : Int) ∧ p < 160) := by
            push_cast; omega
          simp only [hiff, store, hne, if_false]
      · have hw1 : ¬ (line ≥ r.window_y ∧ r.window_enabled ≠ 0 ∧ line - r.window_y < 144) := hw
        have hbg : r.bg_enabled ≠ 0 := by
          rcases hgo with h | h
          · exact absurd h hw
          · exact h
        rw [if_neg hw1, if_neg hbg, ih]
        by_cases hp : p = x0
        · subst hp
          have h1 : ¬ (p + 1 ≤ p ∧ p < p + 1 + (fuel : Int) ∧ p < 160) := by omega
          have h2 : p ≤ p ∧ p < p + ((fuel + 1 : Nat) : Int) ∧ p < 160 := by
            push_cast; omega
          simp only [h1, if_false, h2, and_self, if_true, store, bg_value, hw, ite_self]
        · have hne : ¬ (line * 640 + p = line * 640 + x0) := by omega
          have hiff : (x0 + 1 ≤ p ∧ p < x0 + 1 + (fuel : Int) ∧ p < 160)
              ↔ (x0 ≤ p ∧ p < x0 + ((fuel + 1 : Nat) : Int) ∧ p < 160) := by
            push_cast; omega
          simp only [hiff, store, hne, if_false]
    · have hn : ¬ (x0 ≤ p ∧ p < x0 + ((fuel + 1 : Nat) : Int) ∧ p < 160) := by omega
      simp only [hx, if_false, hn]

theorem draw_bg_at (r : LCD) (mem : Mem) (b : FB) (line p : Int)
    (hgo : window_active r line ∨ r.bg_enabled ≠ 0) (hp : 0 ≤ p ∧ p < 160) :
    draw_bg_and_window r mem b line (line * 640 + p) = bg_value r mem line p := by
  unfold draw_bg_and_window
  rw [draw_bg_loop_at r mem line hgo 160 0 b p]
  have h : 0 ≤ p ∧ p < 0 + ((160 : Nat) : Int) ∧ p < 160 := by
    push_cast; omega
  simp only [h, and_self, if_true]

theorem bg_pixel_unfold (r : LCD) (mem : Mem) (xm ym ms : Int) :
    bg_pixel r mem xm ym ms = shade r.bgpalette (bg_colour r mem xm ym ms) := rfl

theorem bg_map_addr_eq (xm ym ms : Int) (hxm : 0 ≤ xm ∧ xm < 256) (hym : 0 ≤ ym ∧ ym < 256)
    (hms : 0 ≤ ms ∧ ms ≤ 1) :
    bg_map_addr xm ym ms = 0x9800 + ms * 0x400 + (ym / 8) * 32 + xm / 8
      ∧ 0x9800 ≤ bg_map_addr xm ym ms ∧ bg_map_addr xm ym ms ≤ 0x9FFF := by
  unfold bg_map_addr toU32
  omega

theorem bg_tile_addr_eq (r : LCD) (mem : Mem) (xm ym ms : Int) :
    bg_tile_addr r mem xm ym ms
        = (if r.bg_tiledata_select ≠ 0 then
            0x8000 + 16 * (mem_get_raw mem (bg_map_addr xm ym ms) : Int)
          else 0x9000 + 16 *
            (if mem_get_raw mem (bg_map_addr xm ym ms) ≥ 128
              then (mem_get_raw mem (bg_map_addr xm ym ms) : Int) - 256
              else (mem_get_raw mem (bg_map_addr xm ym ms) : Int)))
      ∧ 0x8000 ≤ bg_tile_addr r mem xm ym ms ∧ bg_tile_addr r mem xm ym ms ≤ 0x97F0 := by
  have ht := mem_get_raw_lt mem (bg_map_addr xm ym ms)
  unfold bg_tile_addr signed_char toU32
  simp only [Int.toNat_ofNat]
  have hm : mem_get_raw mem (bg_map_addr xm ym ms) % 256
      = mem_get_raw mem (bg_map_addr xm ym ms) := Nat.mod_eq_of_lt ht
  rw [hm]
  split_ifs <;> omega

theorem bg_row_addr_eq (r : LCD) (mem : Mem) (xm ym ms : Int) :
    toU32 (bg_tile_addr r mem xm ym ms + (ym % 8) * 2)
        = bg_tile_addr r mem xm ym ms + 2 * (ym % 8)
      ∧ toU32 (bg_tile_addr r mem xm ym ms + (ym % 8) * 2 + 1)
        = bg_tile_addr r mem xm ym ms + 2 * (ym % 8) + 1
      ∧ 0x8000 ≤ bg_tile_addr r mem xm ym ms + 2 * (ym % 8)
      ∧ bg_tile_addr r mem xm ym ms + 2 * (ym % 8) + 1 ≤ 0x97FF := by
  obtain ⟨_, h1, h2⟩ := bg_tile_addr_eq r mem xm ym ms
  unfold toU32
  omega

theorem colour_index_msb (b1 b2 : Nat) (h1 : b1 < 256) (h2 : b2 < 256) (n : Nat) (hn : n < 8) :
    colour_index b1 b2 ((128 >>> n) % 256)
      = 2 * (b2.testBit (7 - n)).toNat + (b1.testBit (7 - n)).toNat := by
  have m1 := (mask_bit ⟨b1, h1⟩ ⟨n, hn⟩).1
  have m2 := (mask_bit ⟨b2, h2⟩ ⟨n, hn⟩).1
  unfold colour_index
  simp only [m1, m2]
  cases b2.testBit (7 - n) <;> cases b1.testBit (7 - n) <;> rfl

theorem colour_index_le (b1 b2 mask : Nat) : colour_index b1 b2 mask ≤ 3 := by
  unfold colour_index notnot
  split_ifs <;> decide

theorem bg_pixel_eq (r : LCD) (mem : Mem) (xm ym ms : Int) (hxm : 0 ≤ xm ∧ xm < 256)
    (hym : 0 ≤ ym ∧ ym < 256) (hms : 0 ≤ ms ∧ ms ≤ 1) :
    bg_pixel r mem xm ym ms
      = idx colours (idx r.bgpalette
          (2 * ((mem_get_raw mem
                ((if r.bg_tiledata_select ≠ 0 then
                    0x8000 + 16 * (mem_get_raw mem
                      (0x9800 + ms * 0x400 + (ym / 8) * 32 + xm / 8) : Int)
                  else 0x9000 + 16 *
                    (if mem_get_raw mem (0x9800 + ms * 0x400 + (ym / 8) * 32 + xm / 8) ≥ 128
                      then (mem_get_raw mem
                        (0x9800 + ms * 0x400 + (ym / 8) * 32 + xm / 8) : Int) - 256
                      else (mem_get_raw mem
                        (0x9800 + ms * 0x400 + (ym / 8) * 32 + xm / 8) : Int)))
                  + 2 * (ym % 8) + 1)).testBit (7 - (xm % 8).toNat)).toNat
            + ((mem_get_raw mem
                ((if r.bg_tiledata_select ≠ 0 then
                    0x8000 + 16 * (mem_get_raw mem
                      (0x9800 + ms * 0x400 + (ym / 8) * 32 + xm / 8) : Int)
                  else 0x9000 + 16 *
                    (if mem_get_raw mem (0x9800 + ms * 0x400 + (ym / 8) * 32 + xm / 8) ≥ 128
                      then (mem_get_raw mem
                        (0x9800 + ms * 0x400 + (ym / 8) * 32 + xm / 8) : Int) - 256
                      else (mem_get_raw mem
                        (0x9800 + ms * 0x400 + (ym / 8) * 32 + xm / 8) : Int)))
                  + 2 * (ym % 8))).testBit (7 - (xm % 8).toNat)).toNat)) := by
  rw [bg_pixel_unfold, shade_eq]
  unfold bg_colour
  obtain ⟨r1, r2, _, _⟩ := bg_row_addr_eq r mem xm ym ms
  rw [r1, r2, (bg_tile_addr_eq r mem xm ym ms).1, (bg_map_addr_eq xm ym ms hxm hym hms).1]
  rw [colour_index_msb _ _ (mem_get_raw_lt mem _) (mem_get_raw_lt mem _) (xm % 8).toNat
    (by omega)]

/-- C16: in a reachable register state, for every line in 0..143 and column `x`
in 0..159 for which `draw_bg_and_window` does not take the background-disabled
return (the window covers the line, or the background is enabled), the pixel at
`(line, x)` afterwards is `colours[bgpalette[i]]` where: `(xm, ym, map)` is
`(x, line - window_y, window_tilemap_select)` if `window_enabled` and
`line >= window_y`, else
`((x + scroll_x) mod 256, (line + scroll_y) mod 256, tilemap_select)`;
`t = mem[0x9800 + map*0x400 + (ym/8)*32 + xm/8]`; the tile address is
`0x8000 + 16*t` when `bg_tiledata_select` is set and `0x9000 + 16*s` otherwise,
`s` being `t` read as a signed byte; `b1`, `b2` are the bytes at tile address
`+ 2*(ym mod 8)` and `+ 1`; and `i = 2*bit(b2) + bit(b1)` at bit position
`7 - (xm mod 8)`. -/
theorem draw_bg_pixel (r : LCD) (mem : Mem) (b : FB) (line : Int) (x : Nat)
    (hr : Reachable r) (hline : 0 ≤ line ∧ line < 144) (hx : x < 160)
    (hgo : (r.window_enabled ≠ 0 ∧ line ≥ r.window_y) ∨ r.bg_enabled ≠ 0) :
    draw_bg_and_window r mem b line (line * 640 + (x : Int))
      = (let xm : Int := if r.window_enabled ≠ 0 ∧ line ≥ r.window_y then (x : Int)
            else ((x : Int) + r.scroll_x) % 256
         let ym : Int := if r.window_enabled ≠ 0 ∧ line ≥ r.window_y then line - r.window_y
            else (line + r.scroll_y) % 256
         let map : Int := if r.window_enabled ≠ 0 ∧ line ≥ r.window_y
            then (r.window_tilemap_select : Int) else (r.tilemap_select : Int)
         let t : Nat := mem_get_raw mem (0x9800 + map * 0x400 + (ym / 8) * 32 + xm / 8)
         let s : Int := if t ≥ 128 then (t : Int) - 256 else (t : Int)
         let ta : Int := if r.bg_tiledata_select ≠ 0 then 0x8000 + 16 * (t : Int)
            else 0x9000 + 16 * s
         let b1 := mem_get_raw mem (ta + 2 * (ym % 8))
         let b2 := mem_get_raw mem (ta + 2 * (ym % 8) + 1)
         let k := 7 - (xm % 8).toNat
         idx colours (idx r.bgpalette (2 * (b2.testBit k).toNat + (b1.testBit k).toNat))) := by
  have hi := reachable_inv r hr
  obtain ⟨_, hwts, _, hts, _, _, _, _⟩ := hi.flags
  obtain ⟨hsx, hsy, _, hwy, _⟩ := hi.bytes
  have hact : window_active r line ↔ (r.window_enabled ≠ 0 ∧ line ≥ r.window_y) := by
    unfold window_active
    constructor
    · rintro ⟨h1, h2, _⟩; exact ⟨h2, h1⟩
    · rintro ⟨h1, h2⟩; exact ⟨h2, h1, by omega⟩
  have hgo1 : window_active r line ∨ r.bg_enabled ≠ 0 := by
    rcases hgo with h | h
    · exact Or.inl (hact.2 h)
    · exact Or.inr h
  rw [draw_bg_at r mem b line x hgo1 (by omega)]
  unfold bg_value
  by_cases hw : r.window_enabled ≠ 0 ∧ line ≥ r.window_y
  · have e1 : toU32 (x : Int) = (x : Int) := by unfold toU32; omega
    have e2 : toU32 (line - r.window_y) = line - r.window_y := by
      have := hw.2
      unfold toU32; omega
    have e3 : toU32 (r.window_tilemap_select : Int) = (r.window_tilemap_select : Int) := by
      unfold toU32; omega
    rw [if_pos (hact.2 hw), e1, e2, e3,
      bg_pixel_eq r mem x (line - r.window_y) r.window_tilemap_select (by omega)
        (by have := hw.2; omega) (by omega)]
    simp only [if_pos hw]
  · have e1 : toU32 (Int.tmod ((x : Int) + r.scroll_x) 256) = ((x : Int) + r.scroll_x) % 256 := by
      rw [Int.tmod_eq_emod (by omega) (by norm_num)]
      unfold toU32; omega
    have e2 : toU32 (Int.tmod (line + r.scroll_y) 256) = (line + r.scroll_y) % 256 := by
      rw [Int.tmod_eq_emod (by omega) (by norm_num)]
      unfold toU32; omega
    have e3 : toU32 (r.tilemap_select : Int) = (r.tilemap_select : Int) := by
      unfold toU32; omega
    rw [if_neg (fun h => hw (hact.1 h)), e1, e2, e3,
      bg_pixel_eq r mem (((x : Int) + r.scroll_x) % 256) ((line + r.scroll_y) % 256)
        r.tilemap_select (by omega) (by omega) (by omega)]
    simp only [if_neg hw]

set_option maxRecDepth 100000 in
/-- Witness of C16: with the control byte `0x91` and the memory `memBG`, the pixel
at line 0, column 0 is `0x808080` (tile 1, colour index 1, shade 2). -/
theorem draw_bg_pixel_witness :
    Reachable (lcd_write_control LCD.init 0x91)
      ∧ (lcd_write_control LCD.init 0x91).bg_enabled ≠ 0
      ∧ draw_bg_and_window (lcd_write_control LCD.init 0x91) memBG fb0 0
          (0 * 640 + ((0 : Nat) : Int)) = 0x808080 :=
  ⟨Reachable.other _ _ Reachable.init (OtherStep.write_control _ 0x91 (by decide)),
    by decide,
    (draw_bg_pixel (lcd_write_control LCD.init 0x91) memBG fb0 0 0
      (Reachable.other _ _ Reachable.init (OtherStep.write_control _ 0x91 (by decide)))
      (by decide) (by decide) (Or.inr (by decide))).trans (by decide)⟩

/-! ## Background disabled -/

/-- C19: for a line (in 0..143 or not) on which the background layer is disabled
and the window is not active (window disabled, or `line < window_y`), `draw_bg_and_window` stores
the value 0 at column 0 of the line and returns: every other framebuffer cell,
columns 1..159 of the line included, keeps its prior content. -/
theorem draw_bg_disabled (r : LCD) (mem : Mem) (b : FB) (line : Int)
    (hbg : r.bg_enabled = 0)
    (hwin : r.window_enabled = 0 ∨ line < r.window_y) :
    draw_bg_and_window r mem b line (line * 640 + 0) = 0
      ∧ (∀ k, k ≠ line * 640 + 0 → draw_bg_and_window r mem b line k = b k)
      ∧ (∀ x : Int, 1 ≤ x → x ≤ 159 →
          draw_bg_and_window r mem b line (line * 640 + x) = b (line * 640 + x)) := by
  have hw : ¬ (line ≥ r.window_y ∧ r.window_enabled ≠ 0 ∧ line - r.window_y < 144) := by
    rintro ⟨h1, h2, _⟩
    rcases hwin with h | h
    · exact h2 h
    · omega
  have he : draw_bg_and_window r mem b line = store b (line * 640 + 0) 0 := by
    show draw_bg_loop r mem line (159 + 1) 0 b = _
    rw [draw_bg_loop]
    have h0 : (0 : Int) < 160 := by decide
    rw [if_pos h0, if_neg hw, if_pos hbg]
  rw [he]
  refine ⟨by simp [store], ?_, ?_⟩
  · intro k hk
    have hk1 : ¬ (k = line * 640 + 0) := hk
    simp only [store, hk1, if_false]
  · intro x h1 _
    have hne : ¬ (line * 640 + x = line * 640 + 0) := by omega
    simp only [store, hne, if_false]

set_option maxRecDepth 100000 in
/-- Witness of C19: in the initial state (background and window disabled), line 5
of a white framebuffer gets 0 at column 0 and stays white at column 1. -/
theorem draw_bg_disabled_witness :
    LCD.init.bg_enabled = 0 ∧ LCD.init.window_enabled = 0
      ∧ draw_bg_and_window LCD.init mem0 fbW 5 (5 * 640 + 0) = 0
      ∧ draw_bg_and_window LCD.init mem0 fbW 5 (5 * 640 + 1) = 0xFFFFFF := by
  have h := draw_bg_disabled LCD.init mem0 fbW 5 (by decide) (Or.inl (by decide))
  exact ⟨by decide, by decide, h.1, (h.2.2 1 (by decide) (by decide)).trans (by decide)⟩

/-! ## The stored-but-unread registers -/

theorem select_loop_unread (r : LCD) (e s w : Nat) (mem : Mem) (line : Int) :
    ∀ (fuel i : Nat) (a : List Sprite) (c : Nat),
      select_loop (with_unread r e s w) mem line fuel i a c = select_loop r mem line fuel i a c := by
  intro fuel
  induction fuel with
  | zero => intro i a c; rfl
  | succ fuel ih =>
    intro i a c
    simp only [select_loop, ih]
    rfl

theorem draw_bg_loop_unread (r : LCD) (e s w : Nat) (mem : Mem) (line : Int) :
    ∀ (fuel : Nat) (x : Int) (b : FB),
      draw_bg_loop (with_unread r e s w) mem line fuel x b = draw_bg_loop r mem line fuel x b := by
  intro fuel
  induction fuel with
  | zero => intro x b; rfl
  | succ fuel ih =>
    intro x b
    simp only [draw_bg_loop, ih]
    rfl

theorem render_line_unread (r : LCD) (e s w : Nat) (mem : Mem) (b : FB) (line : Int) :
    render_line (with_unread r e s w) mem b line = render_line r mem b line := by
  unfold render_line select_sprites draw_bg_and_window
  rw [select_loop_unread]
  have hb : ∀ b, draw_bg_loop (with_unread r e s w) mem line 160 0 b
      = draw_bg_loop r mem line 160 0 b := draw_bg_loop_unread r e s w mem line 160 0
  simp only [hb]
  rfl

theorem lcd_cycle_unread_eq (r : LCD) (e s w : Nat) (mem : Mem) (b : FB) (cycles : Int)
    (close : Bool) :
    lcd_cycle (with_unread r e s w) mem b cycles close
      = (lcd_cycle r mem b cycles close).map
          (fun t => { t with regs := with_unread t.regs e s w }) := by
  cases close with
  | true => rfl
  | false =>
    have hreg : tick_regs (with_unread r e s w) cycles
        = with_unread (tick_regs r cycles) e s w := rfl
    rcases lcd_cycle_exact r mem b cycles with ⟨_, _, b1, hb, h⟩ | ⟨_, _, h⟩ | ⟨_, _, h⟩ <;>
      rcases lcd_cycle_exact (with_unread r e s w) mem b cycles with
        ⟨g1, g2, c1, hc, g⟩ | ⟨g1, g2, g⟩ | ⟨g1, g2, g⟩
    all_goals first
      | (rw [hreg, render_line_unread, hb, Option.some.injEq] at hc
         rw [h, g, ← hc]
         rfl)
      | (rw [h, g]; rfl)
      | (exfalso
         have p1 : (with_unread r e s w).prev_line = r.prev_line := rfl
         rw [p1] at g1
         try rw [p1] at g2
         omega)

/-- C20: for two register states that differ only in `lcd_enabled`,
`sprites_enabled` and `window_x`, and the same cycle counter, memory, framebuffer
and `prev_line`/`prev_mode`, a tick of `lcd_cycle` returns in both, with the same
return value, line, mode, status byte, calls (interrupt requests, rendering,
frame) and framebuffer; the registers afterwards differ again only in those
three; and `render_line` alone gives the same framebuffer for every line. -/
theorem lcd_cycle_unread (r : LCD) (e s w : Nat) (mem : Mem) (b : FB) (cycles : Int)
    (close : Bool) :
    ∃ t1 t2, lcd_cycle r mem b cycles close = some t1
      ∧ lcd_cycle (with_unread r e s w) mem b cycles close = some t2
      ∧ t2.ret = t1.ret
      ∧ t2.regs.lcd_line = t1.regs.lcd_line
      ∧ t2.regs.lcd_mode = t1.regs.lcd_mode
      ∧ lcd_get_stat t2.regs = lcd_get_stat t1.regs
      ∧ t2.events = t1.events
      ∧ t2.fb = t1.fb
      ∧ t2.regs = with_unread t1.regs e s w
      ∧ (∀ (fb : FB) (line : Int),
          render_line (with_unread r e s w) mem fb line = render_line r mem fb line) := by
  have h := lcd_cycle_unread_eq r e s w mem b cycles close
  have htot : ∃ t1, lcd_cycle r mem b cycles close = some t1 := by
    cases close with
    | true => exact ⟨_, rfl⟩
    | false =>
      obtain ⟨fb, rest, h1, _⟩ := lcd_cycle_run r mem b cycles
      exact ⟨_, h1⟩
  obtain ⟨t1, h1⟩ := htot
  rw [h1, Option.map_some'] at h
  exact ⟨t1, _, h1, h, rfl, rfl, rfl, rfl, rfl, rfl, rfl,
    fun fb line => render_line_unread r e s w mem fb line⟩

/-! ## Repeated coincidence interrupt -/

set_option maxRecDepth 100000 in
/-- C18, the code at the failing input: with the coincidence interrupt enabled
(`lcd_write_stat(0x40)`) and `line_compare = 0`, the ticks at cycle values 0 and 1
both compute line 0 and mode 2, and the second tick still requests the LCD-STAT
interrupt. -/
theorem stat_coincidence_refires :
    two_ticks (lcd_set_ly_compare (lcd_write_stat LCD.init 0x40) 0) mem0 fb0 0 1
      = some (0, 2, 0, 2, [Event.interrupt Intr.INTR_LCDSTAT]) := by
  decide

/-! ## Every access of a scanline stays within its table -/

theorem select_trace_ok (r : LCD) (mem : Mem) (line : Int) :
    ∀ (fuel i c : Nat), ∀ a ∈ select_trace r mem line fuel i c, Access.ok line a := by
  intro fuel
  induction fuel with
  | zero => intro i c a ha; simp [select_trace] at ha
  | succ fuel ih =>
    intro i c
    unfold select_trace
    by_cases hi : i < 40
    · rw [if_pos hi]
      simp only []
      rw [List.forall_mem_cons]
      refine ⟨by simp only [Access.ok]; omega, ?_⟩
      split_ifs
      · exact ih (i + 1) c
      · rw [List.forall_mem_append]
        refine ⟨?_, by simp⟩
        simp only [List.forall_mem_cons, Access.ok, List.not_mem_nil, false_implies,
          implies_true, and_true]
        omega
      · rw [List.forall_mem_append]
        refine ⟨?_, ih (i + 1) (c + 1)⟩
        simp only [List.forall_mem_cons, Access.ok, List.not_mem_nil, false_implies,
          implies_true, and_true]
        omega
      · simp
    · rw [if_neg hi]
      simp

theorem bg_pixel_trace_ok (r : LCD) (mem : Mem) (line x xm ym ms : Int) (hi : Inv r)
    (hx : 0 ≤ x ∧ x < 160) (hxm : 0 ≤ xm ∧ xm < 256) (hym : 0 ≤ ym ∧ ym < 256)
    (hms : 0 ≤ ms ∧ ms ≤ 1) :
    ∀ a ∈ bg_pixel_trace r mem line x xm ym ms, Access.ok line a := by
  obtain ⟨_, m1, m2⟩ := bg_map_addr_eq xm ym ms hxm hym hms
  obtain ⟨r1, r2, r3, r4⟩ := bg_row_addr_eq r mem xm ym ms
  have hc : bg_colour r mem xm ym ms ≤ 3 := colour_index_le _ _ _
  have hs := idx_le_of_mem _ hi.bgpal.2 (bg_colour r mem xm ym ms)
  unfold bg_pixel_trace
  simp only [List.forall_mem_cons, Access.ok, List.not_mem_nil, false_implies, implies_true,
    and_true, r1, r2]
  refine ⟨⟨m1, m2⟩, ?_, ?_, hc, hs, ?_⟩ <;> omega

theorem bg_trace_ok (r : LCD) (mem : Mem) (line : Int) (hi : Inv r)
    (hline : 0 ≤ line ∧ line < 144) :
    ∀ (fuel : Nat) (x : Int), 0 ≤ x → ∀ a ∈ bg_trace r mem line fuel x, Access.ok line a := by
  obtain ⟨_, hwts, _, hts, _, _, _, _⟩ := hi.flags
  obtain ⟨hsx, hsy, _, hwy, _⟩ := hi.bytes
  intro fuel
  induction fuel with
  | zero => intro x _ a ha; simp [bg_trace] at ha
  | succ fuel ih =>
    intro x hx0
    unfold bg_trace
    by_cases hx : x < 160
    · rw [if_pos hx]
      by_cases hw : line ≥ r.window_y ∧ r.window_enabled ≠ 0 ∧ line - r.window_y < 144
      · rw [if_pos hw, List.forall_mem_append]
        refine ⟨?_, ih (x + 1) (by omega)⟩
        have e1 : toU32 x = x := by unfold toU32; omega
        have e2 : toU32 (line - r.window_y) = line - r.window_y := by
          have := hw.1
          unfold toU32; omega
        have e3 : toU32 (r.window_tilemap_select : Int) = (r.window_tilemap_select : Int) := by
          unfold toU32; omega
        rw [e1, e2, e3]
        exact bg_pixel_trace_ok r mem line x x (line - r.window_y) r.window_tilemap_select hi
          ⟨hx0, hx⟩ (by omega) (by have := hw.1; omega) (by omega)
      · rw [if_neg hw]
        by_cases hbg : r.bg_enabled = 0
        · rw [if_pos hbg]
          simp only [List.forall_mem_cons, Access.ok, List.not_mem_nil, false_implies,
            implies_true, and_true]
          omega
        · rw [if_neg hbg, List.forall_mem_append]
          refine ⟨?_, ih (x + 1) (by omega)⟩
          have e1 : toU32 (Int.tmod (x + r.scroll_x) 256) = (x + r.scroll_x) % 256 := by
            rw [Int.tmod_eq_emod (by omega) (by norm_num)]
            unfold toU32; omega
          have e2 : toU32 (Int.tmod (line + r.scroll_y) 256) = (line + r.scroll_y) % 256 := by
            rw [Int.tmod_eq_emod (by omega) (by norm_num)]
            unfold toU32; omega
          have e3 : toU32 (r.tilemap_select : Int) = (r.tilemap_select : Int) := by
            unfold toU32; omega
          rw [e1, e2, e3]
          exact bg_pixel_trace_ok r mem line x ((x + r.scroll_x) % 256)
            ((line + r.scroll_y) % 256) r.tilemap_select hi ⟨hx0, hx⟩ (by omega) (by omega)
            (by omega)
    · rw [if_neg hx]
      simp

theorem sprite_pal_le (r : LCD) (hi : Inv r) (s : Sprite) (i : Nat) :
    idx (sprite_pal r s) i ≤ 3 := by
  unfold sprite_pal
  split
  · exact idx_le_of_mem _ hi.pal2.2.1 i
  · exact idx_le_of_mem _ hi.pal1.2.1 i

theorem sprite_pixel_trace_ok (r : LCD) (mem : Mem) (line : Int) (s : Sprite) (x : Nat)
    (hi : Inv r) (hline : 0 ≤ line ∧ line < 144) (hs : -8 ≤ s.x ∧ s.x ≤ 247) (hx : x < 8) :
    ∀ a ∈ sprite_pixel_trace r mem line s x, Access.ok line a := by
  obtain ⟨g1, g2⟩ := cell_guard line s x hx hline hs
  unfold sprite_pixel_trace
  by_cases h160 : toU32 (s.x + (x : Int)) ≥ 160
  · rw [if_pos h160]; simp
  · rw [if_neg h160]
    have hlt : toU32 (s.x + (x : Int)) < 160 := by omega
    have hcell := g2 hlt
    have hr := g1.1 hlt
    by_cases hc : sprite_colour r mem line s x = 0
    · rw [if_pos hc]; simp
    · rw [if_neg hc, List.forall_mem_append]
      have hcol : sprite_colour r mem line s x ≤ 3 := colour_index_le _ _ _
      have hb0 := idx_le_of_mem _ hi.bgpal.2 0
      have hsp := sprite_pal_le r hi s (sprite_colour r mem line s x)
      constructor
      · split
        · simp only [List.forall_mem_cons, Access.ok, List.not_mem_nil, false_implies,
            implies_true, and_true, hcell]
          refine ⟨?_, by omega, hb0⟩
          omega
        · simp
      · simp only [List.forall_mem_cons, Access.ok, List.not_mem_nil, false_implies,
          implies_true, and_true, hcell]
        refine ⟨hcol, hsp, ?_⟩
        omega

theorem sprite_pixels_trace_ok (r : LCD) (mem : Mem) (line : Int) (s : Sprite)
    (hi : Inv r) (hline : 0 ≤ line ∧ line < 144) (hs : -8 ≤ s.x ∧ s.x ≤ 247) :
    ∀ xs : List Nat, (∀ x ∈ xs, x < 8) →
      ∀ a ∈ sprite_pixels_trace r mem line s xs, Access.ok line a := by
  intro xs
  induction xs with
  | nil => intro _ a ha; simp [sprite_pixels_trace] at ha
  | cons x xs ih =>
    intro h
    unfold sprite_pixels_trace
    rw [List.forall_mem_append]
    exact ⟨sprite_pixel_trace_ok r mem line s x hi hline hs (h x (List.mem_cons_self x xs)),
      ih (fun y hy => h y (List.mem_cons_of_mem x hy))⟩

theorem sprite_trace_ok (r : LCD) (mem : Mem) (line : Int) (s : Sprite)
    (hi : Inv r) (hline : 0 ≤ line ∧ line < 144) (hs : -8 ≤ s.x ∧ s.x ≤ 247)
    (hsel : s.y ≤ line ∧ line < s.y + sprite_height r) (htile : s.tile < 256) :
    ∀ a ∈ sprite_trace r mem line s, Access.ok line a := by
  have a1 := (sprite_tile_addr_eq r line s hsel htile).1
  have hb : 0x8000 ≤ sprite_tile_addr r line s ∧ sprite_tile_addr r line s ≤ 0x97FE := by
    rw [a1]
    unfold sprite_height at hsel ⊢
    split_ifs at hsel ⊢ <;> omega
  have hb2 : toU32 (sprite_tile_addr r line s + 1) = sprite_tile_addr r line s + 1 := by
    unfold toU32; omega
  unfold sprite_trace
  split
  · simp
  · rw [List.forall_mem_append]
    refine ⟨?_, sprite_pixels_trace_ok r mem line s hi hline hs (List.range 8)
      (fun x hx => List.mem_range.1 hx)⟩
    simp only [List.forall_mem_cons, Access.ok, List.not_mem_nil, false_implies, implies_true,
      and_true, hb2]
    omega

theorem sprites_trace_ok (r : LCD) (mem : Mem) (line : Int)
    (hi : Inv r) (hline : 0 ≤ line ∧ line < 144) :
    ∀ l : List Sprite,
      (∀ s ∈ l, (-8 ≤ s.x ∧ s.x ≤ 247) ∧ (s.y ≤ line ∧ line < s.y + sprite_height r)
        ∧ s.tile < 256) →
      ∀ a ∈ sprites_trace r mem line l, Access.ok line a := by
  intro l
  induction l with
  | nil => intro _ a ha; simp [sprites_trace] at ha
  | cons s l ih =>
    intro h
    unfold sprites_trace
    rw [List.forall_mem_append]
    obtain ⟨h1, h2, h3⟩ := h s (List.mem_cons_self s l)
    exact ⟨sprite_trace_ok r mem line s hi hline h1 h2 h3,
      ih (fun t ht => h t (List.mem_cons_of_mem s ht))⟩

theorem selected_good (r : LCD) (mem : Mem) (line : Int) (s : Sprite)
    (h : s ∈ selected r mem line) :
    (-8 ≤ s.x ∧ s.x ≤ 247) ∧ (s.y ≤ line ∧ line < s.y + sprite_height r) ∧ s.tile < 256 := by
  unfold selected at h
  obtain ⟨i, hi, rfl⟩ := List.mem_map.1 h
  have hm : i ∈ matching r mem line := List.mem_of_mem_take hi
  unfold matching at hm
  have hon := (List.mem_filter.1 hm).2
  unfold on_line at hon
  have h4 : (4 : Int) * (i : Int) = (i : Int) * 4 := by ring
  rw [h4] at hon
  have hx := mem_get_raw_lt mem (0xFE00 + (i : Int) * 4 + 1)
  have ht := mem_get_raw_lt mem (0xFE00 + (i : Int) * 4 + 2)
  simp only [decide_eq_true_eq] at hon
  simp only [oam_sprite]
  exact ⟨by omega, hon, ht⟩

theorem sprite_row_range (r : LCD) (line : Int) (s : Sprite)
    (hsel : s.y ≤ line ∧ line < s.y + sprite_height r) :
    0 ≤ (if s.flags &&& 0x40 ≠ 0 then (sprite_height r - 1) - (line - s.y) else line - s.y)
      ∧ (if s.flags &&& 0x40 ≠ 0 then (sprite_height r - 1) - (line - s.y) else line - s.y)
          < sprite_height r
      ∧ sprite_line r line s
          = (if s.flags &&& 0x40 ≠ 0 then (sprite_height r - 1) - (line - s.y)
            else line - s.y) := by
  unfold sprite_line toU32 VFLIP
  unfold sprite_height at hsel ⊢
  split_ifs at hsel ⊢ <;> omega

/-- C17: in a reachable register state, for every line in 0..143 and every memory
content, every array access of `render_line` stays within its table: the sprite
attribute reads are in `0xFE00..0xFE9F`, the tilemap reads in `0x9800..0x9FFF`, the
tile-data reads (background, window and sprites) in `0x8000..0x97FF`, the palette
and shade-table indices in 0..3, the framebuffer indices in
`line*640 .. line*640 + 639`; and the row of every selected sprite, flipped or
not, is in `0..height-1`. -/
theorem render_line_in_bounds (r : LCD) (mem : Mem) (line : Int) (hr : Reachable r)
    (hline : 0 ≤ line ∧ line < 144) :
    ∃ tr, render_line_trace r mem line = some tr
      ∧ (∀ a ∈ tr, Access.ok line a)
      ∧ (∀ s ∈ selected r mem line,
          0 ≤ (if s.flags &&& 0x40 ≠ 0 then (sprite_height r - 1) - (line - s.y)
              else line - s.y)
          ∧ (if s.flags &&& 0x40 ≠ 0 then (sprite_height r - 1) - (line - s.y)
              else line - s.y) < sprite_height r
          ∧ sprite_line r line s
              = (if s.flags &&& 0x40 ≠ 0 then (sprite_height r - 1) - (line - s.y)
                else line - s.y)) := by
  have hi := reachable_inv r hr
  have hss : r.sprite_size ≤ 1 := hi.flags.2.2.2.2.2.1
  obtain ⟨s1, e, hlen, ht⟩ := select_sprites_selected r mem line hss
  have hmark : ∀ a ∈ [Access.fb (line * 640 + 169), Access.fb (line * 640 + 168),
      Access.fb (line * 640 + 173), Access.fb (line * 640 + 172)], Access.ok line a := by
    simp only [List.forall_mem_cons, Access.ok, List.not_mem_nil, false_implies, implies_true,
      and_true]
    omega
  have hrow : ∀ s ∈ selected r mem line,
      0 ≤ (if s.flags &&& 0x40 ≠ 0 then (sprite_height r - 1) - (line - s.y) else line - s.y)
      ∧ (if s.flags &&& 0x40 ≠ 0 then (sprite_height r - 1) - (line - s.y) else line - s.y)
          < sprite_height r
      ∧ sprite_line r line s
          = (if s.flags &&& 0x40 ≠ 0 then (sprite_height r - 1) - (line - s.y)
            else line - s.y) :=
    fun s hs => sprite_row_range r line s (selected_good r mem line s hs).2.1
  unfold render_line_trace
  rw [e]
  by_cases hc : (selected r mem line).length = 0
  · refine ⟨select_trace r mem line 40 0 0 ++ bg_trace r mem line 160 0
        ++ sprites_trace r mem line (s1.take (selected r mem line).length)
        ++ [Access.fb (line * 640 + 169), Access.fb (line * 640 + 168),
          Access.fb (line * 640 + 173), Access.fb (line * 640 + 172)],
      by simp only [hc, ne_eq, not_true_eq_false, if_false], ?_, hrow⟩
    simp only [List.forall_mem_append]
    refine ⟨⟨⟨select_trace_ok r mem line 40 0 0, bg_trace_ok r mem line hi hline 160 0 le_rfl⟩,
      ?_⟩, hmark⟩
    rw [ht]
    exact sprites_trace_ok r mem line hi hline _ (fun s hs => selected_good r mem line s hs)
  · obtain ⟨out, eo, _, hperm, _, _⟩ :=
      sort_sprites_spec s1 (selected r mem line).length hlen
    rw [ht] at hperm
    refine ⟨select_trace r mem line 40 0 0 ++ bg_trace r mem line 160 0
        ++ sprites_trace r mem line (out.take (selected r mem line).length)
        ++ [Access.fb (line * 640 + 169), Access.fb (line * 640 + 168),
          Access.fb (line * 640 + 173), Access.fb (line * 640 + 172)],
      by simp only [ne_eq, hc, not_false_eq_true, if_true, eo], ?_, hrow⟩
    simp only [List.forall_mem_append]
    refine ⟨⟨⟨select_trace_ok r mem line 40 0 0, bg_trace_ok r mem line hi hline 160 0 le_rfl⟩,
      ?_⟩, hmark⟩
    exact sprites_trace_ok r mem line hi hline _
      (fun s hs => selected_good r mem line s (hperm.subset hs))

/-- Witness of C17: line 0 of the initial state with the two sprites of `memP`. -/
theorem render_line_in_bounds_witness :
    Reachable LCD.init ∧ ((0 : Int) ≤ 0 ∧ (0 : Int) < 144)
      ∧ ∃ tr, render_line_trace LCD.init memP 0 = some tr ∧ ∀ a ∈ tr, Access.ok 0 a := by
  obtain ⟨tr, h1, h2, _⟩ := render_line_in_bounds LCD.init memP 0 Reachable.init (by decide)
  exact ⟨Reachable.init, by decide, tr, h1, h2⟩

end Lcd
